import Mathlib

/-!
# Nextion LCD driver: protocol engine

Shallow embedding of the reply parser and request/reply coordinator of the
`NxtLcd` class (`src/src/basic_func.cpp`, `src/src/nxt_lcd.h`).

* Bytes and all `uint8_t` / `uint16_t` values are natural numbers.  The elements of `rx`
  are what `serial.read()` returns while `serial.available()` is non-zero, that is byte
  values `0..255` (predicate `Bytes`); they are stored as they come.
* The serial port is a pair of byte lists: `rx` holds the bytes that
  `serial.available()` reports (head is the next `serial.read()`), `tx` collects
  what `serial.write` sent.  `script` holds, for each future `serial.write`, the
  bytes the display puts on the line in answer to it.
* `delay(ms)` adds `ms` to `elapsed`.
* The two `static` locals of `readBuf` (`cntStatic`, `expLen`) are fields of the
  state, as they survive between calls.
* A store outside the array it is aimed at is undefined behaviour in C++; the
  embedding reports it as a `Fault` instead of inventing a memory layout.
-/

set_option maxRecDepth 100000

namespace NxtLcd

/-! ## Constants of `nxt_lcd.h` -/

def NXT_BUF_SIZE : Nat := 128
def NXT_EV_BUF_SIZE : Nat := 10
def NXT_REPLY_WAIT : Nat := 20

/-! ### `cmdReply_t` -/

def cmdFail : Nat := 0x00
def cmdOk : Nat := 0x01
def cmdInvalidCid : Nat := 0x02
def cmdInvalidPage : Nat := 0x03
def cmdInvPicId : Nat := 0x04
def cmdInvFontId : Nat := 0x05
def cmdInvVar : Nat := 0x1A
def cmdBufOvfl : Nat := 0x24
def cmdTouchCompEv : Nat := 0x65
def cmdSendme : Nat := 0x66
def cmdTouchXYaw : Nat := 0x67
def cmdTouchXYsl : Nat := 0x68
def cmdGetStr : Nat := 0x70
def cmdGetNum : Nat := 0x71
def cmdSleepOn : Nat := 0x86
def cmdSleepOff : Nat := 0x87
def cmdDevReady : Nat := 0x88
def cmdTDEnd : Nat := 0xFD
def cmdTDReady : Nat := 0xFE

/-! ### `readCode_t` -/

def noReply : Nat := 0
def replyCmdOk : Nat := 1
def notInit : Nat := 10
def noComplete : Nat := 11
def bufOvfl : Nat := 12
def invalidData : Nat := 13
def replyUnknown : Nat := 14
def notSupported : Nat := 15
def dataTooBig : Nat := 16
def bugTest : Nat := 17
def replyCmdFail : Nat := 20
def replyWrongId : Nat := 21
def replyWrongVar : Nat := 22
def replyBufOvfl : Nat := 23
def replyDevReady : Nat := 30
def replyTouchEv : Nat := 31
def replyStartUp : Nat := 32
def replySleepEv : Nat := 33
def replyGetStr : Nat := 40
def replyGetNum : Nat := 41
def replySendMe : Nat := 42
def replyTDReady : Nat := 43
def replyTDEnd : Nat := 44

/-- The 19 opcodes of `cmdReply_t`. -/
def knownOpcodes : List Nat :=
  [cmdFail, cmdOk, cmdInvalidCid, cmdInvalidPage, cmdInvPicId, cmdInvFontId, cmdInvVar,
   cmdBufOvfl, cmdTouchCompEv, cmdSendme, cmdTouchXYaw, cmdTouchXYsl, cmdGetStr, cmdGetNum,
   cmdSleepOn, cmdSleepOff, cmdDevReady, cmdTDEnd, cmdTDReady]

/-! ## Data model -/

/-- The two byte arrays a receive pointer can be aimed at. -/
inductive BufId where
  | sendBuf
  | evtBuf
  deriving DecidableEq, Repr

/-- Undefined behaviour made explicit: an access at `index` outside the array `buf`. -/
inductive Fault where
  | outOfBounds (buf : BufId) (index : Nat)
  deriving DecidableEq, Repr

deriving instance DecidableEq for Except

/-- Structure `nxtEvent_t`. -/
structure nxtEvent_t where
  evCode : Nat
  page_X : Nat
  compId_Y : Nat
  event : Nat
  deriving DecidableEq, Repr

end NxtLcd

/-- The `NxtLcd` object together with its serial line and the `static` locals of
`readBuf`. -/
structure NxtLcd where
  /-- bytes pending on the line: `serial.available()` is the length, `serial.read()` the head -/
  rx : List Nat
  /-- every byte handed to `serial.write`, oldest first -/
  tx : List Nat
  /-- what the display answers to each coming `serial.write`, in order -/
  script : List (List Nat)
  /-- milliseconds spent in `delay` -/
  elapsed : Nat
  initialized : Nat
  debug : Nat
  sendBuf : List Nat
  evtBuf : List Nat
  recvBuf : NxtLcd.BufId
  lastTouchCode : Nat
  dispType : Nat
  wrongIdCode : Nat
  haveEvent : Nat
  getStrLen : Nat
  sysProp : List Nat
  lastEvent : NxtLcd.nxtEvent_t
  /-- `static uint16_t cntStatic` of `readBuf` -/
  cntStatic : Nat
  /-- `static uint8_t expLen` of `readBuf` -/
  expLen : Nat
  deriving DecidableEq, Repr

namespace NxtLcd

/-- Capacity of the array behind a buffer name (`sendBuf[NXT_BUF_SIZE]`,
`evtBuf[NXT_EV_BUF_SIZE]`). -/
def capacity : BufId → Nat
  | .sendBuf => NXT_BUF_SIZE
  | .evtBuf => NXT_EV_BUF_SIZE

/-- Contents of the array a buffer name stands for. -/
def bufOf (s : NxtLcd) : BufId → List Nat
  | .sendBuf => s.sendBuf
  | .evtBuf => s.evtBuf

/-- Replace the contents of the array a buffer name stands for. -/
def setBuf (s : NxtLcd) (b : BufId) (l : List Nat) : NxtLcd :=
  match b with
  | .sendBuf => { s with sendBuf := l }
  | .evtBuf => { s with evtBuf := l }

/-- Read `recvBuf[i]`. -/
def recvAt (s : NxtLcd) (i : Nat) : Nat :=
  (s.bufOf s.recvBuf).getD i 0

/-- Store `recvBuf[i] = v`; a store at or past the capacity of the target array is a fault. -/
def recvStore (s : NxtLcd) (i v : Nat) : Except Fault NxtLcd :=
  if i < capacity s.recvBuf then
    .ok (s.setBuf s.recvBuf ((s.bufOf s.recvBuf).set i v))
  else
    .error (.outOfBounds s.recvBuf i)

/-- Library `memset(buf, 0, n)` on a buffer of the object: zero the first `n` bytes; it is a
fault when `n` exceeds the capacity of the array. -/
def memsetZero (s : NxtLcd) (b : BufId) (n : Nat) : Except Fault NxtLcd :=
  if n ≤ capacity b then
    .ok (s.setBuf b (List.replicate n 0 ++ (s.bufOf b).drop n))
  else
    .error (.outOfBounds b (capacity b))

/-- Inline member `bufReset(buf)`: `memset(buf,0,NXT_BUF_SIZE)`. -/
def bufReset (s : NxtLcd) (b : BufId) : Except Fault NxtLcd :=
  memsetZero s b NXT_BUF_SIZE

/-- Library `delay(ms)`. -/
def delay (s : NxtLcd) (ms : Nat) : NxtLcd :=
  { s with elapsed := s.elapsed + ms }

/-- Accessor `getWrongId()`. -/
def getWrongId (s : NxtLcd) : Nat := s.wrongIdCode

/-- First `switch` of `readBuf` (taken at `cnt == 0`): expected position of the last
terminator byte, chosen from the leading byte. -/
def expLenOf (op : Nat) : Nat :=
  if op = cmdTouchCompEv then 6
  else if op = cmdTouchXYaw ∨ op = cmdTouchXYsl then 8
  else if op = cmdGetStr ∨ op = cmdSendme then 4
  else if op = cmdGetNum then 7
  else 3

/-- Second `switch` of `readBuf`, entered with `ret = replyUnknown` once the terminator is
seen at position `cnt`: the reply code and the members it updates. -/
def classify (s : NxtLcd) (cnt : Nat) : Nat × NxtLcd :=
  if s.recvAt 0 = cmdFail then
    let ret := if s.recvAt 1 = 0x00 ∧ s.recvAt 2 = 0x00 ∧ cnt = 5 then replyStartUp
               else replyUnknown
    (if cnt = 3 then replyCmdFail else ret, s)
  else if s.recvAt 0 = cmdOk then
    (if cnt = 3 then replyCmdOk else replyUnknown, s)
  else if s.recvAt 0 = cmdDevReady then
    (if cnt = 3 then replyDevReady else replyUnknown, s)
  else if s.recvAt 0 = cmdInvalidCid ∨ s.recvAt 0 = cmdInvalidPage ∨
      s.recvAt 0 = cmdInvPicId ∨ s.recvAt 0 = cmdInvFontId then
    if cnt = 3 then (replyWrongId, { s with wrongIdCode := s.recvAt 0 })
    else (replyUnknown, s)
  else if s.recvAt 0 = cmdInvVar then
    (if cnt = 3 then replyWrongVar else replyUnknown, s)
  else if s.recvAt 0 = cmdBufOvfl then
    if cnt = 3 then (replyBufOvfl, s.delay (NXT_REPLY_WAIT * 2))
    else (replyUnknown, s)
  else if s.recvAt 0 = cmdTouchCompEv then
    if cnt = 6 then (replyTouchEv, { s with lastTouchCode := cmdTouchCompEv })
    else (replyUnknown, s)
  else if s.recvAt 0 = cmdTouchXYaw then
    if cnt = 8 then (replyTouchEv, { s with lastTouchCode := cmdTouchXYaw })
    else (replyUnknown, s)
  else if s.recvAt 0 = cmdTouchXYsl then
    if cnt = 8 then (replyTouchEv, { s with lastTouchCode := cmdTouchXYsl })
    else (replyUnknown, s)
  else if s.recvAt 0 = cmdSleepOn ∨ s.recvAt 0 = cmdSleepOff then
    if cnt = 3 then (replySleepEv, { s with lastTouchCode := s.recvAt 0 })
    else (replyUnknown, { s with lastTouchCode := 11 })
  else if s.recvAt 0 = cmdGetStr then
    (replyGetStr, { s with getStrLen := cnt - 3 })
  else if s.recvAt 0 = cmdGetNum then
    (if cnt = 7 then replyGetNum else replyUnknown, s)
  else if s.recvAt 0 = cmdSendme then
    (if cnt = 4 then replySendMe else replyUnknown, s)
  else if s.recvAt 0 = cmdTDEnd then
    (if cnt = 3 then replyTDEnd else replyUnknown, s)
  else if s.recvAt 0 = cmdTDReady then
    (if cnt = 3 then replyTDReady else replyUnknown, s)
  else
    (replyUnknown, s)

/-- Tail of the terminator branch of `readBuf`: reset `cnt`, `cntStatic`, `expLen`, keep the
leading byte when the reply is unknown, and return. -/
def finishFrame (r : Nat × NxtLcd) : Nat × NxtLcd :=
  let s := { r.2 with cntStatic := 0, expLen := 3 }
  (r.1, if r.1 = replyUnknown then { s with wrongIdCode := s.recvAt 0 } else s)

/-- The `while(serial.available())` loop of `readBuf`.  The first argument is the content of
the line (`s.rx` on entry), `cnt` and `ret` are the locals of that name. -/
def readLoop (ckevt : Nat) : List Nat → Nat → Nat → NxtLcd → Except Fault (Nat × NxtLcd)
  | [], _, ret, s => .ok (ret, s)
  | b :: rest, cnt, _, s =>
    match recvStore { s with rx := rest } cnt b with
    | .error e => .error e
    | .ok s1 =>
      let s2 := if cnt = 0 then { s1 with expLen := expLenOf (s1.recvAt 0) } else s1
      if s2.expLen ≤ cnt ∧ s2.recvAt cnt = 0xFF ∧
          s2.recvAt (cnt - 1) = 0xFF ∧ s2.recvAt (cnt - 2) = 0xFF then
        .ok (finishFrame (classify s2 cnt))
      else
        let cnt1 := (cnt + 1) % 65536
        if ckevt > 0 then
          if cnt1 = NXT_EV_BUF_SIZE then
            match memsetZero { s2 with cntStatic := 0 } s2.recvBuf NXT_EV_BUF_SIZE with
            | .error e => .error e
            | .ok s3 => .ok (bufOvfl, s3)
          else
            readLoop ckevt rest cnt1 noComplete { s2 with cntStatic := cnt1 }
        else
          if cnt1 = NXT_BUF_SIZE then
            match bufReset { s2 with cntStatic := 0 } s2.recvBuf with
            | .error e => .error e
            | .ok s3 => .ok (bufOvfl, s3)
          else
            readLoop ckevt rest cnt1 noComplete { s2 with cntStatic := cnt1 }

/-- Method `readBuf(ckevt)`: read one telegram from the display into `recvBuf`. -/
def readBuf (ckevt : Nat) (s : NxtLcd) : Except Fault (Nat × NxtLcd) :=
  if s.initialized = 0 then .ok (notInit, s)
  else if ckevt > 0 then
    readLoop ckevt s.rx s.cntStatic noReply s
  else
    match bufReset s s.recvBuf with
    | .error e => .error e
    | .ok s1 => readLoop ckevt s1.rx 0 noReply { s1 with cntStatic := 0 }

/-- Event decoding of `readEvent`: `memset(&lastEvent,0,..)`, `evCode = buf[0]`, then the
`switch(buf[0])`. -/
def decodeEvent (buf : List Nat) : nxtEvent_t :=
  let ev : nxtEvent_t := { evCode := buf.getD 0 0, page_X := 0, compId_Y := 0, event := 0 }
  if buf.getD 0 0 = cmdTouchCompEv then
    { ev with page_X := buf.getD 1 0, compId_Y := buf.getD 2 0, event := buf.getD 3 0 }
  else if buf.getD 0 0 = cmdTouchXYaw ∨ buf.getD 0 0 = cmdTouchXYsl then
    { ev with page_X := (buf.getD 2 0 ||| (buf.getD 1 0 <<< 8)) % 65536,
              compId_Y := (buf.getD 4 0 ||| (buf.getD 3 0 <<< 8)) % 65536,
              event := buf.getD 5 0 }
  else if buf.getD 0 0 = cmdSleepOn ∨ buf.getD 0 0 = cmdSleepOff then ev
  else if buf.getD 0 0 = cmdSendme then { ev with page_X := buf.getD 1 0 }
  else ev

/-- Body of the `if(ebuf != NULL || res == ...)` block of `readEvent`: fill `lastEvent` from
`buf`, clear `evtBuf`, raise `haveEvent`. -/
def storeEvent (s : NxtLcd) (buf : BufId) : NxtLcd :=
  { s with lastEvent := decodeEvent (s.bufOf buf),
           evtBuf := List.replicate NXT_EV_BUF_SIZE 0 ++ s.evtBuf.drop NXT_EV_BUF_SIZE,
           haveEvent := 1 }

/-- Method `readEvent(ebuf)`; `none` is the `NULL` default. -/
def readEvent (ebuf : Option BufId) (s : NxtLcd) : Except Fault (Nat × NxtLcd) :=
  if s.initialized = 0 then .ok (notInit, s)
  else
    match ebuf with
    | none =>
      match readBuf 1 { s with recvBuf := BufId.evtBuf } with
      | .error e => .error e
      | .ok (res, s1) =>
        let s2 := if res = replyTouchEv ∨ res = replySleepEv ∨ res = replySendMe
                  then storeEvent s1 BufId.evtBuf else s1
        .ok (res, { s2 with recvBuf := BufId.sendBuf })
    | some buf => .ok (noComplete, storeEvent s buf)

/-- Method `ckEvents(lastEvt)`: the second component is the caller's struct afterwards. -/
def ckEvents (lastEvt : nxtEvent_t) (s : NxtLcd) : Except Fault (Nat × nxtEvent_t × NxtLcd) :=
  match (if s.haveEvent = 0 then readEvent none s else .ok (0, s)) with
  | .error e => .error e
  | .ok (_, s1) =>
    if s1.haveEvent = 1 then .ok (1, s1.lastEvent, { s1 with haveEvent := 0 })
    else .ok (0, lastEvt, s1)

/-- Library `strlen` on a member array: the number of bytes before the first NUL; running
off the end of the array is a fault. -/
def strlen (b : BufId) (l : List Nat) : Except Fault Nat :=
  if (l.takeWhile (fun x => x ≠ 0)).length < l.length then
    .ok (l.takeWhile (fun x => x ≠ 0)).length
  else
    .error (.outOfBounds b l.length)

/-- Call `serial.write(b, size)`: the bytes go out, the display puts its scripted answer on
the line, and the number of bytes written is returned. -/
def serialWrite (s : NxtLcd) (bytes : List Nat) : Nat × NxtLcd :=
  match s.script with
  | [] => (bytes.length, { s with tx := s.tx ++ bytes })
  | r :: rs => (bytes.length, { s with tx := s.tx ++ bytes, rx := s.rx ++ r, script := rs })

/-- Final comparison of `writeBuf`. -/
def compareReply (expReply res : Nat) : Nat :=
  if expReply > 0 then
    if res = expReply then replyCmdOk else res
  else
    if res = noReply ∨ res = replyCmdOk then replyCmdOk else res

/-- Part of `writeBuf` after the settle delay: read the reply, hand an intercepted event to
`readEvent(recvBuf)` and read again, then compare with `expReply`. -/
def awaitReply (expReply : Nat) (s : NxtLcd) : Except Fault (Nat × NxtLcd) :=
  match readBuf 0 s with
  | .error e => .error e
  | .ok (res, s1) =>
    if res = replyTouchEv ∨ res = replySleepEv ∨ res = replySendMe then
      match readEvent (some s1.recvBuf) s1 with
      | .error e => .error e
      | .ok (_, s2) =>
        match readBuf 0 s2 with
        | .error e => .error e
        | .ok (res2, s3) => .ok (compareReply expReply res2, s3)
    else
      .ok (compareReply expReply res, s1)

/-- Method `writeBuf(expReply, wait, size)`. -/
def writeBuf (expReply wait size : Nat) (s : NxtLcd) : Except Fault (Nat × NxtLcd) :=
  if s.initialized = 0 then .ok (notInit, s)
  else
    match readEvent none s with
    | .error e => .error e
    | .ok (_, s1) =>
      if size = 0 then
        match strlen BufId.sendBuf s1.sendBuf with
        | .error e => .error e
        | .ok n =>
          if n > 0 then
            let s2 := (serialWrite s1 (s1.sendBuf.take n)).2
            if expReply > 0 ∨ s2.debug > 0 then awaitReply expReply (s2.delay wait)
            else .ok (replyCmdOk, s2)
          else .ok (invalidData, s1)
      else if NXT_BUF_SIZE < size then .error (.outOfBounds BufId.sendBuf NXT_BUF_SIZE)
      else
        let w := serialWrite s1 (s1.sendBuf.take size)
        if w.1 ≠ size then .ok (replyCmdFail, w.2)
        else if expReply > 0 ∨ w.2.debug > 0 then awaitReply expReply (w.2.delay wait)
        else .ok (replyCmdOk, w.2)

/-! ## Vocabulary of the claims -/

/-- A driver on which `init()` ran and which is not inside `readEvent`: the receive pointer
is aimed at `sendBuf`, as the member initialiser `recvBuf=sendBuf` and the end of `readEvent`
leave it, and the two arrays have their declared sizes. -/
def Ready (s : NxtLcd) : Prop :=
  s.initialized ≠ 0 ∧ s.recvBuf = BufId.sendBuf ∧
    s.sendBuf.length = NXT_BUF_SIZE ∧ s.evtBuf.length = NXT_EV_BUF_SIZE

instance (s : NxtLcd) : Decidable (Ready s) := by
  unfold Ready; infer_instance

/-- The byte string `cur`, read from position 0, has its terminator recognised at its last
byte: that position is at least the expected length of the leading byte and the last three
bytes are `0xFF`. -/
def endsFrame (cur : List Nat) : Prop :=
  expLenOf (cur.getD 0 0) ≤ cur.length - 1 ∧ cur.getD (cur.length - 1) 0 = 0xFF ∧
    cur.getD (cur.length - 2) 0 = 0xFF ∧ cur.getD (cur.length - 3) 0 = 0xFF

instance (cur : List Nat) : Decidable (endsFrame cur) := by
  unfold endsFrame; infer_instance

/-- None of the first `n` non-empty initial segments of `bs` ends a frame. -/
def noFrameWithin (bs : List Nat) (n : Nat) : Prop :=
  ∀ j, j < n → ¬ endsFrame (bs.take (j + 1))

instance (bs : List Nat) (n : Nat) : Decidable (noFrameWithin bs n) := by
  unfold noFrameWithin; infer_instance

/-- A complete frame that fits the receive buffer: the terminator is recognised at the last
byte and at no earlier one, and there are at most `NXT_BUF_SIZE` bytes. -/
def CompleteFrame (f : List Nat) : Prop :=
  endsFrame f ∧ noFrameWithin f (f.length - 1) ∧ f.length ≤ NXT_BUF_SIZE

instance (f : List Nat) : Decidable (CompleteFrame f) := by
  unfold CompleteFrame; infer_instance

/-- Every element is a byte value. -/
def Bytes (l : List Nat) : Prop := ∀ b ∈ l, b < 256

instance (l : List Nat) : Decidable (Bytes l) := by
  unfold Bytes; infer_instance

/-- Receive buffer image with `cur` stored from index 0 and zeros behind it. -/
def padded (cur : List Nat) : List Nat :=
  cur ++ List.replicate (NXT_BUF_SIZE - cur.length) 0

/-- State of the command-path loop of `readBuf` once the bytes `cur` were stored and `rest`
is still on the line. -/
def scanned (s : NxtLcd) (cur rest : List Nat) : NxtLcd :=
  { s with rx := rest, sendBuf := padded cur, cntStatic := cur.length,
           expLen := expLenOf (cur.getD 0 0) }

/-- State of the command-path loop of `readBuf` at the moment the terminator of the frame `f`
is recognised: `f` is stored, `rest` is still on the line, `cntStatic` is the position of the
last terminator byte (it was assigned one turn earlier). -/
def landed (s : NxtLcd) (f rest : List Nat) : NxtLcd :=
  { s with rx := rest, sendBuf := padded f, cntStatic := f.length - 1,
           expLen := expLenOf (f.getD 0 0) }

/-- Positions of the last terminator byte at which the switch of `readBuf` accepts a frame with
leading byte `op` (its `cnt ==` tests); `cmdGetStr` has no such test, an opcode outside
`cmdReply_t` no case at all. -/
def entryPos (op : Nat) : List Nat :=
  if op = cmdFail then [3, 5]
  else if op = cmdTouchCompEv then [6]
  else if op = cmdTouchXYaw ∨ op = cmdTouchXYsl then [8]
  else if op = cmdGetNum then [7]
  else if op = cmdSendme then [4]
  else [3]

/-- The command text `get t0.txt` with its terminator, as `getString("t0", ..)` renders it. -/
def getT0Txt : List Nat :=
  [0x67, 0x65, 0x74, 0x20, 0x74, 0x30, 0x2E, 0x74, 0x78, 0x74, 0xFF, 0xFF, 0xFF]

/-- The command text `get n0.val` with its terminator, as `getNumeric("n0", ..)` renders it. -/
def getN0Val : List Nat :=
  [0x67, 0x65, 0x74, 0x20, 0x6E, 0x30, 0x2E, 0x76, 0x61, 0x6C, 0xFF, 0xFF, 0xFF]

/-- State component of a result; the argument is returned on a fault. -/
def stateOf (d : NxtLcd) (r : Except Fault (Nat × NxtLcd)) : NxtLcd :=
  match r with
  | .ok (_, s) => s
  | .error _ => d

/-- A driver state with zeroed members, serial port opened by `init`, nothing on the line. -/
def idle : NxtLcd :=
  { rx := [], tx := [], script := [], elapsed := 0, initialized := 1, debug := 0
    sendBuf := List.replicate 128 0, evtBuf := List.replicate 10 0, recvBuf := BufId.sendBuf
    lastTouchCode := 0, dispType := 0, wrongIdCode := 0, haveEvent := 0, getStrLen := 0
    sysProp := List.replicate 26 0, lastEvent := ⟨0, 0, 0, 0⟩, cntStatic := 0, expLen := 3 }

/-- The idle driver with `get n0.val` rendered in `sendBuf` and a display that answers the
next write with `reply`. -/
def asking (reply : List Nat) : NxtLcd :=
  { idle with sendBuf := padded getN0Val, script := [reply] }

/-- The opcodes `readBuf` classifies as an event (`replyTouchEv`, `replySleepEv`,
`replySendMe`). -/
def eventOpcodes : List Nat :=
  [cmdTouchCompEv, cmdSendme, cmdTouchXYaw, cmdTouchXYsl, cmdSleepOn, cmdSleepOff]

/-- Code the second `switch` of `readBuf` gives the frame `f` once it is stored from index 0
and its terminator was seen at its last byte. -/
def frameCode (f : List Nat) : Nat :=
  (classify (landed idle f []) (f.length - 1)).1

/-! ## Command encoder (`set_values.cpp`) -/

/-- ASCII codes of a text. -/
def ascii (t : String) : List Nat := t.toList.map Char.toNat

/-- Macro `NXT_MSG_END`, the three `%c` arguments that close every format. -/
def msgEnd : List Nat := [0xFF, 0xFF, 0xFF]

/-- Conversion `%u` (and `%lu`) of `printf`: unpadded decimal digits. -/
def dec (n : Nat) : List Nat := (Nat.toDigits 10 n).map Char.toNat

/-- Conversion `%ld` of `printf`: a minus sign for a negative value, then the digits. -/
def decSigned (v : Int) : List Nat :=
  if v < 0 then 0x2D :: dec (-v).toNat else dec v.toNat

/-- A `long` argument read by `%lu`: the 32-bit two's complement pattern taken as unsigned
(`long` is 32 bits wide on the boards the library targets). -/
def asUnsignedLong (v : Int) : Nat := (v % 4294967296).toNat

/-- A C string argument: bytes, none of them NUL. -/
def CStr (l : List Nat) : Prop := ∀ b ∈ l, 0 < b ∧ b < 256

instance (l : List Nat) : Decidable (CStr l) := by
  unfold CStr; infer_instance

/-- Library `snprintf(buf, size, fmt, ...)` with `rendered` the full expansion of the format:
at most `size - 1` bytes of it are stored, followed by a NUL; the rest of `buf` is kept. -/
def snprintf (buf : List Nat) (size : Nat) (rendered : List Nat) : List Nat :=
  if size = 0 then buf
  else rendered.take (size - 1) ++ [0] ++ buf.drop ((rendered.take (size - 1)).length + 1)

/-- The four addressing overloads of the object methods: object on a named page, object on a
numbered page, named object of the current page, numbered object of the current page. -/
inductive Addr where
  | names (page field : List Nat)
  | ids (page field : Nat)
  | name (field : List Nat)
  | id (field : Nat)
  deriving DecidableEq, Repr

/-- Arguments the C types of an addressing overload allow: names are C strings, ids are
`uint8_t`. -/
def AddrOk : Addr → Prop
  | .names page field => CStr page ∧ CStr field
  | .ids page field => page < 256 ∧ field < 256
  | .name field => CStr field
  | .id field => field < 256

instance (a : Addr) : Decidable (AddrOk a) := by
  cases a <;> unfold AddrOk <;> infer_instance

/-- Object part of the format strings: `%s.%s`, `p[%u].b[%u]`, `%s`, `b[%u]`. -/
def addrText : Addr → List Nat
  | .names page field => page ++ ascii "." ++ field
  | .ids page field => ascii "p[" ++ dec page ++ ascii "].b[" ++ dec field ++ ascii "]"
  | .name field => field
  | .id field => ascii "b[" ++ dec field ++ ascii "]"

/-- The sequence `bufReset(sendBuf); snprintf(sendBuf, NXT_BUF_SIZE, ...);` followed by
`writeBuf(expReply, wait)` that every command method ends with. -/
def sendCommand (rendered : List Nat) (expReply wait : Nat) (s : NxtLcd) :
    Except Fault (Nat × NxtLcd) :=
  match bufReset s BufId.sendBuf with
  | .error e => .error e
  | .ok s1 =>
    writeBuf expReply wait 0 { s1 with sendBuf := snprintf s1.sendBuf NXT_BUF_SIZE rendered }

/-- Left side of the size test of `setString`, per overload. -/
def setStringNeed (a : Addr) (value : List Nat) : Nat :=
  match a with
  | .names page field => page.length + field.length + value.length + 11
  | .ids _ _ => value.length + 21
  | .name field => field.length + value.length + 10
  | .id _ => value.length + 15

/-- Full expansion of the format of `setString`: `<object>.txt="<value>"` and the
terminator. -/
def setStringText (a : Addr) (value : List Nat) : List Nat :=
  addrText a ++ ascii ".txt=" ++ [0x22] ++ value ++ [0x22] ++ msgEnd

/-- Method `setString` (four overloads). -/
def setString (a : Addr) (value : List Nat) (s : NxtLcd) : Except Fault (Nat × NxtLcd) :=
  if s.initialized = 0 then .ok (notInit, s)
  else if setStringNeed a value > NXT_BUF_SIZE then .ok (dataTooBig, s)
  else sendCommand (setStringText a value) 0 NXT_REPLY_WAIT s

/-- Full expansion of the format of `setNumeric`: `<object>.val=%lu` and the terminator. -/
def setNumericText (a : Addr) (value : Int) : List Nat :=
  addrText a ++ ascii ".val=" ++ dec (asUnsignedLong value) ++ msgEnd

/-- Method `setNumeric` (four overloads). -/
def setNumeric (a : Addr) (value : Int) (s : NxtLcd) : Except Fault (Nat × NxtLcd) :=
  if s.initialized = 0 then .ok (notInit, s)
  else sendCommand (setNumericText a value) 0 NXT_REPLY_WAIT s

/-- Method `setNumeric` with names in program memory (`__FlashStringHelper`, AVR build; the
shapes `names` and `name` exist): the same format through `%S`, and no test of
`initialized`. -/
def setNumericFlash (a : Addr) (value : Int) (s : NxtLcd) : Except Fault (Nat × NxtLcd) :=
  sendCommand (setNumericText a value) 0 NXT_REPLY_WAIT s

/-- Full expansion of a `<object>.<attr>=%u` format of `setFloat`. -/
def setFloatSizeText (a : Addr) (attr : List Nat) (n : Nat) : List Nat :=
  addrText a ++ ascii "." ++ attr ++ ascii "=" ++ dec n ++ msgEnd

/-- Full expansion of the last format of `setFloat`: `<object>.val=%ld` and the terminator. -/
def setFloatText (a : Addr) (value : Int) : List Nat :=
  addrText a ++ ascii ".val=" ++ decSigned value ++ msgEnd

/-- Method `setFloat` (four overloads). -/
def setFloat (a : Addr) (value : Int) (intSize frctSize : Nat) (s : NxtLcd) :
    Except Fault (Nat × NxtLcd) :=
  if s.initialized = 0 then .ok (notInit, s)
  else
    match (if intSize > 0 then
             sendCommand (setFloatSizeText a (ascii "vvs0") intSize) 0 NXT_REPLY_WAIT s
           else .ok (replyCmdOk, s)) with
    | .error e => .error e
    | .ok (res1, s1) =>
      if res1 ≠ replyCmdOk then .ok (res1, s1)
      else
        match (if frctSize > 0 then
                 sendCommand (setFloatSizeText a (ascii "vvs1") frctSize) 0 NXT_REPLY_WAIT s1
               else .ok (replyCmdOk, s1)) with
        | .error e => .error e
        | .ok (res2, s2) =>
          if res2 ≠ replyCmdOk then .ok (res2, s2)
          else sendCommand (setFloatText a value) 0 NXT_REPLY_WAIT s2

/-! ## Vocabulary for what the reads leave alone -/

/-- Both arrays have their declared sizes. -/
def Sized (s : NxtLcd) : Prop :=
  s.sendBuf.length = NXT_BUF_SIZE ∧ s.evtBuf.length = NXT_EV_BUF_SIZE

/-- Position at which the loop of `readBuf` reports overflow: `NXT_EV_BUF_SIZE` in the event
path, `NXT_BUF_SIZE` in the command path. -/
def capFor (ckevt : Nat) : Nat :=
  if ckevt > 0 then NXT_EV_BUF_SIZE else NXT_BUF_SIZE

/-- What a run of `readBuf` does not touch: the sent bytes, the script of the display, the
configuration, the receive pointer, the property cache, the event slot, the length of both
arrays and the content of the array the receive pointer is not aimed at. -/
structure Kept (a b : NxtLcd) : Prop where
  tx : b.tx = a.tx
  script : b.script = a.script
  initialized : b.initialized = a.initialized
  debug : b.debug = a.debug
  recvBuf : b.recvBuf = a.recvBuf
  dispType : b.dispType = a.dispType
  sysProp : b.sysProp = a.sysProp
  haveEvent : b.haveEvent = a.haveEvent
  lastEvent : b.lastEvent = a.lastEvent
  sendLen : b.sendBuf.length = a.sendBuf.length
  evtLen : b.evtBuf.length = a.evtBuf.length
  sendSame : a.recvBuf = BufId.evtBuf → b.sendBuf = a.sendBuf
  evtSame : a.recvBuf = BufId.sendBuf → b.evtBuf = a.evtBuf

/-- What a whole `readEvent()` and the reply phase of `writeBuf` leave alone: the sent bytes,
the script of the display, the configuration, the receive pointer, the property cache and the
size of the arrays. -/
structure Outside (a b : NxtLcd) : Prop where
  tx : b.tx = a.tx
  script : b.script = a.script
  initialized : b.initialized = a.initialized
  debug : b.debug = a.debug
  recvBuf : b.recvBuf = a.recvBuf
  dispType : b.dispType = a.dispType
  sysProp : b.sysProp = a.sysProp
  sendLen : b.sendBuf.length = a.sendBuf.length
  evtLen : b.evtBuf.length = a.evtBuf.length

/-- The values `readBuf` can return on an initialised driver: the initial `noReply`, the two
results of an unfinished read, and the codes of its second `switch`. -/
def readResults : List Nat :=
  [noReply, noComplete, bufOvfl, replyUnknown, replyCmdFail, replyStartUp, replyCmdOk,
   replyDevReady, replyWrongId, replyWrongVar, replyBufOvfl, replyTouchEv, replySleepEv,
   replyGetStr, replyGetNum, replySendMe, replyTDEnd, replyTDReady]

/-- Nothing can go wrong in the event drain that opens `writeBuf`: the line is empty or the
position left by the last read is inside `evtBuf`. -/
def Drainable (s : NxtLcd) : Prop :=
  s.rx = [] ∨ s.cntStatic < NXT_EV_BUF_SIZE

instance (s : NxtLcd) : Decidable (Drainable s) := by
  unfold Drainable; infer_instance

/-! ## Reset, drawing text and system properties (`basic_func.cpp`, `drawing.cpp`,
`properties.cpp`) -/

/-- Method `devReset()`: send `rest`, wait 500 ms for the startup frame through
`writeBuf(replyStartUp,500)`, then read once more for the device-ready frame. -/
def devReset (s : NxtLcd) : Except Fault (Nat × NxtLcd) :=
  if s.initialized = 0 then .ok (notInit, s)
  else
    match sendCommand (ascii "rest" ++ msgEnd) replyStartUp 500 s with
    | .error e => .error e
    | .ok (res, s1) =>
      if res = replyCmdOk then
        match readBuf 0 s1 with
        | .error e => .error e
        | .ok (r2, s2) => .ok (if r2 = replyDevReady then replyCmdOk else replyCmdFail, s2)
      else .ok (replyCmdFail, s1)

/-- Full expansion of the format of `writeStr`:
`xstr %u,%u,%u,%u,%u,%u,%u,%u,%u,1,"%s"` and the terminator. -/
def writeStrText (msg : List Nat) (x y w h font fCol bCol xCen yCen : Nat) : List Nat :=
  ascii "xstr " ++ dec x ++ ascii "," ++ dec y ++ ascii "," ++ dec w ++ ascii "," ++ dec h ++
    ascii "," ++ dec font ++ ascii "," ++ dec fCol ++ ascii "," ++ dec bCol ++ ascii "," ++
    dec xCen ++ ascii "," ++ dec yCen ++ ascii ",1," ++ [0x22] ++ msg ++ [0x22] ++ msgEnd

/-- Method `writeStr(msg, x, y, w, h, font, fCol, bCol, xCen, yCen)`. -/
def writeStr (msg : List Nat) (x y w h font fCol bCol xCen yCen : Nat) (s : NxtLcd) :
    Except Fault (Nat × NxtLcd) :=
  if s.initialized = 0 then .ok (notInit, s)
  else if msg.length + 42 > NXT_BUF_SIZE then .ok (dataTooBig, s)
  else sendCommand (writeStrText msg x y w h font fCol bCol xCen yCen) 0 NXT_REPLY_WAIT s

/-! ### `dispType_t`, `sysPropNames`, `sysPropNdx_t` -/

def nxt_basic : Nat := 0
def nxt_enhanced : Nat := 1
def nxt_prof : Nat := 2
def NXT_PROP_SIZE : Nat := 7

/-- Table `sysPropNames`, in the order of `sysPropNdx_t`. -/
def sysPropNames : List (List Nat) :=
  [ascii "dp", ascii "dim", ascii "dims", ascii "spax", ascii "spay", ascii "thc",
   ascii "thdra", ascii "ussp", ascii "thsp", ascii "thup", ascii "sendxy", ascii "delay",
   ascii "sleep", ascii "bkcmd", ascii "sys0", ascii "sys1", ascii "sys2", ascii "wup",
   ascii "usup", ascii "rtc0", ascii "rtc1", ascii "rtc2", ascii "rtc3", ascii "rtc4",
   ascii "rtc5", ascii "rtc6"]

def nxt_dp : Nat := 0
def nxt_dim : Nat := 1
def nxt_sleep : Nat := 12
def nxt_usup : Nat := 18
def nxt_rtc0 : Nat := 19
def nxt_rtc6 : Nat := 25
def sysPropLen : Nat := 26
def nxtBasicEnd : Nat := nxt_usup
def nxtEnhancedEnd : Nat := nxt_rtc6

/-- Method `getPropCnt()`. -/
def getPropCnt (s : NxtLcd) : Nat :=
  if s.dispType = nxt_basic then nxtBasicEnd + 1
  else if s.dispType = nxt_enhanced then nxtEnhancedEnd + 1
  else sysPropLen

/-- Test `strncmp(a, b, n) == 0` on two C strings: the first `n` characters agree, the
comparison ending at a common NUL. -/
def strncmpEq (a b : List Nat) (n : Nat) : Bool :=
  (a ++ [0]).take n == (b ++ [0]).take n

/-- The `for` loop of `chkProperty(const char*)` over the table entries still to visit, `i`
the index of the first of them. -/
def chkLoop (prop : List Nat) : List (List Nat) → Nat → Nat
  | [], _ => 255
  | nm :: rest, i => if strncmpEq prop nm NXT_PROP_SIZE then i else chkLoop prop rest (i + 1)

/-- A property argument: its name (`const char*`) or its index (`uint8_t`). -/
inductive PropArg where
  | name (prop : List Nat)
  | id (prop : Nat)
  deriving DecidableEq, Repr

/-- Method `chkProperty` (both overloads): the index of the property, 255 when it cannot be
used on this display. -/
def chkProperty (p : PropArg) (s : NxtLcd) : Nat :=
  match p with
  | .name prop => chkLoop prop (sysPropNames.take (getPropCnt s)) 0
  | .id prop => if prop < getPropCnt s then prop else 255

/-- The name argument of the format of `getProperty`: the caller's string (`%s`), or
`sysPropNames[propNdx]` (`%s`, and `%S` on AVR, where the table is in program memory). -/
def propText (p : PropArg) (s : NxtLcd) : List Nat :=
  match p with
  | .name prop => prop
  | .id _ => sysPropNames.getD (chkProperty p s) []

/-- Data memory that holds `bytes` at the address of every entry of `sysPropNames`. -/
def ramHolding (bytes : List Nat) : Nat → List Nat :=
  fun _ => bytes

/-- The `%s` argument of the format of `setProperty`; `avr` tells which branch of
`#ifdef ARDUINO_ARCH_AVR` is compiled.  By name it is the caller's string.  By index it is
`sysPropNames[propNdx]`: the table entry on every board but AVR; on AVR the table is in
program memory (`PROGMEM`) and `snprintf_P` reads the `%s` argument from data memory, so the
text is what data memory holds from the address of the entry up to the first NUL; `ram i`
is the content of data memory from the address of entry `i` on. -/
def setPropText (avr : Bool) (ram : Nat → List Nat) (p : PropArg) (s : NxtLcd) : List Nat :=
  match p with
  | .name prop => prop
  | .id _ =>
    if avr then (ram (chkProperty p s)).takeWhile (fun x => x ≠ 0)
    else sysPropNames.getD (chkProperty p s) []

/-- Method `setProperty(prop, value)` (both overloads), for the build chosen by `avr`. -/
def setProperty (avr : Bool) (ram : Nat → List Nat) (p : PropArg) (value : Nat) (s : NxtLcd) :
    Except Fault (Nat × NxtLcd) :=
  if s.initialized = 0 then .ok (notInit, s)
  else if chkProperty p s = 255 then .ok (invalidData, s)
  else
    match sendCommand (setPropText avr ram p s ++ ascii "=" ++ dec value ++ msgEnd) 0
        NXT_REPLY_WAIT s with
    | .error e => .error e
    | .ok (res, s1) =>
      if res = replyCmdOk then
        .ok (res, { s1 with sysProp := s1.sysProp.set (chkProperty p s) value })
      else .ok (replyCmdFail, s1)

/-- The two bytes `memcpy(value, &recvBuf[1], 2)` puts into a `uint16_t` (low byte first, as
on the boards the library targets). -/
def recvWord (s : NxtLcd) : Nat :=
  (s.recvAt 1 + 256 * s.recvAt 2) % 65536

/-- Method `getProperty(prop, value, loc)` (both overloads); the second component of the result
is `*value` afterwards. -/
def getProperty (p : PropArg) (value loc : Nat) (s : NxtLcd) :
    Except Fault (Nat × Nat × NxtLcd) :=
  if s.initialized = 0 then .ok (notInit, value, s)
  else if chkProperty p s = 255 then .ok (invalidData, value, s)
  else if loc > 0 then .ok (replyCmdOk, s.sysProp.getD (chkProperty p s) 0, s)
  else
    match sendCommand (ascii "get " ++ propText p s ++ msgEnd) replyGetNum NXT_REPLY_WAIT s with
    | .error e => .error e
    | .ok (ret, s1) =>
      if ret = replyCmdOk then
        .ok (ret, recvWord s1,
          { s1 with sysProp := s1.sysProp.set (chkProperty p s) (recvWord s1) })
      else .ok (ret, value, s1)

/-- Shared body of the setters built on `setProperty` (`setDim`, `setSleep`, ...): the value
is mirrored once more on success, any other result becomes `replyCmdFail`. -/
def setMirrored (avr : Bool) (ram : Nat → List Nat) (ndx value : Nat) (s : NxtLcd) :
    Except Fault (Nat × NxtLcd) :=
  match setProperty avr ram (.id ndx) value s with
  | .error e => .error e
  | .ok (res, s1) =>
    if res = replyCmdOk then .ok (res, { s1 with sysProp := s1.sysProp.set ndx value })
    else .ok (replyCmdFail, s1)

/-- Method `setDim(value)`. -/
def setDim (avr : Bool) (ram : Nat → List Nat) (value : Nat) (s : NxtLcd) :
    Except Fault (Nat × NxtLcd) :=
  if s.initialized = 0 then .ok (notInit, s)
  else if value > 100 then .ok (invalidData, s)
  else setMirrored avr ram nxt_dim value s

/-- Method `setSleep(val)`. -/
def setSleep (avr : Bool) (ram : Nat → List Nat) (val : Nat) (s : NxtLcd) :
    Except Fault (Nat × NxtLcd) :=
  if s.initialized = 0 then .ok (notInit, s)
  else if val > 1 then .ok (invalidData, s)
  else setMirrored avr ram nxt_sleep val s

/-- Method `setPageN(page)`. -/
def setPageN (avr : Bool) (ram : Nat → List Nat) (page : Nat) (s : NxtLcd) :
    Except Fault (Nat × NxtLcd) :=
  if s.initialized = 0 then .ok (notInit, s)
  else setProperty avr ram (.id nxt_dp) page s

/-! ## Vocabulary of the event path -/

/-- Image of `evtBuf` once the bytes `cur` were stored from index 0 over the contents `old`. -/
def stored (old cur : List Nat) : List Nat :=
  cur ++ old.drop cur.length

/-- State of the event-path loop of `readBuf` once the bytes `cur` were stored over `old` and
`rest` is still on the line. -/
def scannedEv (s : NxtLcd) (old cur rest : List Nat) : NxtLcd :=
  { s with rx := rest, evtBuf := stored old cur, cntStatic := cur.length,
           expLen := expLenOf (cur.getD 0 0) }

/-- An event frame: a complete frame that `readBuf` classifies as `replyTouchEv`,
`replySleepEv` or `replySendMe`. -/
def EventFrame (f : List Nat) : Prop :=
  CompleteFrame f ∧
    (frameCode f = replyTouchEv ∨ frameCode f = replySleepEv ∨ frameCode f = replySendMe)

instance (f : List Nat) : Decidable (EventFrame f) := by
  unfold EventFrame; infer_instance

/-- A driver between two frames: ready, and no partial frame held over by the event path
(`cntStatic = 0`). -/
def Fresh (s : NxtLcd) : Prop :=
  Ready s ∧ s.cntStatic = 0

instance (s : NxtLcd) : Decidable (Fresh s) := by
  unfold Fresh; infer_instance

/-- Property arguments the C types allow: a name is a C string, an index is a `uint8_t`. -/
def PropArgOk : PropArg → Prop
  | .name prop => CStr prop
  | .id prop => prop < 256

instance (p : PropArg) : Decidable (PropArgOk p) := by
  cases p <;> unfold PropArgOk <;> infer_instance

/-- The idle driver, debug off, in front of a display that answers the coming writes with
`replies`. -/
def answering (replies : List (List Nat)) : NxtLcd :=
  { idle with script := replies }

/-- The idle driver in debug mode in front of a display that answers the coming writes with
`replies`. -/
def debugging (replies : List (List Nat)) : NxtLcd :=
  { idle with debug := 1, script := replies }

/-- State of the event-path loop of `readBuf` at the moment the terminator of the frame `f`
is recognised: `f` is stored over `old`, `rest` is still on the line. -/
def landedEv (s : NxtLcd) (old f rest : List Nat) : NxtLcd :=
  { s with rx := rest, evtBuf := stored old f, cntStatic := f.length - 1,
           expLen := expLenOf (f.getD 0 0) }

/-! ## Waveform channels and text read-back (`drawing.cpp`, `get_values.cpp`) -/

/-- Full expansion of the format of `clearWaveCh`; `avr` tells which branch of
`#ifdef ARDUINO_ARCH_AVR` is compiled: `cle %u,%u` on AVR, `add %u,%u` on every other
board. -/
def clearWaveChText (avr : Bool) (waveId ch : Nat) : List Nat :=
  (if avr then ascii "cle " else ascii "add ") ++ dec waveId ++ ascii "," ++ dec ch ++ msgEnd

/-- Method `clearWaveCh(waveId, ch)`, for the build chosen by `avr`. -/
def clearWaveCh (avr : Bool) (waveId ch : Nat) (s : NxtLcd) : Except Fault (Nat × NxtLcd) :=
  if s.initialized = 0 then .ok (notInit, s)
  else if ch > 3 ∧ ch ≠ 255 then .ok (invalidData, s)
  else sendCommand (clearWaveChText avr waveId ch) 0 NXT_REPLY_WAIT s

/-- Full expansion of the header format of `addWaveBytes`: `addt %u,%u,%u` and the
terminator. -/
def addtText (waveId ch chkSize : Nat) : List Nat :=
  ascii "addt " ++ dec waveId ++ ascii "," ++ dec ch ++ ascii "," ++ dec chkSize ++ msgEnd

/-- Call `memcpy(sendBuf, &bytes[cnt], chkSize)`: the `chkSize` bytes of the caller's array
from offset `cnt` on go to the front of `sendBuf`. -/
def copyChunk (sendBuf bytes : List Nat) (cnt chkSize : Nat) : List Nat :=
  (List.range chkSize).map (fun i => bytes.getD (cnt + i) 0) ++ sendBuf.drop chkSize

/-- The `while(len > 0)` loop of `addWaveBytes`; `cnt` is the `uint8_t` offset into `bytes`,
`len` the `uint16_t` count still to send.  The first argument bounds the number of turns:
every turn takes at least one byte off `len`, so `len` turns are enough. -/
def addWaveLoop : Nat → Nat → Nat → List Nat → Nat → Nat → NxtLcd →
    Except Fault (Nat × NxtLcd)
  | 0, _, _, _, _, _, s => .ok (replyCmdOk, s)
  | turns + 1, waveId, ch, bytes, cnt, len, s =>
    if len = 0 then .ok (replyCmdOk, s)
    else
      match bufReset s BufId.sendBuf with
      | .error e => .error e
      | .ok s1 =>
        let s2 := if cnt > 0 then s1.delay 20 else s1
        let chkSize := if len > NXT_BUF_SIZE then NXT_BUF_SIZE else len
        match writeBuf replyTDReady 100 0
            { s2 with sendBuf := snprintf s2.sendBuf NXT_BUF_SIZE (addtText waveId ch chkSize) }
          with
        | .error e => .error e
        | .ok (res, s3) =>
          if res ≠ replyCmdOk then .ok (res, s3)
          else
            match bufReset s3 BufId.sendBuf with
            | .error e => .error e
            | .ok s4 =>
              match writeBuf replyTDEnd 20 chkSize
                  { s4 with sendBuf := copyChunk s4.sendBuf bytes cnt chkSize } with
              | .error e => .error e
              | .ok (res2, s5) =>
                if res2 ≠ replyCmdOk then .ok (res2, s5)
                else addWaveLoop turns waveId ch bytes ((cnt + chkSize) % 256) (len - chkSize) s5

/-- Method `addWaveBytes(waveId, ch, bytes, len)`. -/
def addWaveBytes (waveId ch : Nat) (bytes : List Nat) (len : Nat) (s : NxtLcd) :
    Except Fault (Nat × NxtLcd) :=
  if s.initialized = 0 then .ok (notInit, s)
  else if ch > 3 then .ok (invalidData, s)
  else addWaveLoop len waveId ch bytes 0 len s

/-- Library `memset(value, 0, size)` on the caller's array. -/
def memset0 (value : List Nat) (size : Nat) : List Nat :=
  List.replicate size 0 ++ value.drop size

/-- Library `strncpy(dst, src, n)`: the characters of `src` before its NUL, at most `n` of
them, then zeros up to `n`; the rest of `dst` is kept. -/
def strncpy (dst src : List Nat) (n : Nat) : List Nat :=
  (src.take n).takeWhile (fun x => x ≠ 0) ++
    List.replicate (n - ((src.take n).takeWhile (fun x => x ≠ 0)).length) 0 ++ dst.drop n

/-- Full expansion of the format of `getString`: `get <object>.txt` and the terminator. -/
def getStringText (a : Addr) : List Nat :=
  ascii "get " ++ addrText a ++ ascii ".txt" ++ msgEnd

/-- Method `getString` (four overloads); `value` is the caller's array, the second component
of the result is that array afterwards. -/
def getString (a : Addr) (value : List Nat) (size : Nat) (s : NxtLcd) :
    Except Fault (Nat × List Nat × NxtLcd) :=
  if s.initialized = 0 then .ok (notInit, value, s)
  else
    match sendCommand (getStringText a) replyGetStr NXT_REPLY_WAIT s with
    | .error e => .error e
    | .ok (ret, s1) =>
      if ret = replyCmdOk then
        .ok (ret, strncpy (memset0 value size) ((s1.bufOf s1.recvBuf).drop 1)
          (min size s1.getStrLen), s1)
      else .ok (ret, value, s1)

/-- The frames `FE FF FF FF` (transparent data ready) and `FD FF FF FF` (transparent data
end). -/
def tdReady : List Nat := [0xFE, 0xFF, 0xFF, 0xFF]
def tdEnd : List Nat := [0xFD, 0xFF, 0xFF, 0xFF]

/-- An array of 257 wave points: the values `0, 1, ..., 255` and then `0xAA`. -/
def wavePoints : List Nat := List.range 256 ++ [0xAA]

/-! ## A touch frame that arrives in three pieces -/

/-- The idle driver in debug mode after `readEvent()` found `65 02`, the first two bytes of
the touch frame `65 02 07 01 FF FF FF`, on the line. -/
def touchBegun : NxtLcd :=
  stateOf idle (readEvent none { debugging [] with rx := [0x65, 0x02] })

/-- The driver after the command-path read `readBuf(0)` that follows found the next two
bytes `07 01` on the line. -/
def touchCrossed : NxtLcd :=
  stateOf idle (readBuf 0 { touchBegun with rx := [0x07, 0x01] })

/-! ## An empty text reply before an event -/

/-- State component of a result of `ckEvents`; the argument is returned on a fault. -/
def eventStateOf (d : NxtLcd) (r : Except Fault (Nat × nxtEvent_t × NxtLcd)) : NxtLcd :=
  match r with
  | .ok (_, _, s) => s
  | .error _ => d

/-- The idle driver after `getString("t0", value, 8)` was answered with the reply
`70 FF FF FF` of an empty text. -/
def emptyTextRead : NxtLcd :=
  match getString (.name (ascii "t0")) (ascii "XXXXXXXX") 8
      (answering [[0x70, 0xFF, 0xFF, 0xFF]]) with
  | .ok (_, _, s) => s
  | .error _ => idle

/-! ## The command-path loop of `readBuf` -/

theorem padded_set (cur : List Nat) (b : Nat) (h : cur.length < NXT_BUF_SIZE) :
    (padded cur).set cur.length b = padded (cur ++ [b]) := by
  unfold padded
  rw [List.set_append_right _ _ (le_refl _)]
  obtain ⟨k, hk⟩ : ∃ k, NXT_BUF_SIZE - cur.length = k + 1 :=
    ⟨NXT_BUF_SIZE - cur.length - 1, by omega⟩
  have hk2 : NXT_BUF_SIZE - (cur ++ [b]).length = k := by
    simp only [List.length_append, List.length_singleton]; omega
  rw [hk, hk2, Nat.sub_self, List.replicate_succ, List.set_cons_zero, List.append_assoc]
  rfl

theorem padded_getD (cur : List Nat) (i : Nat) (h : i < cur.length) :
    (padded cur).getD i 0 = cur.getD i 0 := by
  unfold padded
  exact List.getD_append _ _ _ _ h

theorem expLenOf_ge (op : Nat) : 3 ≤ expLenOf op := by
  unfold expLenOf
  split_ifs <;> omega

theorem recvStore_send (t : NxtLcd) (cur : List Nat) (b : Nat) (hr : t.recvBuf = BufId.sendBuf)
    (hb : t.sendBuf = padded cur) (hl : cur.length < NXT_BUF_SIZE) :
    recvStore t cur.length b = .ok { t with sendBuf := padded (cur ++ [b]) } := by
  have hl2 : cur.length < capacity t.recvBuf := by rw [hr]; exact hl
  unfold recvStore
  rw [if_pos hl2]
  congr 1
  rw [hr]
  simp only [setBuf, bufOf, hb, padded_set cur b hl]
  rw [hr]


/-- Loop test of `readBuf` read off the buffer image agrees with `endsFrame` on the bytes. -/
theorem term_test_iff (t : NxtLcd) (cur : List Nat) (b : Nat)
    (hr : t.recvBuf = BufId.sendBuf) (hb : t.sendBuf = padded (cur ++ [b]))
    (he : t.expLen = expLenOf ((cur ++ [b]).getD 0 0)) :
    (t.expLen ≤ cur.length ∧ t.recvAt cur.length = 0xFF ∧
      t.recvAt (cur.length - 1) = 0xFF ∧ t.recvAt (cur.length - 2) = 0xFF) ↔
    endsFrame (cur ++ [b]) := by
  have h0 : (cur ++ [b]).length = cur.length + 1 := by simp
  have e1 : t.recvAt cur.length = (cur ++ [b]).getD cur.length 0 := by
    unfold recvAt; rw [hr]; simp only [bufOf, hb]; exact padded_getD _ _ (by omega)
  have e2 : t.recvAt (cur.length - 1) = (cur ++ [b]).getD (cur.length - 1) 0 := by
    unfold recvAt; rw [hr]; simp only [bufOf, hb]; exact padded_getD _ _ (by omega)
  have e3 : t.recvAt (cur.length - 2) = (cur ++ [b]).getD (cur.length - 2) 0 := by
    unfold recvAt; rw [hr]; simp only [bufOf, hb]; exact padded_getD _ _ (by omega)
  unfold endsFrame
  rw [e1, e2, e3, he, h0]
  have a1 : cur.length + 1 - 1 = cur.length := by omega
  have a2 : cur.length + 1 - 2 = cur.length - 1 := by omega
  have a3 : cur.length + 1 - 3 = cur.length - 2 := by omega
  rw [a1, a2, a3]

theorem padded_length (cur : List Nat) (h : cur.length ≤ NXT_BUF_SIZE) :
    (padded cur).length = NXT_BUF_SIZE := by
  unfold padded
  rw [List.length_append, List.length_replicate]
  omega

/-- On a receive pointer aimed at a `sendBuf` of the declared size, `bufReset(recvBuf)` leaves
128 zero bytes. -/
theorem bufReset_send (t : NxtLcd) (hr : t.recvBuf = BufId.sendBuf)
    (hlen : t.sendBuf.length ≤ NXT_BUF_SIZE) :
    bufReset t t.recvBuf = .ok { t with sendBuf := List.replicate NXT_BUF_SIZE 0 } := by
  have hd : t.sendBuf.drop NXT_BUF_SIZE = [] := List.drop_eq_nil_of_le hlen
  unfold bufReset memsetZero
  rw [hr]
  simp only [capacity, le_refl, if_true, setBuf, bufOf, hd, List.append_nil]
  rw [hr]

/-- Buffer state after the store and the expected-length switch of one loop turn. -/
theorem head_state (t : NxtLcd) (cur rest : List Nat) (b : Nat)
    (hr : t.recvBuf = BufId.sendBuf)
    (he : cur ≠ [] → t.expLen = expLenOf (cur.getD 0 0)) :
    (if cur.length = 0 then
        { ({ t with rx := rest, sendBuf := padded (cur ++ [b]) } : NxtLcd) with
          expLen := expLenOf (recvAt { t with rx := rest, sendBuf := padded (cur ++ [b]) } 0) }
      else { t with rx := rest, sendBuf := padded (cur ++ [b]) }) =
    { t with rx := rest, sendBuf := padded (cur ++ [b]),
             expLen := expLenOf ((cur ++ [b]).getD 0 0) } := by
  cases cur with
  | nil =>
    have : recvAt { t with rx := rest, sendBuf := padded ([] ++ [b]) } 0 = b := by
      unfold recvAt
      simp only [hr, bufOf]
      rfl
    simp only [List.length_nil, if_true, this]
    rfl
  | cons a l =>
    have h1 := he (by simp)
    have h2 : ((a :: l) ++ [b]).getD 0 0 = (a :: l).getD 0 0 := rfl
    rw [h2, ← h1]
    simp

/-- One turn of the command-path loop from a buffer holding `cur`. -/
theorem readLoop_head (t : NxtLcd) (cur rest : List Nat) (b ret : Nat)
    (hr : t.recvBuf = BufId.sendBuf) (hb : t.sendBuf = padded cur)
    (he : cur ≠ [] → t.expLen = expLenOf (cur.getD 0 0)) (hl : cur.length < NXT_BUF_SIZE) :
    readLoop 0 (b :: rest) cur.length ret t =
      if endsFrame (cur ++ [b]) then
        .ok (finishFrame (classify
          { t with rx := rest, sendBuf := padded (cur ++ [b]),
                   expLen := expLenOf ((cur ++ [b]).getD 0 0) } cur.length))
      else if cur.length + 1 = NXT_BUF_SIZE then
        .ok (bufOvfl,
          { t with rx := rest, sendBuf := List.replicate NXT_BUF_SIZE 0, cntStatic := 0,
                   expLen := expLenOf ((cur ++ [b]).getD 0 0) })
      else
        readLoop 0 rest (cur.length + 1) noComplete (scanned t (cur ++ [b]) rest) := by
  rw [readLoop]
  rw [recvStore_send { t with rx := rest } cur b hr hb hl]
  simp only []
  rw [head_state t cur rest b hr he]
  have key := term_test_iff
    { t with rx := rest, sendBuf := padded (cur ++ [b]),
             expLen := expLenOf ((cur ++ [b]).getD 0 0) } cur b hr rfl rfl
  by_cases hE : endsFrame (cur ++ [b])
  · rw [if_pos (key.mpr hE), if_pos hE]
  · rw [if_neg (fun h => hE (key.mp h)), if_neg hE]
    have hm : (cur.length + 1) % 65536 = cur.length + 1 := by
      apply Nat.mod_eq_of_lt
      unfold NXT_BUF_SIZE at hl
      omega
    simp only [hm, gt_iff_lt, Nat.lt_irrefl, if_false]
    by_cases h128 : cur.length + 1 = NXT_BUF_SIZE
    · rw [if_pos h128, if_pos h128]
      have hlen : (padded (cur ++ [b])).length ≤ NXT_BUF_SIZE := by
        rw [padded_length]
        simp only [List.length_append, List.length_singleton]
        omega
      rw [bufReset_send
        { t with rx := rest, sendBuf := padded (cur ++ [b]), cntStatic := 0,
                 expLen := expLenOf ((cur ++ [b]).getD 0 0) } hr hlen]
    · rw [if_neg h128, if_neg h128]
      unfold scanned
      simp only [List.length_append, List.length_singleton]

/-- The command-path loop walks over bytes among which no frame ends. -/
theorem readLoop_scan (mid : List Nat) : ∀ (t : NxtLcd) (cur rest : List Nat) (ret : Nat),
    t.recvBuf = BufId.sendBuf → t.sendBuf = padded cur →
    (cur ≠ [] → t.expLen = expLenOf (cur.getD 0 0)) →
    cur.length + mid.length < NXT_BUF_SIZE →
    (∀ j, j < mid.length → ¬ endsFrame (cur ++ mid.take (j + 1))) →
    mid ≠ [] →
    readLoop 0 (mid ++ rest) cur.length ret t =
      readLoop 0 rest (cur.length + mid.length) noComplete (scanned t (cur ++ mid) rest) := by
  induction mid with
  | nil => intro t cur rest ret _ _ _ _ _ h; exact absurd rfl h
  | cons b mid ih =>
    intro t cur rest ret hr hb he hl hno _
    have hl1 : cur.length < NXT_BUF_SIZE := by
      simp only [List.length_cons] at hl; omega
    have h0 : ¬ endsFrame (cur ++ [b]) := hno 0 (by simp)
    have hne : ¬ (cur.length + 1 = NXT_BUF_SIZE) := by
      simp only [List.length_cons] at hl; omega
    rw [List.cons_append, readLoop_head t cur (mid ++ rest) b ret hr hb he hl1, if_neg h0,
      if_neg hne]
    cases mid with
    | nil => rfl
    | cons c mid2 =>
      have hlen : (cur ++ [b]).length = cur.length + 1 := by simp
      have step := ih (scanned t (cur ++ [b]) (c :: mid2 ++ rest)) (cur ++ [b]) rest noComplete
        hr rfl (fun _ => rfl)
        (by rw [hlen]; simp only [List.length_cons] at hl ⊢; omega)
        (by
          intro j hj
          have := hno (j + 1) (by simp only [List.length_cons] at hj ⊢; omega)
          simpa [List.take_succ_cons, List.append_assoc] using this)
        (by simp)
      rw [hlen] at step
      rw [step]
      have e1 : cur ++ [b] ++ c :: mid2 = cur ++ b :: c :: mid2 := by simp
      have e2 : cur.length + 1 + (c :: mid2).length = cur.length + (b :: c :: mid2).length := by
        simp only [List.length_cons]; omega
      rw [e1, e2]
      rfl

/-- Entry of `readBuf(0)` on a ready driver: the buffer is cleared and the loop starts at
position 0. -/
theorem readBuf_start (s : NxtLcd) (h : Ready s) :
    readBuf 0 s =
      readLoop 0 s.rx 0 noReply
        { s with sendBuf := List.replicate NXT_BUF_SIZE 0, cntStatic := 0 } := by
  obtain ⟨hi, hr, hs, _⟩ := h
  unfold readBuf
  rw [if_neg hi, if_neg (Nat.lt_irrefl 0), bufReset_send s hr (le_of_eq hs)]

theorem endsFrame_length (f : List Nat) (h : endsFrame f) : 4 ≤ f.length := by
  have := expLenOf_ge (f.getD 0 0)
  have := h.1
  omega

/-- The command-path loop, started on a cleared buffer, on a line that starts with a complete
frame. -/
theorem readLoop_frame (t : NxtLcd) (f rest : List Nat) (ret : Nat)
    (hr : t.recvBuf = BufId.sendBuf) (hb : t.sendBuf = padded [])
    (hf : CompleteFrame f) :
    readLoop 0 (f ++ rest) 0 ret t = .ok (finishFrame (classify (landed t f rest) (f.length - 1))) := by
  have h4 := endsFrame_length f hf.1
  have hne : f ≠ [] := by intro h0; rw [h0] at h4; simp at h4
  obtain ⟨pre, b, rfl⟩ : ∃ pre b, f = pre ++ [b] :=
    ⟨f.dropLast, f.getLast hne, (List.dropLast_append_getLast hne).symm⟩
  have hlen : (pre ++ [b]).length = pre.length + 1 := by simp
  rw [hlen] at h4
  obtain ⟨hE, hN, hL⟩ := hf
  rw [hlen] at hL
  have hpre : pre ≠ [] := by intro h0; rw [h0] at h4; simp at h4
  have scan := readLoop_scan pre t [] ([b] ++ rest) ret
    hr hb (fun h0 => absurd rfl h0) (by simp only [List.length_nil]; omega)
    (by
      intro j hj
      have := hN j (by rw [hlen]; omega)
      rw [List.take_append_of_le_length (by omega)] at this
      simpa using this)
    hpre
  simp only [List.length_nil, Nat.zero_add, List.nil_append] at scan
  rw [List.append_assoc, scan]
  rw [List.singleton_append,
    readLoop_head (scanned t pre (b :: rest)) pre rest b noComplete hr rfl (fun _ => rfl)
      (by omega), if_pos hE]
  unfold landed
  rw [hlen, Nat.add_sub_cancel]
  rfl

/-- The command-path loop, started on a cleared buffer, on a line holding `NXT_BUF_SIZE` bytes
or more with no frame ending among the first `NXT_BUF_SIZE`. -/
theorem readLoop_overflow (t : NxtLcd) (pre rest : List Nat) (b ret : Nat)
    (hr : t.recvBuf = BufId.sendBuf) (hb : t.sendBuf = padded [])
    (hlen : pre.length + 1 = NXT_BUF_SIZE)
    (hno : noFrameWithin (pre ++ [b]) NXT_BUF_SIZE) :
    readLoop 0 (pre ++ [b] ++ rest) 0 ret t = .ok (bufOvfl,
      { t with rx := rest, sendBuf := List.replicate NXT_BUF_SIZE 0,
               cntStatic := 0, expLen := expLenOf ((pre ++ [b]).getD 0 0) }) := by
  have hpre : pre ≠ [] := by
    intro h0; rw [h0] at hlen; simp [NXT_BUF_SIZE] at hlen
  have scan := readLoop_scan pre t [] ([b] ++ rest) ret
    hr hb (fun h0 => absurd rfl h0) (by simp only [List.length_nil]; omega)
    (by
      intro j hj
      have := hno j (by omega)
      rw [List.take_append_of_le_length (by omega)] at this
      simpa using this)
    hpre
  have hlast : ¬ endsFrame (pre ++ [b]) := by
    have := hno pre.length (by omega)
    rwa [List.take_of_length_le (by simp)] at this
  simp only [List.length_nil, Nat.zero_add, List.nil_append] at scan
  rw [List.append_assoc, scan]
  rw [List.singleton_append,
    readLoop_head (scanned t pre (b :: rest)) pre rest b noComplete hr rfl (fun _ => rfl) (by omega), if_neg hlast,
    if_pos hlen]
  rfl

/-- Command-path `readBuf` on a line that starts with a complete frame `f`: the frame is
consumed, stored from index 0, and classified. -/
theorem readBuf_frame (s : NxtLcd) (f rest : List Nat) (h : Ready s)
    (hf : CompleteFrame f) (hrx : s.rx = f ++ rest) :
    readBuf 0 s = .ok (finishFrame (classify (landed s f rest) (f.length - 1))) := by
  rw [readBuf_start s h, hrx,
    readLoop_frame
      { s with rx := f ++ rest, sendBuf := List.replicate NXT_BUF_SIZE 0, cntStatic := 0 }
      f rest noReply h.2.1 rfl hf]
  rfl

/-- Command-path `readBuf` on a line holding `NXT_BUF_SIZE` bytes or more with no frame ending
among the first `NXT_BUF_SIZE`: exactly that many bytes are consumed, `bufOvfl` is returned,
the buffer is all zero and the position is back at zero. -/
theorem readBuf_overflow (s : NxtLcd) (h : Ready s) (hlen : NXT_BUF_SIZE ≤ s.rx.length)
    (hno : noFrameWithin s.rx NXT_BUF_SIZE) :
    readBuf 0 s = .ok (bufOvfl,
      { s with rx := s.rx.drop NXT_BUF_SIZE, sendBuf := List.replicate NXT_BUF_SIZE 0,
               cntStatic := 0, expLen := expLenOf (s.rx.getD 0 0) }) := by
  have hsplit : s.rx = s.rx.take NXT_BUF_SIZE ++ s.rx.drop NXT_BUF_SIZE :=
    (List.take_append_drop _ _).symm
  have htl : (s.rx.take NXT_BUF_SIZE).length = NXT_BUF_SIZE := by
    rw [List.length_take]; omega
  have hne : s.rx.take NXT_BUF_SIZE ≠ [] := by
    intro h0; rw [h0] at htl; simp [NXT_BUF_SIZE] at htl
  obtain ⟨pre, b, hpb⟩ : ∃ pre b, s.rx.take NXT_BUF_SIZE = pre ++ [b] :=
    ⟨_, _, (List.dropLast_append_getLast hne).symm⟩
  have hpl : pre.length + 1 = NXT_BUF_SIZE := by
    rw [hpb] at htl; simpa using htl
  have hno2 : noFrameWithin (pre ++ [b]) NXT_BUF_SIZE := by
    intro j hj
    have := hno j hj
    rw [← hpb, List.take_take, Nat.min_eq_left (by omega)]
    exact this
  have h0 : s.rx.getD 0 0 = (pre ++ [b]).getD 0 0 := by
    rw [← hpb]
    cases hx : s.rx with
    | nil => rw [hx] at hlen; simp [NXT_BUF_SIZE] at hlen
    | cons a l => rfl
  rw [readBuf_start s h, h0]
  generalize hd : s.rx.drop NXT_BUF_SIZE = rest at hsplit ⊢
  rw [hpb] at hsplit
  rw [hsplit,
    readLoop_overflow
      { s with rx := pre ++ [b] ++ rest, sendBuf := List.replicate NXT_BUF_SIZE 0,
               cntStatic := 0 }
      pre rest b noReply h.2.1 rfl hpl hno2]

/-- Command-path `readBuf` on a line holding fewer than `NXT_BUF_SIZE` bytes among which no
frame ends: everything is consumed and stored, the result is `noComplete`. -/
theorem readBuf_incomplete (s : NxtLcd) (bs : List Nat) (h : Ready s) (hrx : s.rx = bs)
    (hpos : bs ≠ []) (hlen : bs.length < NXT_BUF_SIZE) (hno : noFrameWithin bs bs.length) :
    readBuf 0 s = .ok (noComplete, scanned s bs []) := by
  have scan := readLoop_scan bs
    { s with rx := bs, sendBuf := List.replicate NXT_BUF_SIZE 0, cntStatic := 0 } [] [] noReply
    h.2.1 rfl (fun h0 => absurd rfl h0) (by simp only [List.length_nil]; omega)
    (by intro j hj; simpa using hno j hj)
    hpos
  rw [readBuf_start s h, hrx]
  simp only [List.length_nil, Nat.zero_add, List.nil_append, List.append_nil] at scan
  rw [scan]
  rfl

/-! ## Frames on the command path -/

theorem recvAt_landed (s : NxtLcd) (f rest : List Nat) (i : Nat)
    (hr : s.recvBuf = BufId.sendBuf) (hi : i < f.length) :
    (landed s f rest).recvAt i = f.getD i 0 := by
  unfold recvAt landed
  simp only [hr, bufOf]
  exact padded_getD f i hi

/-- Recognition of the terminator on an initial segment, read off the whole byte string. -/
theorem endsFrame_take (f : List Nat) (j : Nat) (hj : j < f.length) :
    endsFrame (f.take (j + 1)) ↔
      (expLenOf (f.getD 0 0) ≤ j ∧ f.getD j 0 = 0xFF ∧ f.getD (j - 1) 0 = 0xFF ∧
        f.getD (j - 2) 0 = 0xFF) := by
  have hl : (f.take (j + 1)).length = j + 1 := by
    rw [List.length_take]; omega
  have hg : ∀ i, i ≤ j → (f.take (j + 1)).getD i 0 = f.getD i 0 := by
    intro i hi
    simp only [List.getD_eq_getElem?_getD]
    rw [List.getElem?_take_of_lt (by omega)]
  unfold endsFrame
  rw [hl, hg 0 (by omega), hg (j + 1 - 1) (by omega), hg (j + 1 - 2) (by omega),
    hg (j + 1 - 3) (by omega)]
  have a1 : j + 1 - 1 = j := by omega
  have a2 : j + 1 - 2 = j - 1 := by omega
  have a3 : j + 1 - 3 = j - 2 := by omega
  rw [a1, a2, a3]

/-- No frame ends before the expected position of its leading byte. -/
theorem noFrameWithin_short (f : List Nat) (n : Nat) (hn : n ≤ expLenOf (f.getD 0 0))
    (hl : n ≤ f.length) : noFrameWithin f n := by
  intro j hj hE
  rw [endsFrame_take f j (by omega)] at hE
  omega

/-- The classification switch touches only `wrongIdCode`, `lastTouchCode`, `getStrLen` and the
clock. -/
theorem classify_keeps (s : NxtLcd) (cnt : Nat) :
    ∃ w l g e, (classify s cnt).2 =
      { s with wrongIdCode := w, lastTouchCode := l, getStrLen := g, elapsed := e } := by
  unfold classify
  by_cases h0 : s.recvAt 0 = cmdFail
  · rw [if_pos h0]; exact ⟨_, _, _, _, rfl⟩
  rw [if_neg h0]
  by_cases h1 : s.recvAt 0 = cmdOk
  · rw [if_pos h1]; exact ⟨_, _, _, _, rfl⟩
  rw [if_neg h1]
  by_cases h2 : s.recvAt 0 = cmdDevReady
  · rw [if_pos h2]; exact ⟨_, _, _, _, rfl⟩
  rw [if_neg h2]
  by_cases h3 : s.recvAt 0 = cmdInvalidCid ∨ s.recvAt 0 = cmdInvalidPage ∨
      s.recvAt 0 = cmdInvPicId ∨ s.recvAt 0 = cmdInvFontId
  · rw [if_pos h3]
    by_cases hc : cnt = 3
    · rw [if_pos hc]; exact ⟨_, _, _, _, rfl⟩
    · rw [if_neg hc]; exact ⟨_, _, _, _, rfl⟩
  rw [if_neg h3]
  by_cases h4 : s.recvAt 0 = cmdInvVar
  · rw [if_pos h4]; exact ⟨_, _, _, _, rfl⟩
  rw [if_neg h4]
  by_cases h5 : s.recvAt 0 = cmdBufOvfl
  · rw [if_pos h5]
    by_cases hc : cnt = 3
    · rw [if_pos hc]; exact ⟨_, _, _, _, rfl⟩
    · rw [if_neg hc]; exact ⟨_, _, _, _, rfl⟩
  rw [if_neg h5]
  by_cases h6 : s.recvAt 0 = cmdTouchCompEv
  · rw [if_pos h6]
    by_cases hc : cnt = 6
    · rw [if_pos hc]; exact ⟨_, _, _, _, rfl⟩
    · rw [if_neg hc]; exact ⟨_, _, _, _, rfl⟩
  rw [if_neg h6]
  by_cases h7 : s.recvAt 0 = cmdTouchXYaw
  · rw [if_pos h7]
    by_cases hc : cnt = 8
    · rw [if_pos hc]; exact ⟨_, _, _, _, rfl⟩
    · rw [if_neg hc]; exact ⟨_, _, _, _, rfl⟩
  rw [if_neg h7]
  by_cases h8 : s.recvAt 0 = cmdTouchXYsl
  · rw [if_pos h8]
    by_cases hc : cnt = 8
    · rw [if_pos hc]; exact ⟨_, _, _, _, rfl⟩
    · rw [if_neg hc]; exact ⟨_, _, _, _, rfl⟩
  rw [if_neg h8]
  by_cases h9 : s.recvAt 0 = cmdSleepOn ∨ s.recvAt 0 = cmdSleepOff
  · rw [if_pos h9]
    by_cases hc : cnt = 3
    · rw [if_pos hc]; exact ⟨_, _, _, _, rfl⟩
    · rw [if_neg hc]; exact ⟨_, _, _, _, rfl⟩
  rw [if_neg h9]
  by_cases h10 : s.recvAt 0 = cmdGetStr
  · rw [if_pos h10]; exact ⟨_, _, _, _, rfl⟩
  rw [if_neg h10]
  by_cases h11 : s.recvAt 0 = cmdGetNum
  · rw [if_pos h11]; exact ⟨_, _, _, _, rfl⟩
  rw [if_neg h11]
  by_cases h12 : s.recvAt 0 = cmdSendme
  · rw [if_pos h12]; exact ⟨_, _, _, _, rfl⟩
  rw [if_neg h12]
  by_cases h13 : s.recvAt 0 = cmdTDEnd
  · rw [if_pos h13]; exact ⟨_, _, _, _, rfl⟩
  rw [if_neg h13]
  by_cases h14 : s.recvAt 0 = cmdTDReady
  · rw [if_pos h14]; exact ⟨_, _, _, _, rfl⟩
  rw [if_neg h14]
  exact ⟨_, _, _, _, rfl⟩

/-- The tail of the terminator branch keeps the code, resets `cntStatic` and `expLen` and may
set `wrongIdCode`; everything else is kept. -/
theorem finishFrame_keeps (r : Nat × NxtLcd) :
    (finishFrame r).1 = r.1 ∧
    ∃ w, (finishFrame r).2 = { r.2 with cntStatic := 0, expLen := 3, wrongIdCode := w } := by
  unfold finishFrame
  refine ⟨rfl, ?_⟩
  by_cases h : r.1 = replyUnknown
  · simp only [if_pos h]; exact ⟨_, rfl⟩
  · simp only [if_neg h]; exact ⟨_, rfl⟩

theorem finished_rx (s : NxtLcd) (cnt : Nat) :
    (finishFrame (classify s cnt)).2.rx = s.rx := by
  obtain ⟨_, w, hw⟩ := finishFrame_keeps (classify s cnt)
  obtain ⟨w2, l, g, e, hc⟩ := classify_keeps s cnt
  rw [hw, hc]

theorem finished_sendBuf (s : NxtLcd) (cnt : Nat) :
    (finishFrame (classify s cnt)).2.sendBuf = s.sendBuf := by
  obtain ⟨_, w, hw⟩ := finishFrame_keeps (classify s cnt)
  obtain ⟨w2, l, g, e, hc⟩ := classify_keeps s cnt
  rw [hw, hc]

theorem getD_frame_payload (op : Nat) (p : List Nat) (i : Nat) (hi : i < p.length) :
    (op :: p ++ [0xFF, 0xFF, 0xFF]).getD (i + 1) 0 = p.getD i 0 := by
  rw [List.cons_append, List.getD_cons_succ]
  exact List.getD_append _ _ _ _ hi

theorem getD_frame_term (op : Nat) (p : List Nat) (k : Nat) (hk : k < 3) :
    (op :: p ++ [0xFF, 0xFF, 0xFF]).getD (p.length + 1 + k) 0 = 0xFF := by
  have e : p.length + 1 + k = (p.length + k) + 1 := by omega
  rw [List.cons_append, e, List.getD_cons_succ,
    List.getD_append_right _ _ _ _ (by omega)]
  have e2 : p.length + k - p.length = k := by omega
  rw [e2]
  interval_cases k <;> rfl

/-- Opcode, payload and terminator form a complete frame when the payload ends exactly where
the leading byte says the terminator is expected. -/
theorem completeFrame_fixed (op : Nat) (p : List Nat) (hexp : expLenOf op = p.length + 3)
    (hl : p.length + 4 ≤ NXT_BUF_SIZE) : CompleteFrame (op :: p ++ [0xFF, 0xFF, 0xFF]) := by
  have hlen : (op :: p ++ [0xFF, 0xFF, 0xFF]).length = p.length + 4 := by simp
  have h0 : (op :: p ++ [0xFF, 0xFF, 0xFF]).getD 0 0 = op := rfl
  refine ⟨?_, ?_, by omega⟩
  · unfold endsFrame
    rw [hlen, h0, hexp]
    have e1 : p.length + 4 - 1 = p.length + 1 + 2 := by omega
    have e2 : p.length + 4 - 2 = p.length + 1 + 1 := by omega
    have e3 : p.length + 4 - 3 = p.length + 1 + 0 := by omega
    rw [e1, e2, e3]
    exact ⟨by omega, getD_frame_term op p 2 (by omega), getD_frame_term op p 1 (by omega),
      getD_frame_term op p 0 (by omega)⟩
  · exact noFrameWithin_short _ _ (by rw [hlen, h0, hexp]; omega) (by omega)

/-- Command-path `readBuf` on a line that starts with a complete frame: the code is the one
the switch gives for the stored frame, exactly the frame is consumed and it stays in the
buffer, the position and the expected length are reset. -/
theorem readBuf_frame_code (s : NxtLcd) (f rest : List Nat) (h : Ready s)
    (hf : CompleteFrame f) (hrx : s.rx = f ++ rest) :
    readBuf 0 s = .ok ((classify (landed s f rest) (f.length - 1)).1,
        (finishFrame (classify (landed s f rest) (f.length - 1))).2) ∧
      (finishFrame (classify (landed s f rest) (f.length - 1))).2.rx = rest ∧
      (finishFrame (classify (landed s f rest) (f.length - 1))).2.sendBuf = padded f := by
  refine ⟨?_, ?_, ?_⟩
  · rw [readBuf_frame s f rest h hf hrx]
    rfl
  · rw [finished_rx]; rfl
  · rw [finished_sendBuf]; rfl

/-- C1: on a ready driver, when exactly the four bytes `op, 0xFF, 0xFF, 0xFF` are on the line,
command-path `readBuf` consumes all four and returns the code the table pairs with `op`; for
the wrong-id opcodes `getWrongId()` afterwards returns `op`. -/
theorem readBuf_terminator_only_table (s : NxtLcd) (h : Ready s) (op code : Nat)
    (hop : (op, code) ∈
      [(0x00, replyCmdFail), (0x01, replyCmdOk), (0x02, replyWrongId), (0x03, replyWrongId),
       (0x04, replyWrongId), (0x05, replyWrongId), (0x1A, replyWrongVar), (0x24, replyBufOvfl),
       (0x86, replySleepEv), (0x87, replySleepEv), (0x88, replyDevReady), (0xFD, replyTDEnd),
       (0xFE, replyTDReady)])
    (hrx : s.rx = [op, 0xFF, 0xFF, 0xFF]) :
    ∃ s2, readBuf 0 s = .ok (code, s2) ∧ s2.rx = [] ∧
      (code = replyWrongId → getWrongId s2 = op) := by
  have hr := h.2.1
  have r0 := recvAt_landed s [op, 0xFF, 0xFF, 0xFF] [] 0 hr (by simp)
  have r1 := recvAt_landed s [op, 0xFF, 0xFF, 0xFF] [] 1 hr (by simp)
  have r2 := recvAt_landed s [op, 0xFF, 0xFF, 0xFF] [] 2 hr (by simp)
  simp only [List.getD_cons_zero, List.getD_cons_succ] at r0 r1 r2
  have hexp : expLenOf op = 3 := by
    simp only [List.mem_cons, Prod.mk.injEq, List.mem_singleton, List.not_mem_nil,
      or_false] at hop
    rcases hop with h1 | h1 | h1 | h1 | h1 | h1 | h1 | h1 | h1 | h1 | h1 | h1 | h1 <;>
      (rw [h1.1]; decide)
  rw [readBuf_frame s _ [] h (completeFrame_fixed op [] hexp (by decide)) hrx]
  simp only [List.mem_cons, Prod.mk.injEq, List.mem_singleton, List.not_mem_nil, or_false] at hop
  refine ⟨(finishFrame (classify (landed s [op, 0xFF, 0xFF, 0xFF] []) 3)).2, ?_, ?_, ?_⟩
  · congr 1
    apply Prod.ext
    · rcases hop with h1 | h1 | h1 | h1 | h1 | h1 | h1 | h1 | h1 | h1 | h1 | h1 | h1 <;>
      obtain ⟨rfl, rfl⟩ := h1 <;>
      simp [finishFrame, classify, r0, r1, r2, cmdFail, cmdOk, cmdInvalidCid, cmdInvalidPage,
        cmdInvPicId, cmdInvFontId, cmdInvVar, cmdBufOvfl, cmdTouchCompEv, cmdSendme,
        cmdTouchXYaw, cmdTouchXYsl, cmdGetStr, cmdGetNum, cmdSleepOn, cmdSleepOff, cmdDevReady,
        cmdTDEnd, cmdTDReady]
    · rfl
  · rw [finished_rx]; rfl
  · intro hc
    rcases hop with h1 | h1 | h1 | h1 | h1 | h1 | h1 | h1 | h1 | h1 | h1 | h1 | h1 <;>
      obtain ⟨rfl, rfl⟩ := h1 <;>
      first
      | (exfalso; revert hc; decide)
      | simp [finishFrame, classify, r0, r1, r2, cmdFail, cmdOk, cmdInvalidCid, cmdInvalidPage,
          cmdInvPicId, cmdInvFontId, cmdInvVar, cmdBufOvfl, cmdTouchCompEv, cmdSendme,
          cmdTouchXYaw, cmdTouchXYsl, cmdGetStr, cmdGetNum, cmdSleepOn, cmdSleepOff,
          cmdDevReady, cmdTDEnd, cmdTDReady, replyUnknown, replyWrongId, getWrongId]

/-- The idle driver with any line content is ready. -/
theorem ready_idle (l : List Nat) : Ready { idle with rx := l } :=
  ⟨Nat.one_ne_zero, rfl, List.length_replicate _ _, List.length_replicate _ _⟩

/-- Instance of C1 at the wrong-component frame `02 FF FF FF` on the idle driver. -/
theorem readBuf_terminator_only_table_witness :
    Ready { idle with rx := [0x02, 0xFF, 0xFF, 0xFF] } ∧
    ∃ s2, readBuf 0 { idle with rx := [0x02, 0xFF, 0xFF, 0xFF] } = .ok (replyWrongId, s2) ∧
      s2.rx = [] ∧ (replyWrongId = replyWrongId → getWrongId s2 = 0x02) :=
  ⟨ready_idle _,
   readBuf_terminator_only_table { idle with rx := [0x02, 0xFF, 0xFF, 0xFF] } (ready_idle _)
     0x02 replyWrongId (by decide) rfl⟩

/-- C2: frames with a fixed payload are classified for every payload, bytes equal to `0xFF`
included: touch `0x65` with 3 payload bytes, touch coordinates `0x67`/`0x68` with 5, number
`0x71` with 4, current page `0x66` with 1.  Exactly the frame is consumed and the payload is
left in the receive buffer from index 1 on. -/
theorem readBuf_fixed_payload (s : NxtLcd) (h : Ready s) (op code : Nat) (p rest : List Nat)
    (_hp : Bytes p)
    (hop : (op, p.length, code) ∈
      [(0x65, 3, replyTouchEv), (0x67, 5, replyTouchEv), (0x68, 5, replyTouchEv),
       (0x71, 4, replyGetNum), (0x66, 1, replySendMe)])
    (hrx : s.rx = op :: p ++ [0xFF, 0xFF, 0xFF] ++ rest) :
    ∃ s2, readBuf 0 s = .ok (code, s2) ∧ s2.rx = rest ∧
      ∀ i, i < p.length → s2.sendBuf.getD (i + 1) 0 = p.getD i 0 := by
  have hr := h.2.1
  have hlen : (op :: p ++ [0xFF, 0xFF, 0xFF]).length = p.length + 4 := by simp
  have r0 := recvAt_landed s (op :: p ++ [0xFF, 0xFF, 0xFF]) rest 0 hr (by rw [hlen]; omega)
  have h0 : (op :: p ++ [0xFF, 0xFF, 0xFF]).getD 0 0 = op := rfl
  rw [h0] at r0
  simp only [List.mem_cons, Prod.mk.injEq, List.mem_singleton, List.not_mem_nil, or_false] at hop
  have hexp : expLenOf op = p.length + 3 := by
    rcases hop with h1 | h1 | h1 | h1 | h1 <;> (rw [h1.1, h1.2.1]; decide)
  have hl : p.length + 4 ≤ NXT_BUF_SIZE := by
    rcases hop with h1 | h1 | h1 | h1 | h1 <;> (rw [h1.2.1]; decide)
  obtain ⟨e1, e2, e3⟩ := readBuf_frame_code s _ rest h (completeFrame_fixed op p hexp hl) hrx
  have hcode : (classify (landed s (op :: p ++ [0xFF, 0xFF, 0xFF]) rest)
      ((op :: p ++ [0xFF, 0xFF, 0xFF]).length - 1)).1 = code := by
    rw [hlen]
    generalize landed s (op :: p ++ [0xFF, 0xFF, 0xFF]) rest = X at r0 ⊢
    rcases hop with ⟨rfl, hq, rfl⟩ | ⟨rfl, hq, rfl⟩ | ⟨rfl, hq, rfl⟩ | ⟨rfl, hq, rfl⟩ |
        ⟨rfl, hq, rfl⟩ <;>
      simp [classify, r0, hq, cmdFail, cmdOk, cmdInvalidCid, cmdInvalidPage,
        cmdInvPicId, cmdInvFontId, cmdInvVar, cmdBufOvfl, cmdTouchCompEv, cmdSendme,
        cmdTouchXYaw, cmdTouchXYsl, cmdGetStr, cmdGetNum, cmdSleepOn, cmdSleepOff, cmdDevReady,
        cmdTDEnd, cmdTDReady]
  rw [hcode] at e1
  refine ⟨_, e1, e2, ?_⟩
  intro i hi
  rw [e3, padded_getD _ _ (by rw [hlen]; omega)]
  exact getD_frame_payload op p i hi

/-- Instance of C2 at a number reply whose payload starts with three `0xFF` bytes, followed
by one more byte on the line. -/
theorem readBuf_fixed_payload_witness :
    Ready { idle with rx := [0x71, 0xFF, 0xFF, 0xFF, 0x7F, 0xFF, 0xFF, 0xFF, 0x01] } ∧
    Bytes [0xFF, 0xFF, 0xFF, 0x7F] ∧
    ∃ s2, readBuf 0 { idle with rx := [0x71, 0xFF, 0xFF, 0xFF, 0x7F, 0xFF, 0xFF, 0xFF, 0x01] } =
        .ok (replyGetNum, s2) ∧ s2.rx = [0x01] ∧
      ∀ i, i < [0xFF, 0xFF, 0xFF, 0x7F].length →
        s2.sendBuf.getD (i + 1) 0 = [0xFF, 0xFF, 0xFF, 0x7F].getD i 0 :=
  ⟨ready_idle _, by decide,
   readBuf_fixed_payload { idle with rx := [0x71, 0xFF, 0xFF, 0xFF, 0x7F, 0xFF, 0xFF, 0xFF, 0x01] }
     (ready_idle _) 0x71 replyGetNum [0xFF, 0xFF, 0xFF, 0x7F] [0x01] (by decide) (by decide) rfl⟩

/-- A list of four elements is its four entries. -/
theorem list_of_length_four (f : List Nat) (h : f.length = 4) :
    f = [f.getD 0 0, f.getD 1 0, f.getD 2 0, f.getD 3 0] := by
  rcases f with _ | ⟨a, _ | ⟨b, _ | ⟨c, _ | ⟨d, _ | ⟨e, t⟩⟩⟩⟩⟩ <;> simp at h ⊢

/-- A list of six elements is its six entries. -/
theorem list_of_length_six (f : List Nat) (h : f.length = 6) :
    f = [f.getD 0 0, f.getD 1 0, f.getD 2 0, f.getD 3 0, f.getD 4 0, f.getD 5 0] := by
  rcases f with _ | ⟨a, _ | ⟨b, _ | ⟨c, _ | ⟨d, _ | ⟨e, _ | ⟨g, _ | ⟨i, t⟩⟩⟩⟩⟩⟩⟩ <;>
    simp at h ⊢

/-- Code returned for a complete frame whose leading byte is `0x00`. -/
theorem zero_frame_code (s : NxtLcd) (h : Ready s) (f rest : List Nat)
    (hf : CompleteFrame f) (h0 : f.getD 0 0 = 0x00) :
    (classify (landed s f rest) (f.length - 1)).1 =
      if f = [0x00, 0x00, 0x00, 0xFF, 0xFF, 0xFF] then replyStartUp
      else if f = [0x00, 0xFF, 0xFF, 0xFF] then replyCmdFail
      else replyUnknown := by
  have h4 := endsFrame_length f hf.1
  have r0 := recvAt_landed s f rest 0 h.2.1 (by omega)
  have r1 := recvAt_landed s f rest 1 h.2.1 (by omega)
  have r2 := recvAt_landed s f rest 2 h.2.1 (by omega)
  rw [h0] at r0
  obtain ⟨_, t1, t2, t3⟩ := hf.1
  generalize landed s f rest = X at r0 r1 r2 ⊢
  have hc : (classify X (f.length - 1)).1 =
      if f.length - 1 = 3 then replyCmdFail
      else if f.getD 1 0 = 0 ∧ f.getD 2 0 = 0 ∧ f.length - 1 = 5 then replyStartUp
      else replyUnknown := by
    unfold classify
    rw [if_pos (by rw [r0]; rfl), r1, r2]
  rw [hc]
  by_cases c3 : f.length - 1 = 3
  · have hl : f.length = 4 := by omega
    have e := list_of_length_four f hl
    rw [hl] at t1 t2 t3
    simp only [Nat.add_one_sub_one, Nat.reduceSub] at t1 t2 t3
    rw [h0, t1, t2, t3] at e
    rw [if_pos c3, e]
    decide
  · rw [if_neg c3]
    by_cases c5 : f.getD 1 0 = 0 ∧ f.getD 2 0 = 0 ∧ f.length - 1 = 5
    · have hl : f.length = 6 := by omega
      have e := list_of_length_six f hl
      rw [hl] at t1 t2 t3
      simp only [Nat.add_one_sub_one, Nat.reduceSub] at t1 t2 t3
      rw [h0, c5.1, c5.2.1, t1, t2, t3] at e
      rw [if_pos c5, e]
      decide
    · rw [if_neg c5]
      have n1 : f ≠ [0x00, 0x00, 0x00, 0xFF, 0xFF, 0xFF] := by
        intro e; apply c5; rw [e]; decide
      have n2 : f ≠ [0x00, 0xFF, 0xFF, 0xFF] := by
        intro e; apply c3; rw [e]; decide
      rw [if_neg n1, if_neg n2]

/-- C3: for leading byte `0x00`, command-path `readBuf` returns `replyStartUp` on
`00 00 00 FF FF FF`, `replyCmdFail` on `00 FF FF FF`, and `replyUnknown` on every other
complete frame (terminator recognised at its last byte, at most `NXT_BUF_SIZE` bytes) that
starts with `0x00`. -/
theorem readBuf_startup_vs_failure (s : NxtLcd) (h : Ready s) :
    (s.rx = [0x00, 0x00, 0x00, 0xFF, 0xFF, 0xFF] →
      ∃ s2, readBuf 0 s = .ok (replyStartUp, s2) ∧ s2.rx = []) ∧
    (s.rx = [0x00, 0xFF, 0xFF, 0xFF] →
      ∃ s2, readBuf 0 s = .ok (replyCmdFail, s2) ∧ s2.rx = []) ∧
    (∀ f, Bytes f → CompleteFrame f → f.getD 0 0 = 0x00 →
      f ≠ [0x00, 0x00, 0x00, 0xFF, 0xFF, 0xFF] → f ≠ [0x00, 0xFF, 0xFF, 0xFF] → s.rx = f →
      ∃ s2, readBuf 0 s = .ok (replyUnknown, s2) ∧ s2.rx = []) := by
  have key : ∀ f, CompleteFrame f → f.getD 0 0 = 0x00 → s.rx = f →
      ∃ s2, readBuf 0 s = .ok (
        (if f = [0x00, 0x00, 0x00, 0xFF, 0xFF, 0xFF] then replyStartUp
         else if f = [0x00, 0xFF, 0xFF, 0xFF] then replyCmdFail
         else replyUnknown), s2) ∧ s2.rx = [] := by
    intro f hf h0 hrx
    obtain ⟨e1, e2, _⟩ := readBuf_frame_code s f [] h hf (by rw [hrx, List.append_nil])
    rw [zero_frame_code s h f [] hf h0] at e1
    exact ⟨_, e1, e2⟩
  refine ⟨?_, ?_, ?_⟩
  · intro hrx
    exact key [0x00, 0x00, 0x00, 0xFF, 0xFF, 0xFF] (by decide) rfl hrx
  · intro hrx
    exact key [0x00, 0xFF, 0xFF, 0xFF] (by decide) rfl hrx
  · intro f _ hf h0 n1 n2 hrx
    have := key f hf h0 hrx
    rwa [if_neg n1, if_neg n2] at this

/-- Instance of C3 at the frame `00 01 00 FF FF FF`. -/
theorem readBuf_startup_vs_failure_witness :
    Ready { idle with rx := [0x00, 0x01, 0x00, 0xFF, 0xFF, 0xFF] } ∧
    Bytes [0x00, 0x01, 0x00, 0xFF, 0xFF, 0xFF] ∧
    CompleteFrame [0x00, 0x01, 0x00, 0xFF, 0xFF, 0xFF] ∧
    ∃ s2, readBuf 0 { idle with rx := [0x00, 0x01, 0x00, 0xFF, 0xFF, 0xFF] } =
      .ok (replyUnknown, s2) ∧ s2.rx = [] :=
  ⟨ready_idle _, by decide, by decide,
   (readBuf_startup_vs_failure { idle with rx := [0x00, 0x01, 0x00, 0xFF, 0xFF, 0xFF] }
     (ready_idle _)).2.2 [0x00, 0x01, 0x00, 0xFF, 0xFF, 0xFF] (by decide) (by decide) rfl
     (by decide) (by decide) rfl⟩

/-- A string reply whose non-empty payload has no `0xFF` byte is a complete frame. -/
theorem completeFrame_string (P : List Nat) (hn1 : 1 ≤ P.length)
    (hn2 : P.length + 4 ≤ NXT_BUF_SIZE) (hP : ∀ b ∈ P, b ≠ 0xFF) :
    CompleteFrame (0x70 :: P ++ [0xFF, 0xFF, 0xFF]) := by
  have hlen : (0x70 :: P ++ [0xFF, 0xFF, 0xFF]).length = P.length + 4 := by simp
  have h0 : (0x70 :: P ++ [0xFF, 0xFF, 0xFF]).getD 0 0 = 0x70 := rfl
  have hexp : expLenOf 0x70 = 4 := by decide
  refine ⟨?_, ?_, by omega⟩
  · unfold endsFrame
    rw [hlen, h0, hexp]
    have e1 : P.length + 4 - 1 = P.length + 1 + 2 := by omega
    have e2 : P.length + 4 - 2 = P.length + 1 + 1 := by omega
    have e3 : P.length + 4 - 3 = P.length + 1 + 0 := by omega
    rw [e1, e2, e3]
    exact ⟨by omega, getD_frame_term _ P 2 (by omega), getD_frame_term _ P 1 (by omega),
      getD_frame_term _ P 0 (by omega)⟩
  · intro j hj hE
    rw [hlen] at hj
    rw [endsFrame_take _ j (by rw [hlen]; omega), h0, hexp] at hE
    obtain ⟨g4, _, _, g3⟩ := hE
    have e : j - 2 = (j - 3) + 1 := by omega
    rw [e, getD_frame_payload _ P (j - 3) (by omega)] at g3
    have hm : P.getD (j - 3) 0 ∈ P := by
      rw [List.getD_eq_getElem _ _ (by omega)]
      exact List.getElem_mem _
    exact hP _ hm g3

/-- C4: a string reply `0x70 ++ P ++ FF FF FF` whose payload `P` has `n` bytes,
`1 ≤ n ≤ 124`, none equal to `0xFF`, is classified `replyGetStr`; exactly its `n + 4` bytes
are consumed, `getStrLen` is `n`, and `P` is left in the receive buffer at indices `1..n`. -/
theorem readBuf_string_reply (s : NxtLcd) (h : Ready s) (P rest : List Nat)
    (hn1 : 1 ≤ P.length) (hn2 : P.length ≤ 124) (hP : ∀ b ∈ P, b < 256 ∧ b ≠ 0xFF)
    (hrx : s.rx = 0x70 :: P ++ [0xFF, 0xFF, 0xFF] ++ rest) :
    ∃ s2, readBuf 0 s = .ok (replyGetStr, s2) ∧ s2.rx = rest ∧ s2.getStrLen = P.length ∧
      (0x70 :: P ++ [0xFF, 0xFF, 0xFF]).length = P.length + 4 ∧
      ∀ i, i < P.length → s2.sendBuf.getD (i + 1) 0 = P.getD i 0 := by
  have hlen : (0x70 :: P ++ [0xFF, 0xFF, 0xFF]).length = P.length + 4 := by simp
  have hf : CompleteFrame (0x70 :: P ++ [0xFF, 0xFF, 0xFF]) :=
    completeFrame_string P hn1 (by unfold NXT_BUF_SIZE; omega) (fun b hb => (hP b hb).2)
  have r0 := recvAt_landed s (0x70 :: P ++ [0xFF, 0xFF, 0xFF]) rest 0 h.2.1 (by rw [hlen]; omega)
  have h0 : (0x70 :: P ++ [0xFF, 0xFF, 0xFF]).getD 0 0 = 0x70 := rfl
  rw [h0] at r0
  obtain ⟨e1, e2, e3⟩ := readBuf_frame_code s _ rest h hf hrx
  rw [hlen] at e1
  have hcode : (classify (landed s (0x70 :: P ++ [0xFF, 0xFF, 0xFF]) rest)
      (P.length + 4 - 1)).1 = replyGetStr := by
    generalize landed s (0x70 :: P ++ [0xFF, 0xFF, 0xFF]) rest = X at r0 ⊢
    simp [classify, r0, cmdFail, cmdOk, cmdInvalidCid, cmdInvalidPage,
      cmdInvPicId, cmdInvFontId, cmdInvVar, cmdBufOvfl, cmdTouchCompEv, cmdSendme,
      cmdTouchXYaw, cmdTouchXYsl, cmdGetStr, cmdGetNum, cmdSleepOn, cmdSleepOff, cmdDevReady,
      cmdTDEnd, cmdTDReady]
  have hstr : (finishFrame (classify (landed s (0x70 :: P ++ [0xFF, 0xFF, 0xFF]) rest)
      (P.length + 4 - 1))).2.getStrLen = P.length := by
    generalize landed s (0x70 :: P ++ [0xFF, 0xFF, 0xFF]) rest = X at r0 ⊢
    simp [finishFrame, classify, r0, cmdFail, cmdOk, cmdInvalidCid, cmdInvalidPage,
      cmdInvPicId, cmdInvFontId, cmdInvVar, cmdBufOvfl, cmdTouchCompEv, cmdSendme,
      cmdTouchXYaw, cmdTouchXYsl, cmdGetStr, cmdGetNum, cmdSleepOn, cmdSleepOff, cmdDevReady,
      cmdTDEnd, cmdTDReady, replyGetStr, replyUnknown]
  rw [hcode] at e1
  rw [hlen] at e2 e3
  refine ⟨_, e1, e2, hstr, hlen, ?_⟩
  intro i hi
  rw [e3, padded_getD _ _ (by rw [hlen]; omega)]
  exact getD_frame_payload _ P i hi

/-- Instance of C4 at the reply carrying the text `OK`, followed by an acknowledgement. -/
theorem readBuf_string_reply_witness :
    Ready { idle with rx := [0x70, 0x4F, 0x4B, 0xFF, 0xFF, 0xFF, 0x01, 0xFF, 0xFF, 0xFF] } ∧
    1 ≤ [0x4F, 0x4B].length ∧ [0x4F, 0x4B].length ≤ 124 ∧
    (∀ b ∈ [0x4F, 0x4B], b < 256 ∧ b ≠ 0xFF) ∧
    ∃ s2, readBuf 0 { idle with rx := [0x70, 0x4F, 0x4B, 0xFF, 0xFF, 0xFF, 0x01, 0xFF, 0xFF, 0xFF] }
        = .ok (replyGetStr, s2) ∧ s2.rx = [0x01, 0xFF, 0xFF, 0xFF] ∧
      s2.getStrLen = [0x4F, 0x4B].length ∧
      (0x70 :: [0x4F, 0x4B] ++ [0xFF, 0xFF, 0xFF]).length = [0x4F, 0x4B].length + 4 ∧
      ∀ i, i < [0x4F, 0x4B].length → s2.sendBuf.getD (i + 1) 0 = [0x4F, 0x4B].getD i 0 :=
  ⟨ready_idle _, by decide, by decide, by decide,
   readBuf_string_reply
     { idle with rx := [0x70, 0x4F, 0x4B, 0xFF, 0xFF, 0xFF, 0x01, 0xFF, 0xFF, 0xFF] }
     (ready_idle _) [0x4F, 0x4B] [0x01, 0xFF, 0xFF, 0xFF] (by decide) (by decide) (by decide) rfl⟩

/-! ## Replies that are not classified, overflow, and the event drain -/

/-- Bytes among which none is `0xFF` never end a frame. -/
theorem noFrameWithin_of_no_ff (bs : List Nat) (n : Nat) (hn : n ≤ bs.length)
    (hb : ∀ b ∈ bs, b ≠ 0xFF) : noFrameWithin bs n := by
  intro j hj hE
  rw [endsFrame_take bs j (by omega)] at hE
  have hm : bs.getD j 0 ∈ bs := by
    rw [List.getD_eq_getElem _ _ (by omega)]
    exact List.getElem_mem _
  exact hb _ hm hE.2.1

/-- C5 (the code at the failing input): on the empty-string reply `70 FF FF FF` command-path
`readBuf` does not recognise the terminator (position 3 is below the expected length 4 chosen
for `0x70`), returns `noComplete` and leaves `getStrLen` as it was (5 here, from an earlier
reply); `writeBuf(replyGetStr)`, the call `getString` makes, hands that `noComplete` back
instead of success. -/
theorem readBuf_empty_string_reply :
    readBuf 0 { idle with getStrLen := 5, rx := [0x70, 0xFF, 0xFF, 0xFF] } =
      .ok (noComplete, scanned { idle with getStrLen := 5 } [0x70, 0xFF, 0xFF, 0xFF] []) ∧
    (scanned { idle with getStrLen := 5 } [0x70, 0xFF, 0xFF, 0xFF] []).getStrLen = 5 ∧
    Except.map Prod.fst
      (writeBuf replyGetStr NXT_REPLY_WAIT 0
        { idle with sendBuf := padded getT0Txt, script := [[0x70, 0xFF, 0xFF, 0xFF]] }) =
      .ok noComplete := by
  refine ⟨?_, rfl, ?_⟩
  · exact readBuf_incomplete _ _
      ⟨Nat.one_ne_zero, rfl, List.length_replicate _ _, List.length_replicate _ _⟩ rfl
      (by decide) (by decide) (by decide)
  · decide

/-- The switch answers `replyUnknown` when the leading byte has no case, or has a case with a
position test that the frame misses. -/
theorem classify_unknown (X : NxtLcd) (op cnt : Nat) (r0 : X.recvAt 0 = op)
    (hop : op ∉ knownOpcodes ∨ (op ≠ cmdGetStr ∧ cnt ∉ entryPos op)) :
    (classify X cnt).1 = replyUnknown := by
  have miss : op ∈ knownOpcodes → op ≠ cmdGetStr ∧ cnt ∉ entryPos op := by
    intro hk
    rcases hop with h1 | h1
    · exact absurd hk h1
    · exact h1
  unfold classify
  rw [r0]
  by_cases h0 : op = cmdFail
  · have hm := (miss (by rw [h0]; decide)).2
    rw [h0] at hm
    have c3 : cnt ≠ 3 := fun e => hm (by rw [e]; decide)
    have c5 : cnt ≠ 5 := fun e => hm (by rw [e]; decide)
    rw [if_pos h0]
    simp only [c3, c5, and_false, if_false]
  rw [if_neg h0]
  by_cases h1 : op = cmdOk
  · have hm := (miss (by rw [h1]; decide)).2
    rw [h1] at hm
    have c3 : cnt ≠ 3 := fun e => hm (by rw [e]; decide)
    rw [if_pos h1]
    simp only [c3, if_false]
  rw [if_neg h1]
  by_cases h2 : op = cmdDevReady
  · have hm := (miss (by rw [h2]; decide)).2
    rw [h2] at hm
    have c3 : cnt ≠ 3 := fun e => hm (by rw [e]; decide)
    rw [if_pos h2]
    simp only [c3, if_false]
  rw [if_neg h2]
  by_cases h3 : op = cmdInvalidCid ∨ op = cmdInvalidPage ∨
      op = cmdInvPicId ∨ op = cmdInvFontId
  · have hm := (miss (by rcases h3 with e1 | e1 | e1 | e1 <;> (rw [e1]; decide))).2
    have c3 : cnt ≠ 3 := fun e => hm (by
      rw [e]
      rcases h3 with e1 | e1 | e1 | e1 <;> (rw [e1]; decide))
    rw [if_pos h3]
    simp only [c3, if_false]
  rw [if_neg h3]
  by_cases h4 : op = cmdInvVar
  · have hm := (miss (by rw [h4]; decide)).2
    rw [h4] at hm
    have c3 : cnt ≠ 3 := fun e => hm (by rw [e]; decide)
    rw [if_pos h4]
    simp only [c3, if_false]
  rw [if_neg h4]
  by_cases h5 : op = cmdBufOvfl
  · have hm := (miss (by rw [h5]; decide)).2
    rw [h5] at hm
    have c3 : cnt ≠ 3 := fun e => hm (by rw [e]; decide)
    rw [if_pos h5]
    simp only [c3, if_false]
  rw [if_neg h5]
  by_cases h6 : op = cmdTouchCompEv
  · have hm := (miss (by rw [h6]; decide)).2
    rw [h6] at hm
    have c3 : cnt ≠ 6 := fun e => hm (by rw [e]; decide)
    rw [if_pos h6]
    simp only [c3, if_false]
  rw [if_neg h6]
  by_cases h7 : op = cmdTouchXYaw
  · have hm := (miss (by rw [h7]; decide)).2
    rw [h7] at hm
    have c3 : cnt ≠ 8 := fun e => hm (by rw [e]; decide)
    rw [if_pos h7]
    simp only [c3, if_false]
  rw [if_neg h7]
  by_cases h8 : op = cmdTouchXYsl
  · have hm := (miss (by rw [h8]; decide)).2
    rw [h8] at hm
    have c3 : cnt ≠ 8 := fun e => hm (by rw [e]; decide)
    rw [if_pos h8]
    simp only [c3, if_false]
  rw [if_neg h8]
  by_cases h9 : op = cmdSleepOn ∨ op = cmdSleepOff
  · have hm := (miss (by rcases h9 with e1 | e1 <;> (rw [e1]; decide))).2
    have c3 : cnt ≠ 3 := fun e => hm (by
      rw [e]
      rcases h9 with e1 | e1 <;> (rw [e1]; decide))
    rw [if_pos h9]
    simp only [c3, if_false]
  rw [if_neg h9]
  by_cases h10 : op = cmdGetStr
  · exact absurd h10 (miss (by rw [h10]; decide)).1
  rw [if_neg h10]
  by_cases h11 : op = cmdGetNum
  · have hm := (miss (by rw [h11]; decide)).2
    rw [h11] at hm
    have c3 : cnt ≠ 7 := fun e => hm (by rw [e]; decide)
    rw [if_pos h11]
    simp only [c3, if_false]
  rw [if_neg h11]
  by_cases h12 : op = cmdSendme
  · have hm := (miss (by rw [h12]; decide)).2
    rw [h12] at hm
    have c3 : cnt ≠ 4 := fun e => hm (by rw [e]; decide)
    rw [if_pos h12]
    simp only [c3, if_false]
  rw [if_neg h12]
  by_cases h13 : op = cmdTDEnd
  · have hm := (miss (by rw [h13]; decide)).2
    rw [h13] at hm
    have c3 : cnt ≠ 3 := fun e => hm (by rw [e]; decide)
    rw [if_pos h13]
    simp only [c3, if_false]
  rw [if_neg h13]
  by_cases h14 : op = cmdTDReady
  · have hm := (miss (by rw [h14]; decide)).2
    rw [h14] at hm
    have c3 : cnt ≠ 3 := fun e => hm (by rw [e]; decide)
    rw [if_pos h14]
    simp only [c3, if_false]
  rw [if_neg h14]

/-- After an unknown reply `wrongIdCode` holds byte 0 of the receive buffer. -/
theorem finished_wrongId (X : NxtLcd) (cnt : Nat) (hu : (classify X cnt).1 = replyUnknown) :
    (finishFrame (classify X cnt)).2.wrongIdCode = X.recvAt 0 := by
  obtain ⟨w, l, g, e, hc⟩ := classify_keeps X cnt
  unfold finishFrame
  simp only [hu, if_true]
  rw [hc]
  rfl

/-- C6 (counterexample): the touch frame `65 02 07 FF FF FF`, one payload byte short of its
table entry, is a terminated frame of a fixed-length known opcode whose length does not match,
yet command-path `readBuf` returns `noComplete`, not `replyUnknown`, and `getWrongId()` does
not return `0x65`. -/
theorem readBuf_short_touch_frame :
    readBuf 0 { idle with rx := [0x65, 0x02, 0x07, 0xFF, 0xFF, 0xFF] } =
      .ok (noComplete, scanned idle [0x65, 0x02, 0x07, 0xFF, 0xFF, 0xFF] []) ∧
    noComplete ≠ replyUnknown ∧
    getWrongId (scanned idle [0x65, 0x02, 0x07, 0xFF, 0xFF, 0xFF] []) ≠ 0x65 :=
  ⟨readBuf_incomplete _ _ (ready_idle _) rfl (by decide) (by decide) (by decide),
   by decide, by decide⟩

/-- C6 (amended): for every complete frame (terminator recognised at its last byte, which
for the opcodes with a longer expected length means at or after that position; at most
`NXT_BUF_SIZE` bytes) whose leading byte is not one of the 19 known opcodes, or is a known
opcode other than `0x70` and the frame ends at a position its table entry does not list,
command-path `readBuf` consumes the frame, returns `replyUnknown`, and `getWrongId()`
afterwards returns the leading byte. -/
theorem readBuf_unknown_keeps_opcode (s : NxtLcd) (h : Ready s) (f rest : List Nat)
    (_hb : Bytes f) (hf : CompleteFrame f)
    (hop : f.getD 0 0 ∉ knownOpcodes ∨
      (f.getD 0 0 ≠ cmdGetStr ∧ f.length - 1 ∉ entryPos (f.getD 0 0)))
    (hrx : s.rx = f ++ rest) :
    ∃ s2, readBuf 0 s = .ok (replyUnknown, s2) ∧ getWrongId s2 = f.getD 0 0 ∧ s2.rx = rest := by
  have h4 := endsFrame_length f hf.1
  have r0 := recvAt_landed s f rest 0 h.2.1 (by omega)
  obtain ⟨e1, e2, _⟩ := readBuf_frame_code s f rest h hf hrx
  have hu := classify_unknown (landed s f rest) (f.getD 0 0) (f.length - 1) r0 hop
  rw [hu] at e1
  refine ⟨_, e1, ?_, e2⟩
  unfold getWrongId
  rw [finished_wrongId _ _ hu, r0]

/-- Instance of C6 (amended) at the frame `01 41 FF FF FF`, followed by one more byte. -/
theorem readBuf_unknown_keeps_opcode_witness :
    Ready { idle with rx := [0x01, 0x41, 0xFF, 0xFF, 0xFF, 0x88] } ∧
    Bytes [0x01, 0x41, 0xFF, 0xFF, 0xFF] ∧ CompleteFrame [0x01, 0x41, 0xFF, 0xFF, 0xFF] ∧
    ([0x01, 0x41, 0xFF, 0xFF, 0xFF].getD 0 0 ∉ knownOpcodes ∨
      ([0x01, 0x41, 0xFF, 0xFF, 0xFF].getD 0 0 ≠ cmdGetStr ∧
        [0x01, 0x41, 0xFF, 0xFF, 0xFF].length - 1 ∉
          entryPos ([0x01, 0x41, 0xFF, 0xFF, 0xFF].getD 0 0))) ∧
    ∃ s2, readBuf 0 { idle with rx := [0x01, 0x41, 0xFF, 0xFF, 0xFF, 0x88] } =
        .ok (replyUnknown, s2) ∧
      getWrongId s2 = [0x01, 0x41, 0xFF, 0xFF, 0xFF].getD 0 0 ∧ s2.rx = [0x88] :=
  ⟨ready_idle _, by decide, by decide, by decide,
   readBuf_unknown_keeps_opcode { idle with rx := [0x01, 0x41, 0xFF, 0xFF, 0xFF, 0x88] }
     (ready_idle _) [0x01, 0x41, 0xFF, 0xFF, 0xFF] [0x88] (by decide) (by decide) (by decide)
     rfl⟩

/-- C7: on a line holding at least `NXT_BUF_SIZE` bytes of which none of the first
`NXT_BUF_SIZE` initial segments ends a frame (so no prefix is a complete frame), command-path
`readBuf` returns after consuming exactly `NXT_BUF_SIZE` bytes, with `bufOvfl`, the receive
buffer all zero and the read position back at zero. -/
theorem readBuf_receive_overflow (s : NxtLcd) (h : Ready s) (_hb : Bytes s.rx)
    (hlen : NXT_BUF_SIZE ≤ s.rx.length) (hno : noFrameWithin s.rx NXT_BUF_SIZE) :
    ∃ s2, readBuf 0 s = .ok (bufOvfl, s2) ∧ s2.rx = s.rx.drop NXT_BUF_SIZE ∧
      s.rx.length - s2.rx.length = 128 ∧
      s2.sendBuf = List.replicate NXT_BUF_SIZE 0 ∧ s2.recvBuf = BufId.sendBuf ∧
      s2.cntStatic = 0 := by
  refine ⟨_, readBuf_overflow s h hlen hno, rfl, ?_, rfl, h.2.1, rfl⟩
  simp only [List.length_drop]
  unfold NXT_BUF_SIZE at hlen ⊢
  omega

/-- Instance of C7 at a line of 200 bytes `0x41`. -/
theorem readBuf_receive_overflow_witness :
    Ready { idle with rx := List.replicate 200 0x41 } ∧
    Bytes (List.replicate 200 0x41) ∧
    NXT_BUF_SIZE ≤ (List.replicate 200 0x41).length ∧
    noFrameWithin (List.replicate 200 0x41) NXT_BUF_SIZE ∧
    ∃ s2, readBuf 0 { idle with rx := List.replicate 200 0x41 } = .ok (bufOvfl, s2) ∧
      s2.rx = (List.replicate 200 0x41).drop NXT_BUF_SIZE ∧
      (List.replicate 200 0x41).length - s2.rx.length = 128 ∧
      s2.sendBuf = List.replicate NXT_BUF_SIZE 0 ∧ s2.recvBuf = BufId.sendBuf ∧
      s2.cntStatic = 0 :=
  have hb : Bytes (List.replicate 200 0x41) := by
    intro b hm
    rw [List.eq_of_mem_replicate hm]
    decide
  have hl : NXT_BUF_SIZE ≤ (List.replicate 200 0x41).length := by
    rw [List.length_replicate]; decide
  have hno : noFrameWithin (List.replicate 200 0x41) NXT_BUF_SIZE :=
    noFrameWithin_of_no_ff _ _ hl (fun b hm => by rw [List.eq_of_mem_replicate hm]; decide)
  ⟨ready_idle _, hb, hl, hno,
   readBuf_receive_overflow { idle with rx := List.replicate 200 0x41 } (ready_idle _) hb hl hno⟩

/-- C8 (the code at the failing input): a command-path read that ends `noComplete` after 12
bytes leaves `cntStatic = 12`; the next event drain starts at that position and stores its
first byte at index 12 of the 10-byte `evtBuf`.  The same happens through `writeBuf`: a string
reply of which 12 bytes had arrived when the first command read, then the rest arriving before
the next command. -/
theorem readEvent_store_out_of_bounds :
    readBuf 0 { idle with rx := List.replicate 12 0x41 } =
      .ok (noComplete, scanned idle (List.replicate 12 0x41) []) ∧
    (scanned idle (List.replicate 12 0x41) []).cntStatic = 12 ∧
    readEvent none { scanned idle (List.replicate 12 0x41) [] with rx := [0x65] } =
      .error (Fault.outOfBounds BufId.evtBuf 12) ∧
    (writeBuf replyGetStr NXT_REPLY_WAIT 0
        { idle with sendBuf := padded getT0Txt,
                    script := [[0x70, 0x48, 0x65, 0x6C, 0x6C, 0x6F, 0x20, 0x77, 0x6F, 0x72,
                                0x6C, 0x64]] } >>= fun r =>
      writeBuf replyGetStr NXT_REPLY_WAIT 0
        { r.2 with rx := [0x21, 0xFF, 0xFF, 0xFF], sendBuf := padded getT0Txt }) =
      .error (Fault.outOfBounds BufId.evtBuf 12) := by
  refine ⟨?_, rfl, ?_, ?_⟩
  · exact readBuf_incomplete _ _ (ready_idle _) rfl (by decide) (by decide) (by decide)
  · decide
  · decide

/-- C9 (the code at the failing input): `writeBuf(replyGetNum)`, the call `getNumeric` and
`getProperty` make, answers `replyCmdOk` when the display sends the plain acknowledgement
`01 FF FF FF`, whose classification `replyCmdOk` differs from the expected `replyGetNum`. -/
theorem writeBuf_ack_counts_as_number :
    Except.map Prod.fst (readBuf 0 { idle with rx := [0x01, 0xFF, 0xFF, 0xFF] }) =
      .ok replyCmdOk ∧
    replyCmdOk ≠ replyGetNum ∧
    Except.map Prod.fst
      (writeBuf replyGetNum NXT_REPLY_WAIT 0
        { idle with sendBuf := padded getN0Val, script := [[0x01, 0xFF, 0xFF, 0xFF]] }) =
      .ok replyCmdOk := by
  refine ⟨?_, ?_, ?_⟩ <;> decide

/-- C10: with an expected code (`expReply > 0`) and a non-empty command in `sendBuf`, when
the read that follows the write and the settle delay classifies to a code `res` that differs
from `expReply` and is not one of the intercepted event codes, `writeBuf(expReply)` returns
exactly `res`. -/
theorem writeBuf_mismatch_returns_observed (s s1 s2 : NxtLcd) (expReply wait r0 n res : Nat)
    (hi : s.initialized ≠ 0) (hexp : 0 < expReply)
    (hev : readEvent none s = .ok (r0, s1))
    (hlen : strlen BufId.sendBuf s1.sendBuf = .ok n) (hn : 0 < n)
    (hread : readBuf 0 ((serialWrite s1 (s1.sendBuf.take n)).2.delay wait) = .ok (res, s2))
    (hne : res ≠ expReply)
    (hnev : res ≠ replyTouchEv ∧ res ≠ replySleepEv ∧ res ≠ replySendMe) :
    writeBuf expReply wait 0 s = .ok (res, s2) := by
  unfold writeBuf
  rw [if_neg hi, hev]
  simp only [if_true, hlen]
  rw [if_pos hn, if_pos (Or.inl hexp)]
  unfold awaitReply
  rw [hread]
  simp only []
  rw [if_neg (by tauto)]
  unfold compareReply
  rw [if_pos hexp, if_neg hne]

/-- Instance of C10: `replyGetNum` expected, the display answers `1A FF FF FF`. -/
theorem writeBuf_mismatch_returns_observed_witness :
    (asking [0x1A, 0xFF, 0xFF, 0xFF]).initialized ≠ 0 ∧ 0 < replyGetNum ∧
    readEvent none (asking [0x1A, 0xFF, 0xFF, 0xFF]) =
      .ok (noReply, asking [0x1A, 0xFF, 0xFF, 0xFF]) ∧
    strlen BufId.sendBuf (asking [0x1A, 0xFF, 0xFF, 0xFF]).sendBuf = .ok 13 ∧ 0 < 13 ∧
    readBuf 0 ((serialWrite (asking [0x1A, 0xFF, 0xFF, 0xFF])
        ((asking [0x1A, 0xFF, 0xFF, 0xFF]).sendBuf.take 13)).2.delay NXT_REPLY_WAIT) =
      .ok (replyWrongVar, stateOf idle (readBuf 0 ((serialWrite (asking [0x1A, 0xFF, 0xFF, 0xFF])
        ((asking [0x1A, 0xFF, 0xFF, 0xFF]).sendBuf.take 13)).2.delay NXT_REPLY_WAIT))) ∧
    replyWrongVar ≠ replyGetNum ∧
    (replyWrongVar ≠ replyTouchEv ∧ replyWrongVar ≠ replySleepEv ∧
      replyWrongVar ≠ replySendMe) ∧
    writeBuf replyGetNum NXT_REPLY_WAIT 0 (asking [0x1A, 0xFF, 0xFF, 0xFF]) =
      .ok (replyWrongVar, stateOf idle (readBuf 0 ((serialWrite (asking [0x1A, 0xFF, 0xFF, 0xFF])
        ((asking [0x1A, 0xFF, 0xFF, 0xFF]).sendBuf.take 13)).2.delay NXT_REPLY_WAIT))) :=
  ⟨by decide, by decide, by decide, by decide, by decide, by decide, by decide, by decide,
   writeBuf_mismatch_returns_observed (asking [0x1A, 0xFF, 0xFF, 0xFF])
     (asking [0x1A, 0xFF, 0xFF, 0xFF]) _ replyGetNum NXT_REPLY_WAIT noReply 13 replyWrongVar
     (by decide) (by decide) (by decide) (by decide) (by decide) (by decide) (by decide)
     (by decide)⟩

/-- The examples of C10 evaluated: with `replyGetNum` expected, `writeBuf` returns
`replyWrongVar` on `1A FF FF FF`, `replyWrongId` on `02 FF FF FF`, and `noReply` when nothing
arrives. -/
theorem writeBuf_mismatch_examples :
    Except.map Prod.fst (writeBuf replyGetNum NXT_REPLY_WAIT 0 (asking [0x1A, 0xFF, 0xFF, 0xFF]))
      = .ok replyWrongVar ∧
    Except.map Prod.fst (writeBuf replyGetNum NXT_REPLY_WAIT 0 (asking [0x02, 0xFF, 0xFF, 0xFF]))
      = .ok replyWrongId ∧
    Except.map Prod.fst (writeBuf replyGetNum NXT_REPLY_WAIT 0 (asking [])) = .ok noReply := by
  refine ⟨?_, ?_, ?_⟩ <;> decide

/-! ## The reads always return, and what they keep -/

theorem kept_refl (a : NxtLcd) : Kept a a :=
  ⟨rfl, rfl, rfl, rfl, rfl, rfl, rfl, rfl, rfl, rfl, rfl, fun _ => rfl, fun _ => rfl⟩

theorem kept_trans (a b c : NxtLcd) (h1 : Kept a b) (h2 : Kept b c) : Kept a c :=
  ⟨h2.tx.trans h1.tx, h2.script.trans h1.script, h2.initialized.trans h1.initialized,
   h2.debug.trans h1.debug, h2.recvBuf.trans h1.recvBuf, h2.dispType.trans h1.dispType,
   h2.sysProp.trans h1.sysProp, h2.haveEvent.trans h1.haveEvent,
   h2.lastEvent.trans h1.lastEvent, h2.sendLen.trans h1.sendLen, h2.evtLen.trans h1.evtLen,
   fun h => (h2.sendSame (h1.recvBuf.trans h)).trans (h1.sendSame h),
   fun h => (h2.evtSame (h1.recvBuf.trans h)).trans (h1.evtSame h)⟩

theorem sized_of_kept (a b : NxtLcd) (h : Kept a b) (hs : Sized a) : Sized b :=
  ⟨h.sendLen.trans hs.1, h.evtLen.trans hs.2⟩

/-- The classification and the tail of the terminator branch keep what `Kept` lists. -/
theorem finished_kept (s : NxtLcd) (cnt : Nat) : Kept s (finishFrame (classify s cnt)).2 := by
  obtain ⟨_, w, hw⟩ := finishFrame_keeps (classify s cnt)
  obtain ⟨w2, l, g, e, hc⟩ := classify_keeps s cnt
  rw [hw, hc]
  exact ⟨rfl, rfl, rfl, rfl, rfl, rfl, rfl, rfl, rfl, rfl, rfl, fun _ => rfl, fun _ => rfl⟩

theorem finished_cntStatic (s : NxtLcd) (cnt : Nat) :
    (finishFrame (classify s cnt)).2.cntStatic = 0 := by
  obtain ⟨_, w, hw⟩ := finishFrame_keeps (classify s cnt)
  rw [hw]

/-- The store at the head of a loop turn, inside the array. -/
theorem recvStore_kept (t : NxtLcd) (rest : List Nat) (cnt b : Nat)
    (hc : cnt < capacity t.recvBuf) :
    ∃ s1, recvStore { t with rx := rest } cnt b = .ok s1 ∧
      Kept t s1 ∧ s1.rx = rest ∧ s1.cntStatic = t.cntStatic := by
  unfold recvStore
  rw [if_pos hc]
  refine ⟨_, rfl, ?_, ?_, ?_⟩
  · cases hb : t.recvBuf <;>
      simp only [setBuf, bufOf, hb] <;>
      exact ⟨rfl, rfl, rfl, rfl, hb.symm, rfl, rfl, rfl, rfl, by simp, by simp,
        fun h => by first | rfl | (rw [hb] at h; cases h),
        fun h => by first | rfl | (rw [hb] at h; cases h)⟩
  · cases hb : t.recvBuf <;> simp only [setBuf, bufOf, hb]
  · cases hb : t.recvBuf <;> simp only [setBuf, bufOf, hb]

/-- Clearing the first `n` bytes of the receive array, `n` within both arrays. -/
theorem memsetZero_kept (t : NxtLcd) (n : Nat) (hn : n ≤ capacity t.recvBuf)
    (h1 : n ≤ (t.bufOf t.recvBuf).length) :
    ∃ s3, memsetZero { t with cntStatic := 0 } t.recvBuf n = .ok s3 ∧
      Kept t s3 ∧ s3.rx = t.rx ∧ s3.cntStatic = 0 := by
  unfold memsetZero
  rw [if_pos hn]
  refine ⟨_, rfl, ?_, ?_, ?_⟩
  · cases hb : t.recvBuf <;> rw [hb] at h1 <;>
      simp only [setBuf, bufOf, hb] at h1 ⊢ <;>
      exact ⟨rfl, rfl, rfl, rfl, hb.symm, rfl, rfl, rfl, rfl, by simp <;> omega, by simp <;> omega,
        fun h => by first | rfl | (rw [hb] at h; cases h),
        fun h => by first | rfl | (rw [hb] at h; cases h)⟩
  · cases hb : t.recvBuf <;> simp only [setBuf, bufOf, hb]
  · cases hb : t.recvBuf <;> simp only [setBuf, bufOf, hb]

theorem capFor_le (ck : Nat) : capFor ck ≤ NXT_BUF_SIZE := by
  unfold capFor; split <;> decide

/-- The loop of `readBuf` always returns when it starts inside the array it fills; it keeps
what `Kept` lists, consumes a beginning of the line and leaves its position inside. -/
theorem readLoop_total (ck : Nat) (l : List Nat) :
    ∀ (cnt ret : Nat) (t : NxtLcd), t.rx = l → Sized t →
      capFor ck ≤ capacity t.recvBuf →
      (ck = 0 → t.recvBuf = BufId.sendBuf) →
      cnt < capFor ck → t.cntStatic < capFor ck →
      ∃ r t', readLoop ck l cnt ret t = .ok (r, t') ∧ Kept t t' ∧
        (∃ pre, l = pre ++ t'.rx) ∧ t'.cntStatic < capFor ck := by
  induction l with
  | nil =>
    intro cnt ret t hrx _ _ _ _ hcs
    exact ⟨ret, t, rfl, kept_refl t, ⟨[], by simp [hrx]⟩, hcs⟩
  | cons b rest ih =>
    intro cnt ret t _ hsz hcap hck hcnt _
    obtain ⟨s1, e1, k1, r1, _⟩ := recvStore_kept t rest cnt b (lt_of_lt_of_le hcnt hcap)
    have hpos : 0 < capFor ck := by omega
    have hle := capFor_le ck
    have h65 : (cnt + 1) % 65536 = cnt + 1 := by
      apply Nat.mod_eq_of_lt
      have : NXT_BUF_SIZE = 128 := rfl
      omega
    rw [readLoop, e1]
    dsimp only
    -- the state after the expected-length switch
    obtain ⟨s2, e2, k2, r2⟩ : ∃ s2, (if cnt = 0 then
        { s1 with expLen := expLenOf (s1.recvAt 0) } else s1) = s2 ∧ Kept t s2 ∧ s2.rx = rest := by
      by_cases h0 : cnt = 0
      · refine ⟨_, rfl, ?_, ?_⟩
        · rw [if_pos h0]
          exact ⟨k1.tx, k1.script, k1.initialized, k1.debug, k1.recvBuf, k1.dispType,
            k1.sysProp, k1.haveEvent, k1.lastEvent, k1.sendLen, k1.evtLen, k1.sendSame,
            k1.evtSame⟩
        · rw [if_pos h0]; exact r1
      · exact ⟨_, rfl, by rw [if_neg h0]; exact k1, by rw [if_neg h0]; exact r1⟩
    rw [e2]
    by_cases hterm : s2.expLen ≤ cnt ∧ s2.recvAt cnt = 0xFF ∧
        s2.recvAt (cnt - 1) = 0xFF ∧ s2.recvAt (cnt - 2) = 0xFF
    · rw [if_pos hterm]
      refine ⟨(finishFrame (classify s2 cnt)).1, (finishFrame (classify s2 cnt)).2, rfl,
        kept_trans _ _ _ k2 (finished_kept s2 cnt), ⟨[b], ?_⟩, ?_⟩
      · rw [finished_rx, r2]; rfl
      · rw [finished_cntStatic]; exact hpos
    · rw [if_neg hterm, h65]
      have hs2 : Sized s2 := sized_of_kept _ _ k2 hsz
      have hkc : Kept s2 { s2 with cntStatic := cnt + 1 } :=
        ⟨rfl, rfl, rfl, rfl, rfl, rfl, rfl, rfl, rfl, rfl, rfl, fun _ => rfl, fun _ => rfl⟩
      by_cases hk : ck > 0
      · rw [if_pos hk]
        have hc10 : capFor ck = NXT_EV_BUF_SIZE := by unfold capFor; rw [if_pos hk]
        by_cases hov : cnt + 1 = NXT_EV_BUF_SIZE
        · rw [if_pos hov]
          obtain ⟨s3, e3, k3, r3, c3⟩ := memsetZero_kept s2 NXT_EV_BUF_SIZE
            (by rw [k2.recvBuf, ← hc10]; exact hcap)
            (by cases hb : s2.recvBuf
                · show _ ≤ s2.sendBuf.length
                  rw [hs2.1]; decide
                · show _ ≤ s2.evtBuf.length
                  rw [hs2.2])
          rw [e3]
          exact ⟨_, _, rfl, kept_trans _ _ _ k2 k3, ⟨[b], by rw [r3, r2]; rfl⟩,
            by rw [c3]; exact hpos⟩
        · rw [if_neg hov]
          obtain ⟨r, t', e, k, ⟨pre, hp⟩, c⟩ := ih (cnt + 1) noComplete
            { s2 with cntStatic := cnt + 1 } r2 hs2
            (by show capFor ck ≤ capacity s2.recvBuf; rw [k2.recvBuf]; exact hcap)
            (fun h => by show s2.recvBuf = _; rw [k2.recvBuf]; exact hck h)
            (by rw [hc10] at hcnt ⊢; omega) (by show cnt + 1 < capFor ck; rw [hc10] at hcnt ⊢; omega)
          exact ⟨r, t', e, kept_trans _ _ _ k2 (kept_trans _ _ _ hkc k),
            ⟨b :: pre, by rw [hp]; rfl⟩, c⟩
      · rw [if_neg hk]
        have hc128 : capFor ck = NXT_BUF_SIZE := by unfold capFor; rw [if_neg hk]
        have hrb : s2.recvBuf = BufId.sendBuf := by rw [k2.recvBuf]; exact hck (by omega)
        by_cases hov : cnt + 1 = NXT_BUF_SIZE
        · rw [if_pos hov]
          obtain ⟨s3, e3, k3, r3, c3⟩ := memsetZero_kept s2 NXT_BUF_SIZE
            (by rw [hrb]; decide)
            (by rw [hrb]; show _ ≤ s2.sendBuf.length; rw [hs2.1])
          unfold bufReset
          rw [e3]
          exact ⟨_, _, rfl, kept_trans _ _ _ k2 k3, ⟨[b], by rw [r3, r2]; rfl⟩,
            by rw [c3]; exact hpos⟩
        · rw [if_neg hov]
          obtain ⟨r, t', e, k, ⟨pre, hp⟩, c⟩ := ih (cnt + 1) noComplete
            { s2 with cntStatic := cnt + 1 } r2 hs2
            (by show capFor ck ≤ capacity s2.recvBuf; rw [k2.recvBuf]; exact hcap)
            (fun h => by show s2.recvBuf = _; rw [k2.recvBuf]; exact hck h)
            (by rw [hc128] at hcnt ⊢; omega) (by show cnt + 1 < capFor ck; rw [hc128] at hcnt ⊢; omega)
          exact ⟨r, t', e, kept_trans _ _ _ k2 (kept_trans _ _ _ hkc k),
            ⟨b :: pre, by rw [hp]; rfl⟩, c⟩

theorem outside_of_kept (a b : NxtLcd) (h : Kept a b) : Outside a b :=
  ⟨h.tx, h.script, h.initialized, h.debug, h.recvBuf, h.dispType, h.sysProp, h.sendLen, h.evtLen⟩

theorem outside_trans (a b c : NxtLcd) (h1 : Outside a b) (h2 : Outside b c) : Outside a c :=
  ⟨h2.tx.trans h1.tx, h2.script.trans h1.script, h2.initialized.trans h1.initialized,
   h2.debug.trans h1.debug, h2.recvBuf.trans h1.recvBuf, h2.dispType.trans h1.dispType,
   h2.sysProp.trans h1.sysProp, h2.sendLen.trans h1.sendLen, h2.evtLen.trans h1.evtLen⟩

theorem ready_of_outside (a b : NxtLcd) (h : Outside a b) (hr : Ready a) : Ready b :=
  ⟨by rw [h.initialized]; exact hr.1, h.recvBuf.trans hr.2.1, h.sendLen.trans hr.2.2.1,
   h.evtLen.trans hr.2.2.2⟩

/-- Command-path `readBuf` always returns on a ready driver. -/
theorem readBuf_cmd_total (s : NxtLcd) (h : Ready s) :
    ∃ r s', readBuf 0 s = .ok (r, s') ∧ Kept s s' ∧ (∃ pre, s.rx = pre ++ s'.rx) ∧
      s'.cntStatic < NXT_BUF_SIZE := by
  have k0 : Kept s { s with sendBuf := List.replicate NXT_BUF_SIZE 0, cntStatic := 0 } :=
    ⟨rfl, rfl, rfl, rfl, rfl, rfl, rfl, rfl, rfl,
     by show (List.replicate NXT_BUF_SIZE 0).length = _; rw [List.length_replicate, h.2.2.1],
     rfl, fun e => (by rw [h.2.1] at e; cases e), fun _ => rfl⟩
  obtain ⟨r, t', e, k, hp, c⟩ := readLoop_total 0 s.rx 0 noReply
    { s with sendBuf := List.replicate NXT_BUF_SIZE 0, cntStatic := 0 } rfl
    (sized_of_kept _ _ k0 ⟨h.2.2.1, h.2.2.2⟩)
    (by show capFor 0 ≤ capacity s.recvBuf; rw [h.2.1]; decide) (fun _ => h.2.1)
    (by decide) (by show 0 < capFor 0; decide)
  exact ⟨r, t', by rw [readBuf_start s h]; exact e, kept_trans _ _ _ k0 k, hp, c⟩

/-- The event drain `readEvent()` on an empty line returns `noReply` and changes nothing. -/
theorem readEvent_quiet (s : NxtLcd) (h : Ready s) (hrx : s.rx = []) :
    readEvent none s = .ok (noReply, s) := by
  obtain ⟨hi, hr, _, _⟩ := h
  cases s
  simp only at hrx hr hi
  subst hrx hr
  unfold readEvent readBuf
  simp [hi, readLoop, noReply, replyTouchEv, replySleepEv, replySendMe]

theorem storeEvent_outside (s : NxtLcd) (b : BufId) (hs : Sized s) :
    Outside s (storeEvent s b) ∧ (storeEvent s b).sendBuf = s.sendBuf ∧
      (storeEvent s b).rx = s.rx ∧ (storeEvent s b).cntStatic = s.cntStatic ∧
      (storeEvent s b).haveEvent = 1 ∧
      (storeEvent s b).lastEvent = decodeEvent (s.bufOf b) :=
  ⟨⟨rfl, rfl, rfl, rfl, rfl, rfl, rfl, rfl, by
      show (List.replicate NXT_EV_BUF_SIZE 0 ++ s.evtBuf.drop NXT_EV_BUF_SIZE).length = _
      rw [List.length_append, List.length_replicate, List.length_drop, hs.2]
      omega⟩,
   rfl, rfl, rfl, rfl, rfl⟩

/-- The event drain `readEvent()` always returns when the line is empty or the position left
by the last read is inside `evtBuf`; it leaves `sendBuf` and everything `Outside` lists alone
and consumes a beginning of the line. -/
theorem readEvent_drain (s : NxtLcd) (h : Ready s) (hd : Drainable s) :
    ∃ r s1, readEvent none s = .ok (r, s1) ∧ Ready s1 ∧ Outside s s1 ∧
      s1.sendBuf = s.sendBuf ∧ (∃ pre, s.rx = pre ++ s1.rx) ∧ Drainable s1 := by
  have o0 : Outside s s := outside_of_kept _ _ (kept_refl s)
  rcases hd with hrx | hc
  · exact ⟨noReply, s, readEvent_quiet s h hrx, h, o0, rfl, ⟨[], by rw [hrx]; rfl⟩, Or.inl hrx⟩
  · obtain ⟨r, t', e, k, hp, c⟩ := readLoop_total 1 s.rx s.cntStatic noReply
      { s with recvBuf := BufId.evtBuf } rfl ⟨h.2.2.1, h.2.2.2⟩
      (by show capFor 1 ≤ capacity BufId.evtBuf; decide) (fun h1 => absurd h1 (by decide))
      hc hc
    have c10 : t'.cntStatic < NXT_EV_BUF_SIZE := c
    have hst : Sized t' := sized_of_kept _ _ k ⟨h.2.2.1, h.2.2.2⟩
    have hrb : readBuf 1 { s with recvBuf := BufId.evtBuf } = .ok (r, t') := by
      unfold readBuf
      rw [if_neg (show ¬ s.initialized = 0 from h.1), if_pos (by decide)]
      exact e
    unfold readEvent
    rw [if_neg h.1]
    simp only [hrb]
    by_cases hev : r = replyTouchEv ∨ r = replySleepEv ∨ r = replySendMe
    · rw [if_pos hev]
      obtain ⟨o, sb, srx, sc, _, _⟩ := storeEvent_outside t' BufId.evtBuf hst
      refine ⟨_, _, rfl, ⟨?_, rfl, ?_, ?_⟩, ⟨?_, ?_, ?_, ?_, h.2.1.symm, ?_, ?_, ?_, ?_⟩, ?_, ?_,
        Or.inr ?_⟩
      · show (storeEvent t' BufId.evtBuf).initialized ≠ 0
        rw [o.initialized, k.initialized]; exact h.1
      · show (storeEvent t' BufId.evtBuf).sendBuf.length = _
        rw [o.sendLen, k.sendLen]; exact h.2.2.1
      · show (storeEvent t' BufId.evtBuf).evtBuf.length = _
        rw [o.evtLen, k.evtLen]; exact h.2.2.2
      · show (storeEvent t' BufId.evtBuf).tx = _
        rw [o.tx, k.tx]
      · show (storeEvent t' BufId.evtBuf).script = _
        rw [o.script, k.script]
      · show (storeEvent t' BufId.evtBuf).initialized = _
        rw [o.initialized, k.initialized]
      · show (storeEvent t' BufId.evtBuf).debug = _
        rw [o.debug, k.debug]
      · show (storeEvent t' BufId.evtBuf).dispType = _
        rw [o.dispType, k.dispType]
      · show (storeEvent t' BufId.evtBuf).sysProp = _
        rw [o.sysProp, k.sysProp]
      · show (storeEvent t' BufId.evtBuf).sendBuf.length = _
        rw [o.sendLen, k.sendLen]
      · show (storeEvent t' BufId.evtBuf).evtBuf.length = _
        rw [o.evtLen, k.evtLen]
      · show (storeEvent t' BufId.evtBuf).sendBuf = _
        rw [sb, k.sendSame rfl]
      · show ∃ pre, s.rx = pre ++ (storeEvent t' BufId.evtBuf).rx
        rw [srx]; exact hp
      · show (storeEvent t' BufId.evtBuf).cntStatic < _
        rw [sc]; exact c10
    · rw [if_neg hev]
      refine ⟨_, _, rfl, ⟨?_, rfl, ?_, ?_⟩, ⟨?_, ?_, ?_, ?_, h.2.1.symm, ?_, ?_, ?_, ?_⟩, ?_, hp,
        Or.inr c10⟩
      · show t'.initialized ≠ 0
        rw [k.initialized]; exact h.1
      · show t'.sendBuf.length = _
        rw [k.sendLen]; exact h.2.2.1
      · show t'.evtBuf.length = _
        rw [k.evtLen]; exact h.2.2.2
      · exact k.tx
      · exact k.script
      · exact k.initialized
      · exact k.debug
      · exact k.dispType
      · exact k.sysProp
      · exact k.sendLen
      · exact k.evtLen
      · exact k.sendSame rfl

/-- The reply phase of `writeBuf` always returns on a ready driver, and it returns the
comparison of `expReply` with the result of a read. -/
theorem awaitReply_total (e : Nat) (s : NxtLcd) (h : Ready s) :
    ∃ r s', awaitReply e s = .ok (r, s') ∧ Ready s' ∧ Outside s s' := by
  obtain ⟨res, s1, e1, k1, _, _⟩ := readBuf_cmd_total s h
  have o1 := outside_of_kept _ _ k1
  have h1 := ready_of_outside _ _ o1 h
  unfold awaitReply
  simp only [e1]
  by_cases hev : res = replyTouchEv ∨ res = replySleepEv ∨ res = replySendMe
  · rw [if_pos hev]
    obtain ⟨o2, _, _, _, _, _⟩ := storeEvent_outside s1 s1.recvBuf ⟨h1.2.2.1, h1.2.2.2⟩
    have h2 := ready_of_outside _ _ o2 h1
    obtain ⟨res3, s3, e3, k3, _, _⟩ := readBuf_cmd_total _ h2
    have o3 := outside_of_kept _ _ k3
    unfold readEvent
    rw [if_neg h1.1]
    simp only [e3]
    exact ⟨_, _, rfl, ready_of_outside _ _ o3 h2, outside_trans _ _ _ o1 (outside_trans _ _ _ o2 o3)⟩
  · rw [if_neg hev]
    exact ⟨_, _, rfl, h1, o1⟩

theorem serialWrite_fields (s : NxtLcd) (bytes : List Nat) :
    (serialWrite s bytes).2.tx = s.tx ++ bytes ∧
    (serialWrite s bytes).2.rx = s.rx ++ s.script.headD [] ∧
    (serialWrite s bytes).2.script = s.script.tail ∧
    (serialWrite s bytes).2.elapsed = s.elapsed ∧
    (serialWrite s bytes).2.sendBuf = s.sendBuf ∧
    (serialWrite s bytes).2.evtBuf = s.evtBuf ∧
    (serialWrite s bytes).2.initialized = s.initialized ∧
    (serialWrite s bytes).2.debug = s.debug ∧
    (serialWrite s bytes).2.recvBuf = s.recvBuf ∧
    (serialWrite s bytes).2.sysProp = s.sysProp ∧
    (serialWrite s bytes).2.haveEvent = s.haveEvent ∧
    (serialWrite s bytes).2.lastEvent = s.lastEvent := by
  unfold serialWrite
  cases hs : s.script <;> simp

/-- The send phase of `writeBuf` (no explicit size) on a ready driver whose `sendBuf` holds a
non-empty C string of `n` bytes: after the event drain the `n` bytes are written; then
either the reply is awaited after the settle delay, or `replyCmdOk` is returned at once. -/
theorem writeBuf_cmd (e w n : Nat) (s : NxtLcd) (h : Ready s) (hd : Drainable s)
    (hn : strlen BufId.sendBuf s.sendBuf = .ok n) (hpos : 0 < n) :
    ∃ r0 s1, readEvent none s = .ok (r0, s1) ∧ Ready s1 ∧ Outside s s1 ∧
      s1.sendBuf = s.sendBuf ∧ (∃ pre, s.rx = pre ++ s1.rx) ∧
      writeBuf e w 0 s =
        (if e > 0 ∨ s.debug > 0 then
           awaitReply e ((serialWrite s1 (s.sendBuf.take n)).2.delay w)
         else .ok (replyCmdOk, (serialWrite s1 (s.sendBuf.take n)).2)) := by
  obtain ⟨r0, s1, e1, h1, o1, sb, hp, _⟩ := readEvent_drain s h hd
  refine ⟨r0, s1, e1, h1, o1, sb, hp, ?_⟩
  unfold writeBuf
  rw [if_neg h.1]
  simp only [e1]
  rw [if_pos trivial, sb]
  simp only [hn]
  rw [if_pos hpos]
  have hdb : (serialWrite s1 (s.sendBuf.take n)).2.debug = s.debug := by
    rw [(serialWrite_fields s1 _).2.2.2.2.2.2.2.1, o1.debug]
  rw [hdb]

/-- The state handed to the reply phase is ready. -/
theorem ready_sent (s1 : NxtLcd) (bytes : List Nat) (w : Nat) (h : Ready s1) :
    Ready ((serialWrite s1 bytes).2.delay w) := by
  obtain ⟨_, _, _, _, f5, f6, f7, _, f9, _⟩ := serialWrite_fields s1 bytes
  exact ⟨by show (serialWrite s1 bytes).2.initialized ≠ 0; rw [f7]; exact h.1,
    by show (serialWrite s1 bytes).2.recvBuf = _; rw [f9]; exact h.2.1,
    by show (serialWrite s1 bytes).2.sendBuf.length = _; rw [f5]; exact h.2.2.1,
    by show (serialWrite s1 bytes).2.evtBuf.length = _; rw [f6]; exact h.2.2.2⟩

/-! ## The command encoder -/

theorem bufReset_ready (s : NxtLcd) (h : Ready s) :
    bufReset s BufId.sendBuf = .ok { s with sendBuf := List.replicate NXT_BUF_SIZE 0 } := by
  unfold bufReset memsetZero
  rw [if_pos (by decide)]
  show Except.ok { s with sendBuf := List.replicate NXT_BUF_SIZE 0 ++ s.sendBuf.drop NXT_BUF_SIZE } = _
  rw [List.drop_of_length_le (le_of_eq h.2.2.1), List.append_nil]

/-- A rendering shorter than the buffer is stored whole, with zeros behind it. -/
theorem snprintf_fits (r : List Nat) (hr : r.length < NXT_BUF_SIZE) :
    snprintf (List.replicate NXT_BUF_SIZE 0) NXT_BUF_SIZE r = padded r := by
  have h128 : NXT_BUF_SIZE = 128 := rfl
  unfold snprintf padded
  rw [if_neg (by decide), List.take_of_length_le (by omega), List.append_assoc]
  congr 1
  rw [List.drop_replicate, List.singleton_append, ← List.replicate_succ]
  congr 1
  omega

theorem takeWhile_append_zero (c rest : List Nat) (hc : ∀ b ∈ c, b ≠ 0) :
    (c ++ 0 :: rest).takeWhile (fun x => x ≠ 0) = c := by
  induction c with
  | nil => simp
  | cons a t ih =>
    have ha : a ≠ 0 := hc a (List.mem_cons_self _ _)
    rw [List.cons_append, List.takeWhile_cons]
    simp only [ne_eq, ha, not_false_eq_true, decide_True, if_true]
    rw [ih (fun b hb => hc b (List.mem_cons_of_mem _ hb))]

/-- The C string stored by a rendering without NUL byte that fits the buffer. -/
theorem strlen_padded (c : List Nat) (hc : ∀ b ∈ c, b ≠ 0) (hl : c.length < NXT_BUF_SIZE) :
    strlen BufId.sendBuf (padded c) = .ok c.length ∧ (padded c).take c.length = c := by
  have h128 : NXT_BUF_SIZE = 128 := rfl
  have e : padded c = c ++ 0 :: List.replicate (NXT_BUF_SIZE - c.length - 1) 0 := by
    unfold padded
    rw [← List.replicate_succ]
    congr 2
    omega
  refine ⟨?_, ?_⟩
  · unfold strlen
    rw [e, takeWhile_append_zero c _ hc, if_pos (by simp)]
  · rw [e, List.take_left]

/-- The shared tail of the `set*` methods on a ready driver, for a rendering that fits:
the rendering is stored in `sendBuf` and `writeBuf` runs on it. -/
theorem sendCommand_fits (r : List Nat) (e w : Nat) (s : NxtLcd) (h : Ready s)
    (hr : r.length < NXT_BUF_SIZE) :
    sendCommand r e w s = writeBuf e w 0 { s with sendBuf := padded r } := by
  unfold sendCommand
  rw [bufReset_ready s h]
  show writeBuf e w 0 { s with sendBuf := snprintf (List.replicate NXT_BUF_SIZE 0) NXT_BUF_SIZE r } = _
  rw [snprintf_fits r hr]

/-! ## Decimal rendering -/

theorem digitChar_range (m : Nat) (hm : m < 10) :
    48 ≤ (Nat.digitChar m).toNat ∧ (Nat.digitChar m).toNat ≤ 57 := by
  interval_cases m <;> decide

theorem toDigitsCore_range (fuel : Nat) :
    ∀ (n : Nat) (ds : List Char), (∀ c ∈ ds, 48 ≤ c.toNat ∧ c.toNat ≤ 57) →
      ∀ c ∈ Nat.toDigitsCore 10 fuel n ds, 48 ≤ c.toNat ∧ c.toNat ≤ 57 := by
  induction fuel with
  | zero => intro n ds h; exact h
  | succ k ih =>
    intro n ds h
    have hd : ∀ c ∈ Nat.digitChar (n % 10) :: ds, 48 ≤ c.toNat ∧ c.toNat ≤ 57 := by
      intro c hc
      rcases List.mem_cons.mp hc with e | e
      · rw [e]; exact digitChar_range _ (Nat.mod_lt _ (by decide))
      · exact h c e
    unfold Nat.toDigitsCore
    by_cases h0 : n / 10 = 0
    · simp only [h0, if_true]; exact hd
    · simp only [h0, if_false]; exact ih _ _ hd

/-- Every byte of a decimal rendering is an ASCII digit. -/
theorem dec_range (n : Nat) : ∀ b ∈ dec n, 48 ≤ b ∧ b ≤ 57 := by
  intro b hb
  unfold dec at hb
  obtain ⟨c, hc, rfl⟩ := List.mem_map.mp hb
  exact toDigitsCore_range _ _ _ (fun _ h => absurd h (List.not_mem_nil _)) c hc

/-- A number below `10 ^ e` renders in at most `e` digits. -/
theorem dec_length (n e : Nat) (he : 0 < e) (hn : n < 10 ^ e) : (dec n).length ≤ e := by
  unfold dec
  rw [List.length_map]
  exact Nat.toDigitsCore_length 10 (by decide) (n + 1) n e hn he

/-- Every code the switch of `readBuf` can answer is in `readResults`. -/
theorem classify_code_mem (X : NxtLcd) (cnt : Nat) : (classify X cnt).1 ∈ readResults := by
  unfold classify
  by_cases h0 : X.recvAt 0 = cmdFail
  · rw [if_pos h0]
    try dsimp only
    repeat' split
    all_goals first | decide | (dsimp only; decide)
  rw [if_neg h0]
  by_cases h1 : X.recvAt 0 = cmdOk
  · rw [if_pos h1]
    try dsimp only
    repeat' split
    all_goals first | decide | (dsimp only; decide)
  rw [if_neg h1]
  by_cases h2 : X.recvAt 0 = cmdDevReady
  · rw [if_pos h2]
    try dsimp only
    repeat' split
    all_goals first | decide | (dsimp only; decide)
  rw [if_neg h2]
  by_cases h3 : X.recvAt 0 = cmdInvalidCid ∨ X.recvAt 0 = cmdInvalidPage ∨
      X.recvAt 0 = cmdInvPicId ∨ X.recvAt 0 = cmdInvFontId
  · rw [if_pos h3]
    try dsimp only
    repeat' split
    all_goals first | decide | (dsimp only; decide)
  rw [if_neg h3]
  by_cases h4 : X.recvAt 0 = cmdInvVar
  · rw [if_pos h4]
    try dsimp only
    repeat' split
    all_goals first | decide | (dsimp only; decide)
  rw [if_neg h4]
  by_cases h5 : X.recvAt 0 = cmdBufOvfl
  · rw [if_pos h5]
    try dsimp only
    repeat' split
    all_goals first | decide | (dsimp only; decide)
  rw [if_neg h5]
  by_cases h6 : X.recvAt 0 = cmdTouchCompEv
  · rw [if_pos h6]
    try dsimp only
    repeat' split
    all_goals first | decide | (dsimp only; decide)
  rw [if_neg h6]
  by_cases h7 : X.recvAt 0 = cmdTouchXYaw
  · rw [if_pos h7]
    try dsimp only
    repeat' split
    all_goals first | decide | (dsimp only; decide)
  rw [if_neg h7]
  by_cases h8 : X.recvAt 0 = cmdTouchXYsl
  · rw [if_pos h8]
    try dsimp only
    repeat' split
    all_goals first | decide | (dsimp only; decide)
  rw [if_neg h8]
  by_cases h9 : X.recvAt 0 = cmdSleepOn ∨ X.recvAt 0 = cmdSleepOff
  · rw [if_pos h9]
    try dsimp only
    repeat' split
    all_goals first | decide | (dsimp only; decide)
  rw [if_neg h9]
  by_cases h10 : X.recvAt 0 = cmdGetStr
  · rw [if_pos h10]
    try dsimp only
    repeat' split
    all_goals first | decide | (dsimp only; decide)
  rw [if_neg h10]
  by_cases h11 : X.recvAt 0 = cmdGetNum
  · rw [if_pos h11]
    try dsimp only
    repeat' split
    all_goals first | decide | (dsimp only; decide)
  rw [if_neg h11]
  by_cases h12 : X.recvAt 0 = cmdSendme
  · rw [if_pos h12]
    try dsimp only
    repeat' split
    all_goals first | decide | (dsimp only; decide)
  rw [if_neg h12]
  by_cases h13 : X.recvAt 0 = cmdTDEnd
  · rw [if_pos h13]
    try dsimp only
    repeat' split
    all_goals first | decide | (dsimp only; decide)
  rw [if_neg h13]
  by_cases h14 : X.recvAt 0 = cmdTDReady
  · rw [if_pos h14]
    try dsimp only
    repeat' split
    all_goals first | decide | (dsimp only; decide)
  rw [if_neg h14]
  dsimp only
  decide

/-- An event code comes from an event opcode. -/
theorem classify_event_opcode (X : NxtLcd) (cnt : Nat)
    (hev : (classify X cnt).1 = replyTouchEv ∨ (classify X cnt).1 = replySleepEv ∨
      (classify X cnt).1 = replySendMe) :
    X.recvAt 0 ∈ [cmdTouchCompEv, cmdSendme, cmdTouchXYaw, cmdTouchXYsl, cmdSleepOn, cmdSleepOff] := by
  revert hev
  unfold classify
  by_cases h0 : X.recvAt 0 = cmdFail
  · rw [if_pos h0]
    try dsimp only
    intro hev
    exfalso
    revert hev
    repeat' split
    all_goals first | decide | (dsimp only; decide)
  rw [if_neg h0]
  by_cases h1 : X.recvAt 0 = cmdOk
  · rw [if_pos h1]
    try dsimp only
    intro hev
    exfalso
    revert hev
    repeat' split
    all_goals first | decide | (dsimp only; decide)
  rw [if_neg h1]
  by_cases h2 : X.recvAt 0 = cmdDevReady
  · rw [if_pos h2]
    try dsimp only
    intro hev
    exfalso
    revert hev
    repeat' split
    all_goals first | decide | (dsimp only; decide)
  rw [if_neg h2]
  by_cases h3 : X.recvAt 0 = cmdInvalidCid ∨ X.recvAt 0 = cmdInvalidPage ∨
      X.recvAt 0 = cmdInvPicId ∨ X.recvAt 0 = cmdInvFontId
  · rw [if_pos h3]
    try dsimp only
    intro hev
    exfalso
    revert hev
    repeat' split
    all_goals first | decide | (dsimp only; decide)
  rw [if_neg h3]
  by_cases h4 : X.recvAt 0 = cmdInvVar
  · rw [if_pos h4]
    try dsimp only
    intro hev
    exfalso
    revert hev
    repeat' split
    all_goals first | decide | (dsimp only; decide)
  rw [if_neg h4]
  by_cases h5 : X.recvAt 0 = cmdBufOvfl
  · rw [if_pos h5]
    try dsimp only
    intro hev
    exfalso
    revert hev
    repeat' split
    all_goals first | decide | (dsimp only; decide)
  rw [if_neg h5]
  by_cases h6 : X.recvAt 0 = cmdTouchCompEv
  · rw [if_pos h6]
    intro _
    rw [h6]; decide
  rw [if_neg h6]
  by_cases h7 : X.recvAt 0 = cmdTouchXYaw
  · rw [if_pos h7]
    intro _
    rw [h7]; decide
  rw [if_neg h7]
  by_cases h8 : X.recvAt 0 = cmdTouchXYsl
  · rw [if_pos h8]
    intro _
    rw [h8]; decide
  rw [if_neg h8]
  by_cases h9 : X.recvAt 0 = cmdSleepOn ∨ X.recvAt 0 = cmdSleepOff
  · rw [if_pos h9]
    intro _
    rcases h9 with e | e <;> (rw [e]; decide)
  rw [if_neg h9]
  by_cases h10 : X.recvAt 0 = cmdGetStr
  · rw [if_pos h10]
    try dsimp only
    intro hev
    exfalso
    revert hev
    repeat' split
    all_goals first | decide | (dsimp only; decide)
  rw [if_neg h10]
  by_cases h11 : X.recvAt 0 = cmdGetNum
  · rw [if_pos h11]
    try dsimp only
    intro hev
    exfalso
    revert hev
    repeat' split
    all_goals first | decide | (dsimp only; decide)
  rw [if_neg h11]
  by_cases h12 : X.recvAt 0 = cmdSendme
  · rw [if_pos h12]
    intro _
    rw [h12]; decide
  rw [if_neg h12]
  by_cases h13 : X.recvAt 0 = cmdTDEnd
  · rw [if_pos h13]
    try dsimp only
    intro hev
    exfalso
    revert hev
    repeat' split
    all_goals first | decide | (dsimp only; decide)
  rw [if_neg h13]
  by_cases h14 : X.recvAt 0 = cmdTDReady
  · rw [if_pos h14]
    try dsimp only
    intro hev
    exfalso
    revert hev
    repeat' split
    all_goals first | decide | (dsimp only; decide)
  rw [if_neg h14]
  intro hev
  dsimp only at hev
  rcases hev with e | e | e <;> exact absurd e (by decide)

/-- The code of the switch depends only on the first three stored bytes and the position. -/
theorem classify_code_congr (X Y : NxtLcd) (cnt : Nat) (e0 : X.recvAt 0 = Y.recvAt 0)
    (e1 : X.recvAt 1 = Y.recvAt 1) (e2 : X.recvAt 2 = Y.recvAt 2) :
    (classify X cnt).1 = (classify Y cnt).1 := by
  unfold classify
  rw [← e0, ← e1, ← e2]
  by_cases h0 : X.recvAt 0 = cmdFail
  · rw [if_pos h0]
    try rw [if_pos h0]
    try rfl
    try any_goals (repeat' split)
    try any_goals first | rfl | contradiction
  rw [if_neg h0, if_neg h0]
  by_cases h1 : X.recvAt 0 = cmdOk
  · rw [if_pos h1]
    try rw [if_pos h1]
    try rfl
    try any_goals (repeat' split)
    try any_goals first | rfl | contradiction
  rw [if_neg h1, if_neg h1]
  by_cases h2 : X.recvAt 0 = cmdDevReady
  · rw [if_pos h2]
    try rw [if_pos h2]
    try rfl
    try any_goals (repeat' split)
    try any_goals first | rfl | contradiction
  rw [if_neg h2, if_neg h2]
  by_cases h3 : X.recvAt 0 = cmdInvalidCid ∨ X.recvAt 0 = cmdInvalidPage ∨
      X.recvAt 0 = cmdInvPicId ∨ X.recvAt 0 = cmdInvFontId
  · rw [if_pos h3]
    try rw [if_pos h3]
    try rfl
    try any_goals (repeat' split)
    try any_goals first | rfl | contradiction
  rw [if_neg h3, if_neg h3]
  by_cases h4 : X.recvAt 0 = cmdInvVar
  · rw [if_pos h4]
    try rw [if_pos h4]
    try rfl
    try any_goals (repeat' split)
    try any_goals first | rfl | contradiction
  rw [if_neg h4, if_neg h4]
  by_cases h5 : X.recvAt 0 = cmdBufOvfl
  · rw [if_pos h5]
    try rw [if_pos h5]
    try rfl
    try any_goals (repeat' split)
    try any_goals first | rfl | contradiction
  rw [if_neg h5, if_neg h5]
  by_cases h6 : X.recvAt 0 = cmdTouchCompEv
  · rw [if_pos h6]
    try rw [if_pos h6]
    try rfl
    try any_goals (repeat' split)
    try any_goals first | rfl | contradiction
  rw [if_neg h6, if_neg h6]
  by_cases h7 : X.recvAt 0 = cmdTouchXYaw
  · rw [if_pos h7]
    try rw [if_pos h7]
    try rfl
    try any_goals (repeat' split)
    try any_goals first | rfl | contradiction
  rw [if_neg h7, if_neg h7]
  by_cases h8 : X.recvAt 0 = cmdTouchXYsl
  · rw [if_pos h8]
    try rw [if_pos h8]
    try rfl
    try any_goals (repeat' split)
    try any_goals first | rfl | contradiction
  rw [if_neg h8, if_neg h8]
  by_cases h9 : X.recvAt 0 = cmdSleepOn ∨ X.recvAt 0 = cmdSleepOff
  · rw [if_pos h9]
    try rw [if_pos h9]
    try rfl
    try any_goals (repeat' split)
    try any_goals first | rfl | contradiction
  rw [if_neg h9, if_neg h9]
  by_cases h10 : X.recvAt 0 = cmdGetStr
  · rw [if_pos h10]
    try rw [if_pos h10]
    try rfl
    try any_goals (repeat' split)
    try any_goals first | rfl | contradiction
  rw [if_neg h10, if_neg h10]
  by_cases h11 : X.recvAt 0 = cmdGetNum
  · rw [if_pos h11]
    try rw [if_pos h11]
    try rfl
    try any_goals (repeat' split)
    try any_goals first | rfl | contradiction
  rw [if_neg h11, if_neg h11]
  by_cases h12 : X.recvAt 0 = cmdSendme
  · rw [if_pos h12]
    try rw [if_pos h12]
    try rfl
    try any_goals (repeat' split)
    try any_goals first | rfl | contradiction
  rw [if_neg h12, if_neg h12]
  by_cases h13 : X.recvAt 0 = cmdTDEnd
  · rw [if_pos h13]
    try rw [if_pos h13]
    try rfl
    try any_goals (repeat' split)
    try any_goals first | rfl | contradiction
  rw [if_neg h13, if_neg h13]
  by_cases h14 : X.recvAt 0 = cmdTDReady
  · rw [if_pos h14]
    try rw [if_pos h14]
    try rfl
    try any_goals (repeat' split)
    try any_goals first | rfl | contradiction
  rw [if_neg h14, if_neg h14]

/-- Whatever the loop of `readBuf` returns is its initial `ret` or a member of
`readResults`. -/
theorem readLoop_result (ck : Nat) (l : List Nat) :
    ∀ (cnt ret r : Nat) (t t' : NxtLcd), readLoop ck l cnt ret t = .ok (r, t') →
      r = ret ∨ r ∈ readResults := by
  induction l with
  | nil =>
    intro cnt ret r t t' h
    rw [readLoop] at h
    injection h with h
    exact Or.inl (congrArg Prod.fst h).symm
  | cons b rest ih =>
    intro cnt ret r t t' h
    rw [readLoop] at h
    cases hs : recvStore { t with rx := rest } cnt b with
    | error e => rw [hs] at h; cases h
    | ok s1 =>
      rw [hs] at h
      dsimp only at h
      generalize (if cnt = 0 then { s1 with expLen := expLenOf (s1.recvAt 0) } else s1) = s2 at h
      have hnc : noComplete ∈ readResults := by decide
      have hov : bufOvfl ∈ readResults := by decide
      split at h
      · injection h with h
        have e : r = (classify s2 cnt).1 := (congrArg Prod.fst h).symm
        rw [e]
        exact Or.inr (classify_code_mem s2 cnt)
      · split at h
        · split at h
          · split at h
            · cases h
            · injection h with h
              have e : r = bufOvfl := (congrArg Prod.fst h).symm
              rw [e]
              exact Or.inr hov
          · rcases ih _ _ _ _ _ h with e | e
            · rw [e]; exact Or.inr hnc
            · exact Or.inr e
        · split at h
          · split at h
            · cases h
            · injection h with h
              have e : r = bufOvfl := (congrArg Prod.fst h).symm
              rw [e]
              exact Or.inr hov
          · rcases ih _ _ _ _ _ h with e | e
            · rw [e]; exact Or.inr hnc
            · exact Or.inr e

/-- Command-path `readBuf` on an initialised driver returns a member of `readResults`. -/
theorem readBuf_result (s s' : NxtLcd) (r : Nat) (hi : s.initialized ≠ 0)
    (h : readBuf 0 s = .ok (r, s')) : r ∈ readResults := by
  unfold readBuf at h
  rw [if_neg hi, if_neg (by decide)] at h
  cases hb : bufReset s s.recvBuf with
  | error e => rw [hb] at h; cases h
  | ok s1 =>
    rw [hb] at h
    rcases readLoop_result _ _ _ _ _ _ _ h with e | e
    · rw [e]; decide
    · exact e

/-! ## `writeBuf` without an expected code -/

/-- C11: `writeBuf` with `expReply = 0` in debug mode, on a ready driver whose `sendBuf`
holds a non-empty command: the drain, the write and the read of the reply all return, and the
value returned is `replyCmdOk` when the read whose result is compared yields `noReply` or
`replyCmdOk`, and that result unchanged otherwise.  The read compared is the first one unless
it intercepted an event, in which case it is the read that follows the hand-over of the
event. -/
theorem writeBuf_no_expected_code (w n : Nat) (s : NxtLcd) (h : Ready s) (hd : Drainable s)
    (hdbg : 0 < s.debug) (hn : strlen BufId.sendBuf s.sendBuf = .ok n) (hpos : 0 < n) :
    ∃ r0 s1 res s3, readEvent none s = .ok (r0, s1) ∧
      readBuf 0 ((serialWrite s1 (s.sendBuf.take n)).2.delay w) = .ok (res, s3) ∧
      (¬ (res = replyTouchEv ∨ res = replySleepEv ∨ res = replySendMe) →
        writeBuf 0 w 0 s =
          .ok (if res = noReply ∨ res = replyCmdOk then replyCmdOk else res, s3)) ∧
      ((res = replyTouchEv ∨ res = replySleepEv ∨ res = replySendMe) →
        ∃ res2 s5, readBuf 0 (storeEvent s3 s3.recvBuf) = .ok (res2, s5) ∧
          writeBuf 0 w 0 s =
            .ok (if res2 = noReply ∨ res2 = replyCmdOk then replyCmdOk else res2, s5)) := by
  obtain ⟨r0, s1, e1, h1, _, _, _, ew⟩ := writeBuf_cmd 0 w n s h hd hn hpos
  rw [if_pos (Or.inr hdbg)] at ew
  have h2 := ready_sent s1 (s.sendBuf.take n) w h1
  obtain ⟨res, s3, e3, k3, _, _⟩ := readBuf_cmd_total _ h2
  have h3 := ready_of_outside _ _ (outside_of_kept _ _ k3) h2
  refine ⟨r0, s1, res, s3, e1, e3, ?_, ?_⟩
  · intro hev
    rw [ew]
    unfold awaitReply
    simp only [e3]
    rw [if_neg hev]
    rfl
  · intro hev
    obtain ⟨o4, _, _, _, _, _⟩ := storeEvent_outside s3 s3.recvBuf ⟨h3.2.2.1, h3.2.2.2⟩
    obtain ⟨res2, s5, e5, _, _, _⟩ := readBuf_cmd_total _ (ready_of_outside _ _ o4 h3)
    refine ⟨res2, s5, e5, ?_⟩
    rw [ew]
    unfold awaitReply
    simp only [e3]
    rw [if_pos hev]
    unfold readEvent
    rw [if_neg h3.1]
    simp only [e5]
    rfl

/-- Instance of C11: the debug-mode driver sends `get n0.val`, the display answers
`1A FF FF FF`. -/
theorem writeBuf_no_expected_code_witness :
    Ready { asking [0x1A, 0xFF, 0xFF, 0xFF] with debug := 1 } ∧
    Drainable { asking [0x1A, 0xFF, 0xFF, 0xFF] with debug := 1 } ∧
    0 < ({ asking [0x1A, 0xFF, 0xFF, 0xFF] with debug := 1 } : NxtLcd).debug ∧
    strlen BufId.sendBuf ({ asking [0x1A, 0xFF, 0xFF, 0xFF] with debug := 1 } : NxtLcd).sendBuf
      = .ok 13 ∧
    0 < 13 ∧
    ∃ r0 s1 res s3, readEvent none { asking [0x1A, 0xFF, 0xFF, 0xFF] with debug := 1 }
        = .ok (r0, s1) ∧
      readBuf 0 ((serialWrite s1 (({ asking [0x1A, 0xFF, 0xFF, 0xFF] with debug := 1 }
        : NxtLcd).sendBuf.take 13)).2.delay NXT_REPLY_WAIT) = .ok (res, s3) ∧
      (¬ (res = replyTouchEv ∨ res = replySleepEv ∨ res = replySendMe) →
        writeBuf 0 NXT_REPLY_WAIT 0 { asking [0x1A, 0xFF, 0xFF, 0xFF] with debug := 1 } =
          .ok (if res = noReply ∨ res = replyCmdOk then replyCmdOk else res, s3)) ∧
      ((res = replyTouchEv ∨ res = replySleepEv ∨ res = replySendMe) →
        ∃ res2 s5, readBuf 0 (storeEvent s3 s3.recvBuf) = .ok (res2, s5) ∧
          writeBuf 0 NXT_REPLY_WAIT 0 { asking [0x1A, 0xFF, 0xFF, 0xFF] with debug := 1 } =
            .ok (if res2 = noReply ∨ res2 = replyCmdOk then replyCmdOk else res2, s5)) :=
  ⟨by decide, by decide, by decide, by decide, by decide,
   writeBuf_no_expected_code NXT_REPLY_WAIT 13
     { asking [0x1A, 0xFF, 0xFF, 0xFF] with debug := 1 }
     (by decide) (by decide) (by decide) (by decide) (by decide)⟩

/-- C12: fire-and-forget.  With `debug = 0` and `expReply = 0`, on a ready driver whose
`sendBuf` holds a non-empty command of `n = strlen(sendBuf)` bytes, `writeBuf` returns
`replyCmdOk`; exactly those `n` bytes were appended to the sent bytes; after the write no
delay is made and nothing is read: the clock is where the event drain left it, and the line
holds what the drain left plus the whole answer of the display; `sendBuf` is unchanged.  When
nothing was pending on the line, the drain itself changes nothing. -/
theorem writeBuf_fire_and_forget (w n : Nat) (s : NxtLcd) (h : Ready s) (hd : Drainable s)
    (hdbg : s.debug = 0) (hn : strlen BufId.sendBuf s.sendBuf = .ok n) (hpos : 0 < n) :
    ∃ r0 s1 s', readEvent none s = .ok (r0, s1) ∧
      writeBuf 0 w 0 s = .ok (replyCmdOk, s') ∧
      s'.tx = s.tx ++ s.sendBuf.take n ∧
      s'.elapsed = s1.elapsed ∧
      s'.rx = s1.rx ++ s.script.headD [] ∧
      s'.script = s.script.tail ∧
      s'.sendBuf = s.sendBuf ∧
      (s.rx = [] → s1 = s) := by
  obtain ⟨r0, s1, e1, _, o1, sb, _, ew⟩ := writeBuf_cmd 0 w n s h hd hn hpos
  rw [if_neg (by rw [hdbg]; decide)] at ew
  obtain ⟨f1, f2, f3, f4, f5, _⟩ := serialWrite_fields s1 (s.sendBuf.take n)
  refine ⟨r0, s1, _, e1, ew, ?_, f4, ?_, ?_, ?_, ?_⟩
  · rw [f1, o1.tx]
  · rw [f2, o1.script]
  · rw [f3, o1.script]
  · rw [f5, sb]
  · intro hrx
    have := readEvent_quiet s h hrx
    rw [e1] at this
    injection this with this
    exact (congrArg Prod.snd this)

/-- Instance of C12: the driver sends `get n0.val` with debug off; the error frame
`1A FF FF FF` the display answers with stays on the line. -/
theorem writeBuf_fire_and_forget_witness :
    Ready (asking [0x1A, 0xFF, 0xFF, 0xFF]) ∧ Drainable (asking [0x1A, 0xFF, 0xFF, 0xFF]) ∧
    (asking [0x1A, 0xFF, 0xFF, 0xFF]).debug = 0 ∧
    strlen BufId.sendBuf (asking [0x1A, 0xFF, 0xFF, 0xFF]).sendBuf = .ok 13 ∧ 0 < 13 ∧
    ∃ r0 s1 s', readEvent none (asking [0x1A, 0xFF, 0xFF, 0xFF]) = .ok (r0, s1) ∧
      writeBuf 0 NXT_REPLY_WAIT 0 (asking [0x1A, 0xFF, 0xFF, 0xFF]) = .ok (replyCmdOk, s') ∧
      s'.tx = (asking [0x1A, 0xFF, 0xFF, 0xFF]).tx ++
        (asking [0x1A, 0xFF, 0xFF, 0xFF]).sendBuf.take 13 ∧
      s'.elapsed = s1.elapsed ∧
      s'.rx = s1.rx ++ (asking [0x1A, 0xFF, 0xFF, 0xFF]).script.headD [] ∧
      s'.script = (asking [0x1A, 0xFF, 0xFF, 0xFF]).script.tail ∧
      s'.sendBuf = (asking [0x1A, 0xFF, 0xFF, 0xFF]).sendBuf ∧
      ((asking [0x1A, 0xFF, 0xFF, 0xFF]).rx = [] → s1 = asking [0x1A, 0xFF, 0xFF, 0xFF]) :=
  ⟨by decide, by decide, by decide, by decide, by decide,
   writeBuf_fire_and_forget NXT_REPLY_WAIT 13 (asking [0x1A, 0xFF, 0xFF, 0xFF])
     (by decide) (by decide) (by decide) (by decide) (by decide)⟩

/-! ## Replies that arrive as complete frames -/

/-- Command-path `readBuf` on a line that starts with a complete frame returns the code of
that frame, consumes exactly the frame and leaves it in the buffer. -/
theorem readBuf_frame_total (s : NxtLcd) (f rest : List Nat) (h : Ready s)
    (hf : CompleteFrame f) (hrx : s.rx = f ++ rest) :
    ∃ s', readBuf 0 s = .ok (frameCode f, s') ∧ Kept s s' ∧ s'.rx = rest ∧
      s'.sendBuf = padded f := by
  obtain ⟨res, s', e, k, _, _⟩ := readBuf_cmd_total s h
  obtain ⟨e1, e2, e3⟩ := readBuf_frame_code s f rest h hf hrx
  have h4 := endsFrame_length f hf.1
  have hc : (classify (landed s f rest) (f.length - 1)).1 = frameCode f := by
    unfold frameCode
    apply classify_code_congr
    · rw [recvAt_landed s f rest 0 h.2.1 (by omega), recvAt_landed idle f [] 0 rfl (by omega)]
    · rw [recvAt_landed s f rest 1 h.2.1 (by omega), recvAt_landed idle f [] 1 rfl (by omega)]
    · rw [recvAt_landed s f rest 2 h.2.1 (by omega), recvAt_landed idle f [] 2 rfl (by omega)]
  rw [hc] at e1
  have e' := e
  rw [e1] at e'
  injection e' with e'
  have es : (finishFrame (classify (landed s f rest) (f.length - 1))).2 = s' :=
    congrArg Prod.snd e'
  refine ⟨_, e1, ?_, e2, e3⟩
  rw [es]; exact k

theorem frameCode_event (f : List Nat) (hf : CompleteFrame f)
    (hev : frameCode f = replyTouchEv ∨ frameCode f = replySleepEv ∨ frameCode f = replySendMe) :
    f.getD 0 0 ∈ eventOpcodes := by
  have h4 := endsFrame_length f hf.1
  have := classify_event_opcode (landed idle f []) (f.length - 1) hev
  rw [recvAt_landed idle f [] 0 rfl (by omega)] at this
  exact this

/-- The reply phase of `writeBuf` when the reply is a complete frame that is not an event:
the code of the frame is compared and nothing else is read. -/
theorem awaitReply_frame (e : Nat) (s : NxtLcd) (f rest : List Nat) (h : Ready s)
    (hf : CompleteFrame f) (hrx : s.rx = f ++ rest) (hne : f.getD 0 0 ∉ eventOpcodes) :
    ∃ s', awaitReply e s = .ok (compareReply e (frameCode f), s') ∧ Kept s s' ∧
      s'.rx = rest ∧ s'.sendBuf = padded f := by
  obtain ⟨s', e1, k, r1, b1⟩ := readBuf_frame_total s f rest h hf hrx
  refine ⟨s', ?_, k, r1, b1⟩
  unfold awaitReply
  simp only [e1]
  rw [if_neg (fun hev => hne (frameCode_event f hf hev))]

/-- The send phase of `writeBuf` when nothing is pending on the line: the drain does
nothing. -/
theorem writeBuf_quiet (e w n : Nat) (s : NxtLcd) (h : Ready s) (hrx : s.rx = [])
    (hn : strlen BufId.sendBuf s.sendBuf = .ok n) (hpos : 0 < n) :
    writeBuf e w 0 s =
      (if e > 0 ∨ s.debug > 0 then
         awaitReply e ((serialWrite s (s.sendBuf.take n)).2.delay w)
       else .ok (replyCmdOk, (serialWrite s (s.sendBuf.take n)).2)) := by
  obtain ⟨r0, s1, e1, _, _, _, _, ew⟩ := writeBuf_cmd e w n s h (Or.inl hrx) hn hpos
  have := readEvent_quiet s h hrx
  rw [e1] at this
  injection this with this
  have es : s1 = s := congrArg Prod.snd this
  rw [es] at ew
  exact ew

theorem decodeEvent_touch (p c ev : Nat) :
    decodeEvent (padded [0x65, p, c, ev, 0xFF, 0xFF, 0xFF]) = ⟨0x65, p, c, ev⟩ := by
  simp [decodeEvent, padded, cmdTouchCompEv]

theorem frameCode_touch (p c ev : Nat) :
    frameCode [0x65, p, c, ev, 0xFF, 0xFF, 0xFF] = replyTouchEv := by
  have r0 : (landed idle [0x65, p, c, ev, 0xFF, 0xFF, 0xFF] []).recvAt 0 = 0x65 :=
    recvAt_landed idle _ [] 0 rfl (by simp)
  unfold frameCode
  generalize landed idle [0x65, p, c, ev, 0xFF, 0xFF, 0xFF] [] = X at r0 ⊢
  simp [classify, r0, cmdFail, cmdOk, cmdInvalidCid, cmdInvalidPage,
    cmdInvPicId, cmdInvFontId, cmdInvVar, cmdBufOvfl, cmdTouchCompEv, cmdDevReady]

/-- C13: a reply is awaited, nothing is pending, and the display answers the write with the
touch frame `65 p c e FF FF FF` followed by a complete frame `r` whose opcode is not an event
opcode.  `writeBuf` returns, the event slot holds `0x65, p, c, e` with `haveEvent = 1`, and the
value returned is the one `writeBuf` returns when the display answers with `r` alone: the
comparison of `expReply` with the code of `r`. -/
theorem writeBuf_interleaved_touch (e w n p c ev : Nat) (r : List Nat)
    (rest : List (List Nat)) (s : NxtLcd) (h : Ready s) (hrx : s.rx = [])
    (hn : strlen BufId.sendBuf s.sendBuf = .ok n) (hpos : 0 < n)
    (hawait : 0 < e ∨ 0 < s.debug)
    (hscript : s.script = ([0x65, p, c, ev, 0xFF, 0xFF, 0xFF] ++ r) :: rest)
    (hr : CompleteFrame r) (hne : r.getD 0 0 ∉ eventOpcodes) :
    ∃ s' s'',
      writeBuf e w 0 s = .ok (compareReply e (frameCode r), s') ∧
      s'.haveEvent = 1 ∧ s'.lastEvent = ⟨0x65, p, c, ev⟩ ∧
      writeBuf e w 0 { s with script := r :: rest } = .ok (compareReply e (frameCode r), s'') := by
  -- the run with the event in front
  have hT : CompleteFrame [0x65, p, c, ev, 0xFF, 0xFF, 0xFF] :=
    completeFrame_fixed 0x65 [p, c, ev] (by simp [expLenOf, cmdTouchCompEv])
      (by simp [NXT_BUF_SIZE])
  have h2 := ready_sent s (s.sendBuf.take n) w h
  obtain ⟨_, f2, _⟩ := serialWrite_fields s (s.sendBuf.take n)
  have rx2 : ((serialWrite s (s.sendBuf.take n)).2.delay w).rx =
      [0x65, p, c, ev, 0xFF, 0xFF, 0xFF] ++ r := by
    show (serialWrite s (s.sendBuf.take n)).2.rx = _
    rw [f2, hrx, hscript]; rfl
  obtain ⟨s3, e3, k3, r3, b3⟩ := readBuf_frame_total _ _ r h2 hT rx2
  rw [frameCode_touch] at e3
  have h3 := ready_of_outside _ _ (outside_of_kept _ _ k3) h2
  obtain ⟨o4, _, rx4, _, he4, le4⟩ := storeEvent_outside s3 s3.recvBuf ⟨h3.2.2.1, h3.2.2.2⟩
  have h4 := ready_of_outside _ _ o4 h3
  obtain ⟨s5, e5, k5, _, _⟩ := readBuf_frame_total (storeEvent s3 s3.recvBuf) r [] h4 hr
    (by rw [rx4, r3, List.append_nil])
  have run1 : writeBuf e w 0 s = .ok (compareReply e (frameCode r), s5) := by
    rw [writeBuf_quiet e w n s h hrx hn hpos, if_pos hawait]
    unfold awaitReply
    simp only [e3]
    rw [if_pos (Or.inl trivial)]
    unfold readEvent
    rw [if_neg h3.1]
    simp only [e5]
  -- the run with the reply alone
  have h' : Ready { s with script := r :: rest } := h
  have h2' := ready_sent { s with script := r :: rest } (s.sendBuf.take n) w h'
  obtain ⟨_, f2', _⟩ := serialWrite_fields { s with script := r :: rest } (s.sendBuf.take n)
  have rx2' : ((serialWrite { s with script := r :: rest } (s.sendBuf.take n)).2.delay w).rx =
      r ++ [] := by
    show (serialWrite { s with script := r :: rest } (s.sendBuf.take n)).2.rx = _
    rw [f2']
    show s.rx ++ r = _
    rw [hrx, List.append_nil]; rfl
  obtain ⟨s'', e'', _, _, _⟩ := awaitReply_frame e _ r [] h2' hr rx2' hne
  have run2 : writeBuf e w 0 { s with script := r :: rest } =
      .ok (compareReply e (frameCode r), s'') := by
    rw [writeBuf_quiet e w n { s with script := r :: rest } h' hrx hn hpos]
    show (if e > 0 ∨ s.debug > 0 then _ else _) = _
    rw [if_pos hawait]
    exact e''
  refine ⟨s5, s'', run1, ?_, ?_, run2⟩
  · rw [k5.haveEvent, he4]
  · rw [k5.lastEvent, le4, h3.2.1]
    show decodeEvent s3.sendBuf = _
    rw [b3]
    exact decodeEvent_touch p c ev

/-- Instance of C13 (scenario 3): debug-mode driver sending `get n0.val`; the display answers
`65 02 07 01 FF FF FF` and then `01 FF FF FF`; the value returned is `replyCmdOk`. -/
theorem writeBuf_interleaved_touch_witness :
    Ready { asking [0x65, 2, 7, 1, 0xFF, 0xFF, 0xFF, 0x01, 0xFF, 0xFF, 0xFF] with debug := 1 } ∧
    ({ asking [0x65, 2, 7, 1, 0xFF, 0xFF, 0xFF, 0x01, 0xFF, 0xFF, 0xFF] with debug := 1 }
      : NxtLcd).rx = [] ∧
    strlen BufId.sendBuf (padded getN0Val) = .ok 13 ∧ 0 < 13 ∧
    (0 < 0 ∨ 0 < 1) ∧
    CompleteFrame [0x01, 0xFF, 0xFF, 0xFF] ∧
    ([0x01, 0xFF, 0xFF, 0xFF] : List Nat).getD 0 0 ∉ eventOpcodes ∧
    compareReply 0 (frameCode [0x01, 0xFF, 0xFF, 0xFF]) = replyCmdOk ∧
    ∃ s' s'',
      writeBuf 0 NXT_REPLY_WAIT 0
        { asking [0x65, 2, 7, 1, 0xFF, 0xFF, 0xFF, 0x01, 0xFF, 0xFF, 0xFF] with debug := 1 } =
          .ok (compareReply 0 (frameCode [0x01, 0xFF, 0xFF, 0xFF]), s') ∧
      s'.haveEvent = 1 ∧ s'.lastEvent = ⟨0x65, 2, 7, 1⟩ ∧
      writeBuf 0 NXT_REPLY_WAIT 0
        { { asking [0x65, 2, 7, 1, 0xFF, 0xFF, 0xFF, 0x01, 0xFF, 0xFF, 0xFF] with debug := 1 }
          with script := [0x01, 0xFF, 0xFF, 0xFF] :: [] } =
          .ok (compareReply 0 (frameCode [0x01, 0xFF, 0xFF, 0xFF]), s'') :=
  ⟨by decide, rfl, by decide, by decide, by decide, by decide, by decide, by decide,
   writeBuf_interleaved_touch 0 NXT_REPLY_WAIT 13 2 7 1 [0x01, 0xFF, 0xFF, 0xFF] []
     { asking [0x65, 2, 7, 1, 0xFF, 0xFF, 0xFF, 0x01, 0xFF, 0xFF, 0xFF] with debug := 1 }
     (by decide) rfl (by decide) (by decide) (by decide) rfl (by decide) (by decide)⟩

/-! ## What a command method sends -/

theorem compareReply_mem (e res : Nat) (h : res ∈ readResults) :
    compareReply e res ∈ readResults := by
  have h1 : replyCmdOk ∈ readResults := by decide
  unfold compareReply
  split
  · split
    · exact h1
    · exact h
  · split
    · exact h1
    · exact h

/-- The value the reply phase of `writeBuf` returns is a member of `readResults`. -/
theorem awaitReply_result (e r : Nat) (s s' : NxtLcd) (h : Ready s)
    (ha : awaitReply e s = .ok (r, s')) : r ∈ readResults := by
  obtain ⟨res, s1, e1, k1, _, _⟩ := readBuf_cmd_total s h
  have m1 := readBuf_result s s1 res h.1 e1
  have h1 := ready_of_outside _ _ (outside_of_kept _ _ k1) h
  unfold awaitReply at ha
  simp only [e1] at ha
  by_cases hev : res = replyTouchEv ∨ res = replySleepEv ∨ res = replySendMe
  · rw [if_pos hev] at ha
    obtain ⟨o2, _, _, _, _, _⟩ := storeEvent_outside s1 s1.recvBuf ⟨h1.2.2.1, h1.2.2.2⟩
    have h2 := ready_of_outside _ _ o2 h1
    obtain ⟨res3, s3, e3, _, _, _⟩ := readBuf_cmd_total _ h2
    have m3 := readBuf_result _ s3 res3 h2.1 e3
    unfold readEvent at ha
    rw [if_neg h1.1] at ha
    simp only [e3] at ha
    injection ha with ha
    have er : r = compareReply e res3 := (congrArg Prod.fst ha).symm
    rw [er]
    exact compareReply_mem e res3 m3
  · rw [if_neg hev] at ha
    injection ha with ha
    have er : r = compareReply e res := (congrArg Prod.fst ha).symm
    rw [er]
    exact compareReply_mem e res m1

theorem padded_size (c : List Nat) (hc : c.length ≤ NXT_BUF_SIZE) :
    (padded c).length = NXT_BUF_SIZE := by
  unfold padded
  rw [List.length_append, List.length_replicate]
  omega

/-- The general form of `snprintf_fits`: at most 127 bytes of the rendering are stored. -/
theorem snprintf_stores (r : List Nat) :
    snprintf (List.replicate NXT_BUF_SIZE 0) NXT_BUF_SIZE r = padded (r.take 127) := by
  have h128 : NXT_BUF_SIZE = 128 := rfl
  have hl : (r.take 127).length ≤ 127 := by rw [List.length_take]; omega
  have e127 : NXT_BUF_SIZE - 1 = 127 := rfl
  unfold snprintf padded
  rw [if_neg (by decide), List.append_assoc, e127]
  congr 1
  rw [List.drop_replicate, List.singleton_append, ← List.replicate_succ]
  congr 1
  omega

/-- The shared tail of the command methods on a ready driver: the first 127 bytes of the
rendering are written, whatever follows; with debug off and no expected code the value
returned is `replyCmdOk`; in every case it is a member of `readResults`. -/
theorem sendCommand_sends (r : List Nat) (e w : Nat) (s : NxtLcd) (h : Ready s)
    (hd : Drainable s) (hz : ∀ b ∈ r, b ≠ 0) (hne : r ≠ []) :
    ∃ code s', sendCommand r e w s = .ok (code, s') ∧ s'.tx = s.tx ++ r.take 127 ∧
      Ready s' ∧ code ∈ readResults ∧ ((e = 0 ∧ s.debug = 0) → code = replyCmdOk) ∧
      ((e > 0 ∨ s.debug > 0) → s.rx = [] →
        sendCommand r e w s = awaitReply e
          ((serialWrite { s with sendBuf := padded (r.take 127) } (r.take 127)).2.delay w)) := by
  have h128 : NXT_BUF_SIZE = 128 := rfl
  have hl : (r.take 127).length < NXT_BUF_SIZE := by rw [List.length_take]; omega
  have hz' : ∀ b ∈ r.take 127, b ≠ 0 := fun b hb => hz b (List.mem_of_mem_take hb)
  have hpos : 0 < (r.take 127).length := by
    cases r with
    | nil => exact absurd rfl hne
    | cons a t => simp
  obtain ⟨sl, st⟩ := strlen_padded (r.take 127) hz' hl
  have h0 : Ready { s with sendBuf := padded (r.take 127) } :=
    ⟨h.1, h.2.1, padded_size _ (le_of_lt hl), h.2.2.2⟩
  have e0 : sendCommand r e w s = writeBuf e w 0 { s with sendBuf := padded (r.take 127) } := by
    unfold sendCommand
    rw [bufReset_ready s h]
    show writeBuf e w 0
      { s with sendBuf := snprintf (List.replicate NXT_BUF_SIZE 0) NXT_BUF_SIZE r } = _
    rw [snprintf_stores r]
  obtain ⟨r0, s1, e1, h1, o1, sb, _, ew⟩ :=
    writeBuf_cmd e w _ { s with sendBuf := padded (r.take 127) } h0 hd sl hpos
  have hcmd : ({ s with sendBuf := padded (r.take 127) } : NxtLcd).sendBuf.take
      (r.take 127).length = r.take 127 := st
  rw [hcmd] at ew
  obtain ⟨f1, _, _, _, f5, f6, f7, _, f9, _⟩ := serialWrite_fields s1 (r.take 127)
  have tx1 : (serialWrite s1 (r.take 127)).2.tx = s.tx ++ r.take 127 := by
    rw [f1, o1.tx]
  have quiet : s.rx = [] → s1 = { s with sendBuf := padded (r.take 127) } := by
    intro hrx
    have := readEvent_quiet _ h0 hrx
    rw [e1] at this
    injection this with this
    exact congrArg Prod.snd this
  by_cases haw : e > 0 ∨ s.debug > 0
  · have haw' : e > 0 ∨ ({ s with sendBuf := padded (r.take 127) } : NxtLcd).debug > 0 := haw
    rw [if_pos haw'] at ew
    have h2 := ready_sent s1 (r.take 127) w h1
    obtain ⟨code, s', ea, h', o'⟩ := awaitReply_total e _ h2
    refine ⟨code, s', by rw [e0, ew, ea], ?_, h', awaitReply_result e code _ s' h2 ea, ?_, ?_⟩
    · rw [o'.tx]; exact tx1
    · intro hq
      rcases haw with h3 | h3
      · omega
      · omega
    · intro _ hrx
      rw [e0, ew, quiet hrx]
  · have haw' : ¬ (e > 0 ∨ ({ s with sendBuf := padded (r.take 127) } : NxtLcd).debug > 0) := haw
    rw [if_neg haw'] at ew
    refine ⟨replyCmdOk, _, by rw [e0, ew], tx1, ?_, by decide, fun _ => rfl,
      fun h3 => absurd h3 haw⟩
    exact ⟨by rw [f7]; exact h1.1, by rw [f9]; exact h1.2.1, by rw [f5]; exact h1.2.2.1,
      by rw [f6]; exact h1.2.2.2⟩

/-! ## The rendered texts -/

theorem nz_append (x y : List Nat) (hx : ∀ b ∈ x, b ≠ 0) (hy : ∀ b ∈ y, b ≠ 0) :
    ∀ b ∈ x ++ y, b ≠ 0 := by
  intro b hb
  rcases List.mem_append.mp hb with h | h
  · exact hx b h
  · exact hy b h

theorem nz_cstr (l : List Nat) (h : CStr l) : ∀ b ∈ l, b ≠ 0 :=
  fun b hb => Nat.pos_iff_ne_zero.mp (h b hb).1

theorem nz_dec (n : Nat) : ∀ b ∈ dec n, b ≠ 0 := by
  intro b hb
  have := (dec_range n b hb).1
  omega

theorem nz_addrText (a : Addr) (ha : AddrOk a) : ∀ b ∈ addrText a, b ≠ 0 := by
  cases a with
  | names page field =>
    exact nz_append _ _ (nz_append _ _ (nz_cstr _ ha.1) (by decide)) (nz_cstr _ ha.2)
  | ids page field =>
    exact nz_append _ _ (nz_append _ _ (nz_append _ _ (nz_append _ _ (by decide) (nz_dec _))
      (by decide)) (nz_dec _)) (by decide)
  | name field => exact nz_cstr _ ha
  | id field => exact nz_append _ _ (nz_append _ _ (by decide) (nz_dec _)) (by decide)

theorem nz_setStringText (a : Addr) (value : List Nat) (ha : AddrOk a) (hv : CStr value) :
    ∀ b ∈ setStringText a value, b ≠ 0 :=
  nz_append _ _ (nz_append _ _ (nz_append _ _ (nz_append _ _ (nz_append _ _ (nz_addrText a ha)
    (by decide)) (by decide)) (nz_cstr _ hv)) (by decide)) (by decide)

theorem nz_setNumericText (a : Addr) (v : Int) (ha : AddrOk a) :
    ∀ b ∈ setNumericText a v, b ≠ 0 :=
  nz_append _ _ (nz_append _ _ (nz_append _ _ (nz_addrText a ha) (by decide)) (nz_dec _))
    (by decide)

theorem setStringText_ne_nil (a : Addr) (value : List Nat) : setStringText a value ≠ [] := by
  unfold setStringText msgEnd
  simp

theorem setNumericText_ne_nil (a : Addr) (v : Int) : setNumericText a v ≠ [] := by
  unfold setNumericText msgEnd
  simp

theorem setStringText_names_length (page field value : List Nat) :
    (setStringText (.names page field) value).length =
      page.length + field.length + value.length + 11 := by
  have e1 : (ascii ".").length = 1 := by decide
  have e2 : (ascii ".txt=").length = 5 := by decide
  unfold setStringText addrText msgEnd
  simp only [List.length_append, e1, e2, List.length_cons, List.length_nil]
  omega

theorem not_rejected (code : Nat) (h : code ∈ readResults) :
    code ≠ notInit ∧ code ≠ dataTooBig := by
  constructor
  · intro e; rw [e] at h; revert h; decide
  · intro e; rw [e] at h; revert h; decide

/-- C17: `setString` encodes the four addressing shapes verbatim.  For a ready driver,
arguments the C types allow (names and value are C strings, ids are `uint8_t`), a call that
passes the size test and whose rendering, terminator included, is at most 127 bytes long:
the call returns a value other than `notInit` and `dataTooBig`, and the bytes written are
`<page>.<field>.txt="<value>"`, `p[<pid>].b[<fid>].txt="<value>"`, `<field>.txt="<value>"` or
`b[<fid>].txt="<value>"`, ids in unpadded decimal, the value byte for byte between two `0x22`,
followed by `FF FF FF`. -/
theorem setString_four_shapes (a : Addr) (value : List Nat) (s : NxtLcd) (h : Ready s)
    (hd : Drainable s) (ha : AddrOk a) (hv : CStr value)
    (hacc : setStringNeed a value ≤ NXT_BUF_SIZE)
    (hlen : (setStringText a value).length ≤ 127) :
    ∃ code s', setString a value s = .ok (code, s') ∧ code ≠ notInit ∧ code ≠ dataTooBig ∧
      s'.tx = s.tx ++
        (match a with
         | .names page field =>
           page ++ [0x2E] ++ field ++ ascii ".txt=" ++ [0x22] ++ value ++ [0x22]
         | .ids pid fid =>
           ascii "p[" ++ dec pid ++ ascii "].b[" ++ dec fid ++ ascii "].txt=" ++
             [0x22] ++ value ++ [0x22]
         | .name field => field ++ ascii ".txt=" ++ [0x22] ++ value ++ [0x22]
         | .id fid => ascii "b[" ++ dec fid ++ ascii "].txt=" ++ [0x22] ++ value ++ [0x22])
        ++ [0xFF, 0xFF, 0xFF] := by
  obtain ⟨code, s', e, tx, _, hm, _, _⟩ := sendCommand_sends (setStringText a value) 0
    NXT_REPLY_WAIT s h hd (nz_setStringText a value ha hv) (setStringText_ne_nil a value)
  obtain ⟨n1, n2⟩ := not_rejected code hm
  refine ⟨code, s', ?_, n1, n2, ?_⟩
  · unfold setString
    rw [if_neg h.1, if_neg (by omega)]
    exact e
  · rw [tx, List.take_of_length_le hlen]
    have c1 : ascii "]" ++ ascii ".txt=" = ascii "].txt=" := by decide
    have c2 : ascii "." = [0x2E] := by decide
    cases a
    all_goals simp only [setStringText, addrText, msgEnd, c2, ← c1, List.append_assoc]

/-- Instance of C17: `setString(3, 12, "a\"b")` on the idle driver. -/
theorem setString_four_shapes_witness :
    Ready idle ∧ Drainable idle ∧ AddrOk (.ids 3 12) ∧ CStr [0x61, 0x22, 0x62] ∧
    setStringNeed (.ids 3 12) [0x61, 0x22, 0x62] ≤ NXT_BUF_SIZE ∧
    (setStringText (.ids 3 12) [0x61, 0x22, 0x62]).length ≤ 127 ∧
    ∃ code s', setString (.ids 3 12) [0x61, 0x22, 0x62] idle = .ok (code, s') ∧
      code ≠ notInit ∧ code ≠ dataTooBig ∧
      s'.tx = idle.tx ++
        (ascii "p[" ++ dec 3 ++ ascii "].b[" ++ dec 12 ++ ascii "].txt=" ++
             [0x22] ++ [0x61, 0x22, 0x62] ++ [0x22])
        ++ [0xFF, 0xFF, 0xFF] :=
  ⟨by decide, by decide, by decide, by decide, by decide, by decide,
   setString_four_shapes (.ids 3 12) [0x61, 0x22, 0x62] idle (by decide) (by decide)
     (by decide) (by decide) (by decide) (by decide)⟩

/-- C18: size boundary of `setString(page, field, value)` by names on a ready driver.  The
rendering, terminator included, is `strlen(page)+strlen(field)+strlen(value)+11` bytes long.
When that is `NXT_BUF_SIZE` the call is accepted (the value returned is not `dataTooBig`) and
with debug off it returns `replyCmdOk`; when it is `NXT_BUF_SIZE + 1` or more the call
returns `dataTooBig` and the driver state, sent bytes and `sendBuf` included, is unchanged. -/
theorem setString_size_boundary (page field value : List Nat) (s : NxtLcd) (h : Ready s)
    (hd : Drainable s) (hp : CStr page) (hf : CStr field) (hv : CStr value) :
    (setStringText (.names page field) value).length =
      page.length + field.length + value.length + 11 ∧
    (page.length + field.length + value.length + 11 = NXT_BUF_SIZE →
      ∃ code s', setString (.names page field) value s = .ok (code, s') ∧
        code ≠ dataTooBig ∧ (s.debug = 0 → code = replyCmdOk)) ∧
    (NXT_BUF_SIZE + 1 ≤ page.length + field.length + value.length + 11 →
      setString (.names page field) value s = .ok (dataTooBig, s)) := by
  refine ⟨setStringText_names_length page field value, ?_, ?_⟩
  · intro h128
    obtain ⟨code, s', e, _, _, hm, hok, _⟩ := sendCommand_sends
      (setStringText (.names page field) value) 0 NXT_REPLY_WAIT s h hd
      (nz_setStringText _ value ⟨hp, hf⟩ hv) (setStringText_ne_nil _ value)
    refine ⟨code, s', ?_, (not_rejected code hm).2, fun h0 => hok ⟨rfl, h0⟩⟩
    unfold setString
    rw [if_neg h.1, if_neg (by show ¬ page.length + field.length + value.length + 11 > _; omega)]
    exact e
  · intro h129
    unfold setString
    rw [if_neg h.1, if_pos (by show page.length + field.length + value.length + 11 > _; omega)]

/-- Instance of C18: page `p`, field `t` and a value of 115 bytes (rendering of 128). -/
theorem setString_size_boundary_witness :
    Ready idle ∧ Drainable idle ∧ CStr [0x70] ∧ CStr [0x74] ∧
    CStr (List.replicate 115 0x41) ∧
    (setStringText (.names [0x70] [0x74]) (List.replicate 115 0x41)).length =
      [0x70].length + [0x74].length + (List.replicate 115 0x41).length + 11 ∧
    ([0x70].length + [0x74].length + (List.replicate 115 0x41).length + 11 = NXT_BUF_SIZE →
      ∃ code s', setString (.names [0x70] [0x74]) (List.replicate 115 0x41) idle
          = .ok (code, s') ∧
        code ≠ dataTooBig ∧ (idle.debug = 0 → code = replyCmdOk)) ∧
    (NXT_BUF_SIZE + 1 ≤ [0x70].length + [0x74].length + (List.replicate 115 0x41).length + 11 →
      setString (.names [0x70] [0x74]) (List.replicate 115 0x41) idle
        = .ok (dataTooBig, idle)) :=
  ⟨by decide, by decide, by decide, by decide, by decide,
   setString_size_boundary [0x70] [0x74] (List.replicate 115 0x41) idle (by decide)
     (by decide) (by decide) (by decide) (by decide)⟩

/-! ## `setNumeric` -/

theorem asUnsignedLong_nonneg (v : Int) (h0 : 0 ≤ v) (h1 : v < 2 ^ 31) :
    asUnsignedLong v = v.toNat := by
  unfold asUnsignedLong
  rw [Int.emod_eq_of_lt h0 (by omega)]

theorem frameCode_ack : compareReply 0 (frameCode [0x01, 0xFF, 0xFF, 0xFF]) = replyCmdOk := by
  decide

/-- C15: scenario 1 generalised.  For an object id `f` in `0..255` and a value `0 ≤ v < 2^31`,
`setNumeric(f, v)` on a ready driver returns, and the bytes it wrote are the ASCII text
`b[<f>].val=<v>`, both numbers in unpadded decimal, followed by `FF FF FF`.  In debug mode,
with nothing pending, when the display answers `01 FF FF FF` the value returned is
`replyCmdOk`; with debug off it is `replyCmdOk` as well. -/
theorem setNumeric_by_id (f : Nat) (v : Int) (s : NxtLcd) (h : Ready s) (hd : Drainable s)
    (hf : f < 256) (hv0 : 0 ≤ v) (hv : v < 2 ^ 31) :
    ∃ code s', setNumeric (.id f) v s = .ok (code, s') ∧
      s'.tx = s.tx ++
        (ascii "b[" ++ dec f ++ ascii "].val=" ++ dec v.toNat ++ [0xFF, 0xFF, 0xFF]) ∧
      (∀ rest, s.rx = [] → 0 < s.debug → s.script = [0x01, 0xFF, 0xFF, 0xFF] :: rest →
        code = replyCmdOk) ∧
      (s.debug = 0 → code = replyCmdOk) := by
  have h128 : NXT_BUF_SIZE = 128 := rfl
  have c1 : ascii "]" ++ ascii ".val=" = ascii "].val=" := by decide
  have l1 : (ascii "b[").length = 2 := by decide
  have l2 : (ascii "].val=").length = 6 := by decide
  have lf : (dec f).length ≤ 3 := dec_length f 3 (by decide) (by omega)
  have lv : (dec v.toNat).length ≤ 10 := dec_length v.toNat 10 (by decide) (by omega)
  have etext : setNumericText (.id f) v =
      ascii "b[" ++ dec f ++ ascii "].val=" ++ dec v.toNat ++ [0xFF, 0xFF, 0xFF] := by
    unfold setNumericText addrText msgEnd
    rw [asUnsignedLong_nonneg v hv0 hv, ← c1]
    simp only [List.append_assoc]
  have hlen : (setNumericText (.id f) v).length ≤ 127 := by
    rw [etext]
    simp only [List.length_append, l1, l2, List.length_cons, List.length_nil]
    omega
  obtain ⟨code, s', e, tx, _, _, hok, haw⟩ := sendCommand_sends (setNumericText (.id f) v) 0
    NXT_REPLY_WAIT s h hd (nz_setNumericText _ v hf) (setNumericText_ne_nil _ v)
  have es : setNumeric (.id f) v s = .ok (code, s') := by
    unfold setNumeric
    rw [if_neg h.1]
    exact e
  refine ⟨code, s', es, ?_, ?_, fun h0 => hok ⟨rfl, h0⟩⟩
  · rw [tx, List.take_of_length_le hlen, etext]
  · intro rest hrx hdbg hscript
    have ea := haw (Or.inr hdbg) hrx
    have h0 : Ready { s with sendBuf := padded ((setNumericText (.id f) v).take 127) } :=
      ⟨h.1, h.2.1, padded_size _ (by rw [List.length_take]; omega), h.2.2.2⟩
    have h2 := ready_sent _ ((setNumericText (.id f) v).take 127) NXT_REPLY_WAIT h0
    obtain ⟨_, f2, _⟩ := serialWrite_fields
      { s with sendBuf := padded ((setNumericText (.id f) v).take 127) }
      ((setNumericText (.id f) v).take 127)
    obtain ⟨s'', e'', _, _, _⟩ := awaitReply_frame 0 _ [0x01, 0xFF, 0xFF, 0xFF] [] h2
      (by decide)
      (by show (serialWrite _ _).2.rx = _
          rw [f2]
          show s.rx ++ s.script.headD [] = _
          rw [hrx, hscript]; rfl)
      (by decide)
    rw [ea, e''] at e
    injection e with e
    have ec : code = compareReply 0 (frameCode [0x01, 0xFF, 0xFF, 0xFF]) :=
      (congrArg Prod.fst e).symm
    rw [ec]
    exact frameCode_ack

/-- Instance of C15 (scenario 1): `setNumeric(5, 1234)` in debug mode, the display answers
`01 FF FF FF`. -/
theorem setNumeric_by_id_witness :
    Ready { idle with debug := 1, script := [[0x01, 0xFF, 0xFF, 0xFF]] } ∧
    Drainable { idle with debug := 1, script := [[0x01, 0xFF, 0xFF, 0xFF]] } ∧
    5 < 256 ∧ (0 : Int) ≤ 1234 ∧ (1234 : Int) < 2 ^ 31 ∧
    ascii "b[" ++ dec 5 ++ ascii "].val=" ++ dec (1234 : Int).toNat ++ [0xFF, 0xFF, 0xFF] =
      ascii "b[5].val=1234" ++ [0xFF, 0xFF, 0xFF] ∧
    ∃ code s', setNumeric (.id 5) 1234
        { idle with debug := 1, script := [[0x01, 0xFF, 0xFF, 0xFF]] } = .ok (code, s') ∧
      s'.tx = ({ idle with debug := 1, script := [[0x01, 0xFF, 0xFF, 0xFF]] } : NxtLcd).tx ++
        (ascii "b[" ++ dec 5 ++ ascii "].val=" ++ dec (1234 : Int).toNat ++
          [0xFF, 0xFF, 0xFF]) ∧
      (∀ rest, ({ idle with debug := 1, script := [[0x01, 0xFF, 0xFF, 0xFF]] } : NxtLcd).rx = [] →
        0 < ({ idle with debug := 1, script := [[0x01, 0xFF, 0xFF, 0xFF]] } : NxtLcd).debug →
        ({ idle with debug := 1, script := [[0x01, 0xFF, 0xFF, 0xFF]] } : NxtLcd).script =
          [0x01, 0xFF, 0xFF, 0xFF] :: rest →
        code = replyCmdOk) ∧
      (({ idle with debug := 1, script := [[0x01, 0xFF, 0xFF, 0xFF]] } : NxtLcd).debug = 0 →
        code = replyCmdOk) :=
  ⟨by decide, by decide, by decide, by decide, by decide, by decide,
   setNumeric_by_id 5 1234 { idle with debug := 1, script := [[0x01, 0xFF, 0xFF, 0xFF]] }
     (by decide) (by decide) (by decide) (by decide) (by decide)⟩

/-! ## Calls before `init()` -/

/-- C14: the AVR overload `setNumeric(F("page0"), F("n0"), 5)` on a driver on which `init()`
has not run.  The overload with `const char*` names returns `notInit` and leaves the driver
as it was.  The flash-string overload has no `initialized` test of its own: it returns
`notInit` (from `writeBuf`) and nothing is sent, but `sendBuf` was cleared and now holds the
rendered command. -/
theorem setNumeric_flash_before_init :
    setNumeric (.names (ascii "page0") (ascii "n0")) 5 { idle with initialized := 0 } =
      .ok (notInit, { idle with initialized := 0 }) ∧
    setNumericFlash (.names (ascii "page0") (ascii "n0")) 5 { idle with initialized := 0 } =
      .ok (notInit, { idle with initialized := 0,
                                sendBuf := padded (ascii "page0.n0.val=5" ++ [0xFF, 0xFF, 0xFF]) }) ∧
    padded (ascii "page0.n0.val=5" ++ [0xFF, 0xFF, 0xFF]) ≠
      ({ idle with initialized := 0 } : NxtLcd).sendBuf ∧
    setNumericFlash (.name (ascii "n0")) 5 { idle with initialized := 0 } =
      .ok (notInit, { idle with initialized := 0,
                                sendBuf := padded (ascii "n0.val=5" ++ [0xFF, 0xFF, 0xFF]) }) := by
  decide

/-! ## Negative values -/

/-- C16: `setNumeric` with the value `-1`.  The format `%lu` renders the 32-bit pattern as
`4294967295` in each of the four addressing overloads, where the `%ld` of `setFloat` renders
`-1`. -/
theorem setNumeric_negative_rendering :
    (stateOf idle (setNumeric (.id 5) (-1) idle)).tx =
      ascii "b[5].val=4294967295" ++ [0xFF, 0xFF, 0xFF] ∧
    (stateOf idle (setFloat (.id 5) (-1) 0 0 idle)).tx =
      ascii "b[5].val=-1" ++ [0xFF, 0xFF, 0xFF] ∧
    setNumericText (.names (ascii "page0") (ascii "n0")) (-1) =
      ascii "page0.n0.val=4294967295" ++ [0xFF, 0xFF, 0xFF] ∧
    setNumericText (.ids 0 5) (-1) = ascii "p[0].b[5].val=4294967295" ++ [0xFF, 0xFF, 0xFF] ∧
    setNumericText (.name (ascii "n0")) (-1) = ascii "n0.val=4294967295" ++ [0xFF, 0xFF, 0xFF] ∧
    setFloatText (.names (ascii "page0") (ascii "n0")) (-1) =
      ascii "page0.n0.val=-1" ++ [0xFF, 0xFF, 0xFF] := by
  decide

/-! ## Commands that fill the buffer -/

/-- C19: `setString("p", "t", value)` with a value of 115 bytes passes the size test
(`1 + 1 + 115 + 11 = 128`), but `snprintf` stores 127 bytes only: the call returns
`replyCmdOk` after writing the first 127 bytes of the 128 rendered, so the command ends in
`22 FF FF`.  With a three-digit object id the same happens one byte earlier:
`setString(200, value)` with 113 bytes ends in `41 22 FF`, and `setString(200, 200, value)`
with 107 bytes loses the whole terminator. -/
theorem setString_truncated_terminator :
    (setString (.names [0x70] [0x74]) (List.replicate 115 0x41) idle).map Prod.fst
      = .ok replyCmdOk ∧
    (setStringText (.names [0x70] [0x74]) (List.replicate 115 0x41)).length = 128 ∧
    (stateOf idle (setString (.names [0x70] [0x74]) (List.replicate 115 0x41) idle)).tx =
      (setStringText (.names [0x70] [0x74]) (List.replicate 115 0x41)).take 127 ∧
    (stateOf idle (setString (.names [0x70] [0x74]) (List.replicate 115 0x41) idle)).tx.drop 124
      = [0x22, 0xFF, 0xFF] ∧
    (setString (.id 200) (List.replicate 113 0x41) idle).map Prod.fst = .ok replyCmdOk ∧
    (stateOf idle (setString (.id 200) (List.replicate 113 0x41) idle)).tx.drop 124
      = [0x41, 0x22, 0xFF] ∧
    (setString (.ids 200 200) (List.replicate 107 0x41) idle).map Prod.fst = .ok replyCmdOk ∧
    (stateOf idle (setString (.ids 200 200) (List.replicate 107 0x41) idle)).tx.drop 124
      = [0x41, 0x41, 0x22] := by
  decide

/-! ## The size test of `setString` -/

/-- C20: the size test of `setString` against the limits its doc comment gives.  By id
`setString(5, value)` with 113 bytes, one more than `NXT_BUF_SIZE - 16`, is accepted: the
test is `strlen(value) + 15 > NXT_BUF_SIZE`, the 127 bytes rendered are written whole and the
result is `replyCmdOk`; 114 bytes are the first to give `dataTooBig`.  By names, with page `p`
and field `t`, a value of 116 bytes does not exceed `NXT_BUF_SIZE - 1 - 1 - 10` and is
rejected with `dataTooBig`: the test adds 11. -/
theorem setString_limits_against_doc :
    (List.replicate 113 0x41).length > NXT_BUF_SIZE - 16 ∧
    (setString (.id 5) (List.replicate 113 0x41) idle).map Prod.fst = .ok replyCmdOk ∧
    (setStringText (.id 5) (List.replicate 113 0x41)).length = 127 ∧
    (stateOf idle (setString (.id 5) (List.replicate 113 0x41) idle)).tx =
      setStringText (.id 5) (List.replicate 113 0x41) ∧
    setString (.id 5) (List.replicate 114 0x41) idle = .ok (dataTooBig, idle) ∧
    ¬ ((List.replicate 116 0x41).length > NXT_BUF_SIZE - [0x70].length - [0x74].length - 10) ∧
    setString (.names [0x70] [0x74]) (List.replicate 116 0x41) idle = .ok (dataTooBig, idle) := by
  decide

/-- The size test by names: on a ready driver `setString(page, field, value)` returns
`dataTooBig` if and only if `strlen(value)` exceeds
`NXT_BUF_SIZE - strlen(page) - strlen(field) - 11`. -/
theorem setString_names_limit (page field value : List Nat) (s : NxtLcd) (h : Ready s)
    (hd : Drainable s) (hp : CStr page) (hf : CStr field) (hv : CStr value) :
    (∃ s', setString (.names page field) value s = .ok (dataTooBig, s')) ↔
      (value.length : Int) > (NXT_BUF_SIZE : Int) - page.length - field.length - 11 := by
  have h128 : NXT_BUF_SIZE = 128 := rfl
  constructor
  · intro hx
    obtain ⟨s', e'⟩ := hx
    by_contra hle
    have hacc : ¬ setStringNeed (.names page field) value > NXT_BUF_SIZE := by
      show ¬ page.length + field.length + value.length + 11 > NXT_BUF_SIZE
      rw [h128] at hle ⊢
      omega
    obtain ⟨code, s'', e, _, _, hm, _, _⟩ := sendCommand_sends
      (setStringText (.names page field) value) 0 NXT_REPLY_WAIT s h hd
      (nz_setStringText _ value ⟨hp, hf⟩ hv) (setStringText_ne_nil _ value)
    unfold setString at e'
    rw [if_neg h.1, if_neg hacc, e] at e'
    injection e' with e'
    exact (not_rejected code hm).2 (congrArg Prod.fst e')
  · intro hgt
    refine ⟨s, ?_⟩
    unfold setString
    rw [if_neg h.1, if_pos (by
      show page.length + field.length + value.length + 11 > NXT_BUF_SIZE
      rw [h128] at hgt ⊢
      omega)]

/-- The size test by names at page `p`, field `t` and a value of 116 bytes. -/
theorem setString_names_limit_witness :
    Ready idle ∧ Drainable idle ∧ CStr [0x70] ∧ CStr [0x74] ∧
    CStr (List.replicate 116 0x41) ∧
    ((∃ s', setString (.names [0x70] [0x74]) (List.replicate 116 0x41) idle
        = .ok (dataTooBig, s')) ↔
      (((List.replicate 116 0x41).length : Nat) : Int) >
        (NXT_BUF_SIZE : Int) - ([0x70].length : Nat) - ([0x74].length : Nat) - 11) :=
  ⟨by decide, by decide, by decide, by decide, by decide,
   setString_names_limit [0x70] [0x74] (List.replicate 116 0x41) idle (by decide)
     (by decide) (by decide) (by decide) (by decide)⟩


/-! ## Commands and what they leave alone -/

/-- The general form of `sendCommand_sends`: besides the bytes written, the configuration and
the property cache are those of the state before the call. -/
theorem sendCommand_run (r : List Nat) (e w : Nat) (s : NxtLcd) (h : Ready s)
    (hd : Drainable s) (hz : ∀ b ∈ r, b ≠ 0) (hne : r ≠ []) :
    ∃ code s', sendCommand r e w s = .ok (code, s') ∧ s'.tx = s.tx ++ r.take 127 ∧
      Ready s' ∧ code ∈ readResults ∧ s'.sysProp = s.sysProp ∧ s'.dispType = s.dispType ∧
      s'.debug = s.debug ∧ ((e = 0 ∧ s.debug = 0) → code = replyCmdOk) := by
  have h128 : NXT_BUF_SIZE = 128 := rfl
  have hl : (r.take 127).length < NXT_BUF_SIZE := by rw [List.length_take]; omega
  have hz' : ∀ b ∈ r.take 127, b ≠ 0 := fun b hb => hz b (List.mem_of_mem_take hb)
  have hpos : 0 < (r.take 127).length := by
    cases r with
    | nil => exact absurd rfl hne
    | cons a t => simp
  obtain ⟨sl, st⟩ := strlen_padded (r.take 127) hz' hl
  have h0 : Ready { s with sendBuf := padded (r.take 127) } :=
    ⟨h.1, h.2.1, padded_size _ (le_of_lt hl), h.2.2.2⟩
  have e0 : sendCommand r e w s = writeBuf e w 0 { s with sendBuf := padded (r.take 127) } := by
    unfold sendCommand
    rw [bufReset_ready s h]
    show writeBuf e w 0
      { s with sendBuf := snprintf (List.replicate NXT_BUF_SIZE 0) NXT_BUF_SIZE r } = _
    rw [snprintf_stores r]
  obtain ⟨r0, s1, e1, h1, o1, sb, _, ew⟩ :=
    writeBuf_cmd e w _ { s with sendBuf := padded (r.take 127) } h0 hd sl hpos
  have hcmd : ({ s with sendBuf := padded (r.take 127) } : NxtLcd).sendBuf.take
      (r.take 127).length = r.take 127 := st
  rw [hcmd] at ew
  obtain ⟨f1, _, _, _, f5, f6, f7, f8, f9, f10, _⟩ := serialWrite_fields s1 (r.take 127)
  have tx1 : (serialWrite s1 (r.take 127)).2.tx = s.tx ++ r.take 127 := by
    rw [f1, o1.tx]
  have hdt : (serialWrite s1 (r.take 127)).2.dispType = s.dispType := by
    rw [← o1.dispType]
    unfold serialWrite
    cases s1.script <;> rfl
  by_cases haw : e > 0 ∨ s.debug > 0
  · have haw' : e > 0 ∨ ({ s with sendBuf := padded (r.take 127) } : NxtLcd).debug > 0 := haw
    rw [if_pos haw'] at ew
    have h2 := ready_sent s1 (r.take 127) w h1
    obtain ⟨code, s', ea, h', o'⟩ := awaitReply_total e _ h2
    refine ⟨code, s', by rw [e0, ew, ea], ?_, h', awaitReply_result e code _ s' h2 ea, ?_, ?_,
      ?_, ?_⟩
    · rw [o'.tx]; exact tx1
    · rw [o'.sysProp]
      show (serialWrite s1 (r.take 127)).2.sysProp = _
      rw [f10, o1.sysProp]
    · rw [o'.dispType]; exact hdt
    · rw [o'.debug]
      show (serialWrite s1 (r.take 127)).2.debug = _
      rw [f8, o1.debug]
    · intro hq
      rcases haw with h3 | h3
      · omega
      · omega
  · have haw' : ¬ (e > 0 ∨ ({ s with sendBuf := padded (r.take 127) } : NxtLcd).debug > 0) := haw
    rw [if_neg haw'] at ew
    refine ⟨replyCmdOk, _, by rw [e0, ew], tx1, ?_, by decide, ?_, hdt, ?_, fun _ => rfl⟩
    · exact ⟨by rw [f7]; exact h1.1, by rw [f9]; exact h1.2.1, by rw [f5]; exact h1.2.2.1,
        by rw [f6]; exact h1.2.2.2⟩
    · rw [f10, o1.sysProp]
    · rw [f8, o1.debug]

/-- A command whose reply is awaited, sent with nothing pending, answered by the display with
one complete frame that is not an event: the whole rendering is written, the frame is read
and its code compared, the frame stays in `sendBuf`. -/
theorem sendCommand_answered (r f : List Nat) (rest : List (List Nat)) (e w : Nat) (s : NxtLcd)
    (h : Ready s) (hrx : s.rx = []) (hz : ∀ b ∈ r, b ≠ 0) (hne : r ≠ [])
    (hl : r.length ≤ 127) (haw : e > 0 ∨ s.debug > 0) (hs : s.script = f :: rest)
    (hf : CompleteFrame f) (hev : f.getD 0 0 ∉ eventOpcodes) :
    ∃ s', sendCommand r e w s = .ok (compareReply e (frameCode f), s') ∧
      s'.tx = s.tx ++ r ∧ s'.rx = [] ∧ s'.script = rest ∧ s'.sendBuf = padded f ∧ Ready s' ∧
      s'.sysProp = s.sysProp ∧ s'.dispType = s.dispType ∧ s'.debug = s.debug ∧
      s'.haveEvent = s.haveEvent ∧ s'.lastEvent = s.lastEvent := by
  have h128 : NXT_BUF_SIZE = 128 := rfl
  obtain ⟨_, _, _, _, _, _, _, hrun⟩ := sendCommand_sends r e w s h (Or.inl hrx) hz hne
  have ea := hrun haw hrx
  rw [List.take_of_length_le hl] at ea
  have h0 : Ready { s with sendBuf := padded r } :=
    ⟨h.1, h.2.1, padded_size _ (by omega), h.2.2.2⟩
  have h2 := ready_sent { s with sendBuf := padded r } r w h0
  obtain ⟨f1, f2, f3, _, _, _, _, f8, _, f10, f11, f12⟩ :=
    serialWrite_fields { s with sendBuf := padded r } r
  have hdt : (serialWrite { s with sendBuf := padded r } r).2.dispType = s.dispType := by
    unfold serialWrite
    cases hsc : ({ s with sendBuf := padded r } : NxtLcd).script <;> rfl
  obtain ⟨s', e', k, r', b'⟩ := awaitReply_frame e _ f [] h2 hf
    (by show (serialWrite _ _).2.rx = _
        rw [f2]
        show s.rx ++ s.script.headD [] = _
        rw [hrx, hs]; simp)
    hev
  refine ⟨s', by rw [ea]; exact e', ?_, r', ?_, b',
    ready_of_outside _ _ (outside_of_kept _ _ k) h2, ?_, ?_, ?_, ?_, ?_⟩
  · rw [k.tx]; exact f1
  · rw [k.script]
    show (serialWrite _ _).2.script = _
    rw [f3]
    show s.script.tail = _
    rw [hs]; rfl
  · rw [k.sysProp]; exact f10
  · rw [k.dispType]; exact hdt
  · rw [k.debug]; exact f8
  · rw [k.haveEvent]; exact f11
  · rw [k.lastEvent]; exact f12


/-! ## Property validation -/

theorem sysPropNames_ok : ∀ nm ∈ sysPropNames, (∀ b ∈ nm, b ≠ 0) ∧ nm.length < NXT_PROP_SIZE := by
  decide

theorem getPropCnt_le (s : NxtLcd) : getPropCnt s ≤ sysPropLen := by
  unfold getPropCnt
  split
  · decide
  · split <;> decide

/-- The comparison `strncmp(a, b, n) == 0` is equality of the strings when `b` is shorter
than `n`. -/
theorem strncmpEq_iff (a b : List Nat) (n : Nat) (ha : ∀ x ∈ a, x ≠ 0)
    (hb : b.length < n) : strncmpEq a b n = true ↔ a = b := by
  unfold strncmpEq
  rw [beq_iff_eq]
  constructor
  · intro h
    have hbt : (b ++ [0]).take n = b ++ [0] :=
      List.take_of_length_le (by simp only [List.length_append, List.length_singleton]; omega)
    rw [hbt] at h
    by_cases hal : a.length < n
    · have hat : (a ++ [0]).take n = a ++ [0] :=
        List.take_of_length_le (by simp only [List.length_append, List.length_singleton]; omega)
      rw [hat] at h
      exact List.append_cancel_right h
    · exfalso
      have hat : (a ++ [0]).take n = a.take n :=
        List.take_append_of_le_length (by omega)
      rw [hat] at h
      have hm : (0 : Nat) ∈ a.take n := by rw [h]; simp
      exact ha 0 (List.mem_of_mem_take hm) rfl
  · intro h
    rw [h]

/-- The search loop of `chkProperty` finds the entry equal to the string, if there is one. -/
theorem chkLoop_spec (prop : List Nat) (hp : ∀ x ∈ prop, x ≠ 0) :
    ∀ (l : List (List Nat)) (i : Nat), (∀ nm ∈ l, nm.length < NXT_PROP_SIZE) →
      (prop ∉ l → chkLoop prop l i = 255) ∧
      (prop ∈ l → ∃ k, k < l.length ∧ chkLoop prop l i = i + k ∧ l.getD k [] = prop) := by
  intro l
  induction l with
  | nil =>
    intro i _
    exact ⟨fun _ => rfl, fun h => absurd h (List.not_mem_nil _)⟩
  | cons nm rest ih =>
    intro i hl
    have hnm := hl nm (List.mem_cons_self _ _)
    have hrest : ∀ x ∈ rest, x.length < NXT_PROP_SIZE :=
      fun x hx => hl x (List.mem_cons_of_mem _ hx)
    obtain ⟨ih1, ih2⟩ := ih (i + 1) hrest
    by_cases he : prop = nm
    · have ht : strncmpEq prop nm NXT_PROP_SIZE = true :=
        (strncmpEq_iff prop nm _ hp hnm).mpr he
      refine ⟨fun h => absurd (by rw [he]; exact List.mem_cons_self _ _) h, fun _ => ?_⟩
      refine ⟨0, by simp, ?_, by rw [he]; rfl⟩
      unfold chkLoop
      rw [if_pos ht]; rfl
    · have hf : ¬ strncmpEq prop nm NXT_PROP_SIZE = true :=
        fun ht => he ((strncmpEq_iff prop nm _ hp hnm).mp ht)
      constructor
      · intro hno
        unfold chkLoop
        rw [if_neg hf]
        exact ih1 (fun hm => hno (List.mem_cons_of_mem _ hm))
      · intro hm
        rcases List.mem_cons.mp hm with h1 | h1
        · exact absurd h1 he
        · obtain ⟨k, hk, e, g⟩ := ih2 h1
          refine ⟨k + 1, by simp only [List.length_cons]; omega, ?_, ?_⟩
          · unfold chkLoop
            rw [if_neg hf, e]; omega
          · rw [List.getD_cons_succ]; exact g

theorem take_names_short (n : Nat) : ∀ nm ∈ sysPropNames.take n, nm.length < NXT_PROP_SIZE :=
  fun nm h => (sysPropNames_ok nm (List.mem_of_mem_take h)).2

/-- A property argument that passes `chkProperty`: the index is below the property count of
the display, and the text rendered for it is the table entry at that index. -/
theorem chkProperty_valid (p : PropArg) (s : NxtLcd) (hok : PropArgOk p)
    (hv : chkProperty p s ≠ 255) :
    chkProperty p s < getPropCnt s ∧
      propText p s = sysPropNames.getD (chkProperty p s) [] ∧
      (∀ q, p = .id q → chkProperty p s = q) ∧
      (∀ nm, p = .name nm → nm ∈ sysPropNames.take (getPropCnt s)) := by
  have hcnt := getPropCnt_le s
  cases p with
  | id q =>
    by_cases hq : q < getPropCnt s
    · have ec : chkProperty (.id q) s = q := by
        unfold chkProperty; simp only [if_pos hq]
      refine ⟨by rw [ec]; exact hq, rfl, fun q' e => (by injection e with e; rw [← e]; exact ec),
        fun nm e => (by cases e)⟩
    · have ec : chkProperty (.id q) s = 255 := by
        unfold chkProperty; simp only [if_neg hq]
      exact absurd ec hv
  | name nm =>
    have hp : ∀ x ∈ nm, x ≠ 0 := nz_cstr nm hok
    obtain ⟨c1, c2⟩ := chkLoop_spec nm hp (sysPropNames.take (getPropCnt s)) 0
      (take_names_short _)
    have hin : nm ∈ sysPropNames.take (getPropCnt s) := by
      by_contra hno
      exact hv (c1 hno)
    obtain ⟨k, hk, e, g⟩ := c2 hin
    rw [Nat.zero_add] at e
    have hk2 : k < getPropCnt s := by
      rw [List.length_take] at hk; omega
    have ec : chkProperty (.name nm) s = k := e
    refine ⟨by rw [ec]; exact hk2, ?_, fun q e' => (by cases e'), fun nm' e' => ?_⟩
    · rw [ec]
      show nm = _
      rw [← g, List.getD_eq_getElem?_getD, List.getD_eq_getElem?_getD, List.getElem?_take,
        if_pos hk2]
    · injection e' with e'
      rw [← e']; exact hin

/-- C24: validation of the property argument by tier, on an initialised driver with a basic
or an enhanced display.  The property count is 19 on a basic and 26 on an enhanced display.
`chkProperty` rejects an argument exactly when it is an index at or above the count, or a name
that is not among the first that many entries of `sysPropNames`; for a rejected argument
`setProperty` (on every build) and `getProperty` return `invalidData` and leave the driver,
the sent bytes and the cache included, as it was. -/
theorem property_validation_by_tier (avr : Bool) (ram : Nat → List Nat) (p : PropArg)
    (v out loc : Nat) (s : NxtLcd) (hi : s.initialized ≠ 0) (ht : s.dispType = nxt_basic ∨ s.dispType = nxt_enhanced)
    (hok : PropArgOk p) :
    getPropCnt s = (if s.dispType = nxt_basic then 19 else 26) ∧
    (chkProperty p s = 255 ↔
      (match p with
       | .id q => getPropCnt s ≤ q
       | .name nm => nm ∉ sysPropNames.take (getPropCnt s))) ∧
    (chkProperty p s = 255 →
      setProperty avr ram p v s = .ok (invalidData, s) ∧
      getProperty p out loc s = .ok (invalidData, out, s)) := by
  refine ⟨?_, ?_, ?_⟩
  · unfold getPropCnt
    rcases ht with h0 | h1
    · rw [if_pos h0, if_pos h0]; rfl
    · have hn : ¬ s.dispType = nxt_basic := by rw [h1]; decide
      rw [if_neg hn, if_pos h1, if_neg hn]; rfl
  · constructor
    · intro h255
      cases p with
      | id q =>
        show getPropCnt s ≤ q
        by_contra hq
        have hq' : q < getPropCnt s := by omega
        have hc := getPropCnt_le s
        have : chkProperty (.id q) s = q := by
          unfold chkProperty; simp only [if_pos hq']
        rw [this] at h255
        have : sysPropLen = 26 := rfl
        omega
      | name nm =>
        show nm ∉ sysPropNames.take (getPropCnt s)
        intro hin
        obtain ⟨_, c2⟩ := chkLoop_spec nm (nz_cstr nm hok) (sysPropNames.take (getPropCnt s)) 0
          (take_names_short _)
        obtain ⟨k, hk, e, _⟩ := c2 hin
        have ec : chkProperty (.name nm) s = 0 + k := e
        rw [ec] at h255
        have hc := getPropCnt_le s
        have : sysPropLen = 26 := rfl
        rw [List.length_take] at hk
        omega
    · intro hbad
      cases p with
      | id q =>
        have hq : ¬ q < getPropCnt s := by
          have : getPropCnt s ≤ q := hbad
          omega
        unfold chkProperty; simp only [if_neg hq]
      | name nm =>
        have hno : nm ∉ sysPropNames.take (getPropCnt s) := hbad
        exact (chkLoop_spec nm (nz_cstr nm hok) (sysPropNames.take (getPropCnt s)) 0
          (take_names_short _)).1 hno
  · intro h255
    constructor
    · unfold setProperty
      rw [if_neg hi, if_pos h255]
    · unfold getProperty
      rw [if_neg hi, if_pos h255]

/-- Instance of C24: the name `rtc0` on a basic display; the same name and the index
`nxt_rtc0` are accepted on an enhanced display and rejected on a basic one. -/
theorem property_validation_by_tier_witness :
    idle.initialized ≠ 0 ∧ (idle.dispType = nxt_basic ∨ idle.dispType = nxt_enhanced) ∧
    PropArgOk (.name (ascii "rtc0")) ∧
    chkProperty (.name (ascii "rtc0")) { idle with dispType := nxt_enhanced } = nxt_rtc0 ∧
    chkProperty (.id nxt_rtc0) { idle with dispType := nxt_enhanced } = nxt_rtc0 ∧
    chkProperty (.id nxt_rtc0) idle = 255 ∧
    (getPropCnt idle = (if idle.dispType = nxt_basic then 19 else 26) ∧
    (chkProperty (.name (ascii "rtc0")) idle = 255 ↔
      ascii "rtc0" ∉ sysPropNames.take (getPropCnt idle)) ∧
    (chkProperty (.name (ascii "rtc0")) idle = 255 →
      setProperty true (ramHolding []) (.name (ascii "rtc0")) 2024 idle = .ok (invalidData, idle) ∧
      getProperty (.name (ascii "rtc0")) 7 0 idle = .ok (invalidData, 7, idle))) :=
  ⟨by decide, by decide, by decide, by decide, by decide, by decide,
   property_validation_by_tier true (ramHolding []) (.name (ascii "rtc0")) 2024 7 0 idle (by decide)
     (by decide) (by decide)⟩

/-- C26: a cached read.  On an initialised driver, for an argument that passes
`chkProperty`, `getProperty(p, &out, loc)` with `loc > 0` returns `replyCmdOk` with `out`
the cache entry at the index of `p`, and the driver (sent bytes, line, `sendBuf`, cache and
event slot) is exactly as before; the index is below the property count of the display. -/
theorem getProperty_cached (p : PropArg) (out loc : Nat) (s : NxtLcd) (hi : s.initialized ≠ 0)
    (hok : PropArgOk p) (hv : chkProperty p s ≠ 255) (hloc : 0 < loc) :
    getProperty p out loc s = .ok (replyCmdOk, s.sysProp.getD (chkProperty p s) 0, s) ∧
      chkProperty p s < getPropCnt s ∧ (∀ q, p = .id q → chkProperty p s = q) := by
  obtain ⟨c1, _, c3, _⟩ := chkProperty_valid p s hok hv
  refine ⟨?_, c1, c3⟩
  unfold getProperty
  rw [if_neg hi, if_neg hv, if_pos hloc]

/-- Instance of C26: `getProperty("dims", &out, 1)` with the cache holding `0, 1, 2, ...`. -/
theorem getProperty_cached_witness :
    ({ idle with sysProp := List.range 26 } : NxtLcd).initialized ≠ 0 ∧
    PropArgOk (.name (ascii "dims")) ∧
    chkProperty (.name (ascii "dims")) { idle with sysProp := List.range 26 } ≠ 255 ∧ 0 < 1 ∧
    (getProperty (.name (ascii "dims")) 7 1 { idle with sysProp := List.range 26 } =
      .ok (replyCmdOk,
        ({ idle with sysProp := List.range 26 } : NxtLcd).sysProp.getD
          (chkProperty (.name (ascii "dims")) { idle with sysProp := List.range 26 }) 0,
        { idle with sysProp := List.range 26 }) ∧
      chkProperty (.name (ascii "dims")) { idle with sysProp := List.range 26 } <
        getPropCnt { idle with sysProp := List.range 26 } ∧
      (∀ q, PropArg.name (ascii "dims") = .id q →
        chkProperty (.name (ascii "dims")) { idle with sysProp := List.range 26 } = q)) :=
  ⟨by decide, by decide, by decide, by decide,
   getProperty_cached (.name (ascii "dims")) 7 1 { idle with sysProp := List.range 26 }
     (by decide) (by decide) (by decide) (by decide)⟩


/-! ## `setProperty` and `getProperty` -/

theorem getPropCnt_ge (s : NxtLcd) : 19 ≤ getPropCnt s := by
  unfold getPropCnt
  split
  · decide
  · split <;> decide

theorem names_getD_ok (i : Nat) (hi : i < sysPropLen) :
    (∀ b ∈ sysPropNames.getD i [], b ≠ 0) ∧ (sysPropNames.getD i []).length < NXT_PROP_SIZE := by
  have hl : i < sysPropNames.length := hi
  have hm : sysPropNames.getD i [] ∈ sysPropNames := by
    rw [List.getD_eq_getElem _ _ hl]
    exact List.getElem_mem _
  exact sysPropNames_ok _ hm

/-- The text `setProperty` puts in front of `=` has no NUL byte, on every build. -/
theorem nz_setPropText (avr : Bool) (ram : Nat → List Nat) (p : PropArg) (s : NxtLcd)
    (hok : PropArgOk p) (hv : chkProperty p s ≠ 255) :
    ∀ b ∈ setPropText avr ram p s, b ≠ 0 := by
  cases p with
  | name nm => exact nz_cstr nm hok
  | id q =>
    cases avr with
    | true =>
      intro b hb
      have hb2 : b ∈ (ram (chkProperty (.id q) s)).takeWhile (fun x => decide (x ≠ 0)) := hb
      have := List.mem_takeWhile_imp hb2
      simpa using this
    | false =>
      obtain ⟨c1, _, _, _⟩ := chkProperty_valid (.id q) s hok hv
      exact (names_getD_ok _ (lt_of_lt_of_le c1 (getPropCnt_le s))).1

/-- Where `setProperty` renders the table entry: by name on every build, by index on every
build but AVR. -/
theorem setPropText_table (avr : Bool) (ram : Nat → List Nat) (p : PropArg) (s : NxtLcd)
    (hb : avr = false ∨ ∃ nm, p = .name nm) (hok : PropArgOk p) (hv : chkProperty p s ≠ 255) :
    setPropText avr ram p s = sysPropNames.getD (chkProperty p s) [] := by
  obtain ⟨_, c2, _, _⟩ := chkProperty_valid p s hok hv
  cases p with
  | name nm => exact c2
  | id q =>
    rcases hb with e | ⟨nm, e⟩
    · rw [e]; rfl
    · cases e

/-- Text rendered by `setProperty` where it renders the table entry: at most 15 bytes. -/
theorem setPropertyText_ok (avr : Bool) (ram : Nat → List Nat) (p : PropArg) (v : Nat) (s : NxtLcd)
    (hb : avr = false ∨ ∃ nm, p = .name nm) (hok : PropArgOk p)
    (hv : chkProperty p s ≠ 255) (hv16 : v < 65536) :
    setPropText avr ram p s ++ ascii "=" ++ dec v ++ msgEnd =
      sysPropNames.getD (chkProperty p s) [] ++ ascii "=" ++ dec v ++ [0xFF, 0xFF, 0xFF] ∧
    (setPropText avr ram p s ++ ascii "=" ++ dec v ++ msgEnd).length ≤ 127 := by
  obtain ⟨c1, _, _, _⟩ := chkProperty_valid p s hok hv
  obtain ⟨_, n2⟩ := names_getD_ok (chkProperty p s) (lt_of_lt_of_le c1 (getPropCnt_le s))
  have l1 : (ascii "=").length = 1 := by decide
  have lv : (dec v).length ≤ 5 := dec_length v 5 (by decide) (by omega)
  have h7 : NXT_PROP_SIZE = 7 := rfl
  rw [setPropText_table avr ram p s hb hok hv]
  refine ⟨rfl, ?_⟩
  simp only [List.length_append, l1, msgEnd, List.length_cons, List.length_nil]
  omega

/-- Method `setProperty` on a ready driver with a valid argument, on every build: what was
rendered (at most 127 bytes of it) is written; the result is `replyCmdOk` with the value
mirrored at the index of the property, or `replyCmdFail` with the cache untouched. -/
theorem setProperty_run (avr : Bool) (ram : Nat → List Nat) (p : PropArg) (v : Nat) (s : NxtLcd)
    (h : Ready s) (hd : Drainable s) (hok : PropArgOk p) (hv : chkProperty p s ≠ 255) :
    ∃ code s', setProperty avr ram p v s = .ok (code, s') ∧
      s'.tx = s.tx ++ (setPropText avr ram p s ++ ascii "=" ++ dec v ++ msgEnd).take 127 ∧
      (code = replyCmdOk ∨ code = replyCmdFail) ∧
      (code = replyCmdOk → s'.sysProp = s.sysProp.set (chkProperty p s) v) ∧
      (code ≠ replyCmdOk → s'.sysProp = s.sysProp) ∧
      Ready s' ∧ s'.dispType = s.dispType ∧ s'.debug = s.debug := by
  have t2 : ∀ b ∈ setPropText avr ram p s ++ ascii "=" ++ dec v ++ msgEnd, b ≠ 0 :=
    nz_append _ _ (nz_append _ _ (nz_append _ _ (nz_setPropText avr ram p s hok hv)
      (by decide)) (nz_dec _)) (by decide)
  have t4 : setPropText avr ram p s ++ ascii "=" ++ dec v ++ msgEnd ≠ [] := by simp [msgEnd]
  obtain ⟨res, s1, e, tx, h1, _, sp, dt, db, _⟩ := sendCommand_run
    (setPropText avr ram p s ++ ascii "=" ++ dec v ++ msgEnd) 0 NXT_REPLY_WAIT s h hd t2 t4
  unfold setProperty
  rw [if_neg h.1, if_neg hv]
  simp only [e]
  by_cases hr : res = replyCmdOk
  · rw [if_pos hr]
    exact ⟨res, _, rfl, tx, Or.inl hr, fun _ => by show s1.sysProp.set _ _ = _; rw [sp],
      fun hn => absurd hr hn, h1, dt, db⟩
  · rw [if_neg hr]
    exact ⟨replyCmdFail, s1, rfl, tx, Or.inr rfl, fun hc => absurd hc (by decide),
      fun _ => sp, h1, dt, db⟩

/-- The cache mirrors a set on success only, and the table name is what is sent, by name on
every build and by index on every build but AVR.  For a ready driver, an argument that
passes `chkProperty` and a 16-bit value, `setProperty(p, v)` writes the table name of `p`,
`=`, `v` in decimal and the terminator; when it returns `replyCmdOk` the cache afterwards is
the cache before with the entry of `p` replaced by `v`; when it returns anything else the
cache is the one before.  The index of `p` is below `sysPropLen`, the size of the cache. -/
theorem setProperty_mirror (avr : Bool) (ram : Nat → List Nat) (p : PropArg) (v : Nat) (s : NxtLcd)
    (hb : avr = false ∨ ∃ nm, p = .name nm) (h : Ready s)
    (hd : Drainable s) (hok : PropArgOk p) (hv : chkProperty p s ≠ 255) (hv16 : v < 65536) :
    ∃ code s', setProperty avr ram p v s = .ok (code, s') ∧
      s'.tx = s.tx ++
        (sysPropNames.getD (chkProperty p s) [] ++ ascii "=" ++ dec v ++ [0xFF, 0xFF, 0xFF]) ∧
      (code = replyCmdOk → s'.sysProp = s.sysProp.set (chkProperty p s) v) ∧
      (code ≠ replyCmdOk → s'.sysProp = s.sysProp) ∧
      chkProperty p s < sysPropLen := by
  obtain ⟨code, s', e, tx, _, ok, no, _⟩ := setProperty_run avr ram p v s h hd hok hv
  obtain ⟨t1, t3⟩ := setPropertyText_ok avr ram p v s hb hok hv hv16
  rw [List.take_of_length_le t3, t1] at tx
  exact ⟨code, s', e, tx, ok, no,
    lt_of_lt_of_le (chkProperty_valid p s hok hv).1 (getPropCnt_le s)⟩

/-- The cache is mirrored on success only on every build, whatever was rendered: when
`setProperty(p, v)` returns `replyCmdOk` the cache entry of `p` is `v` and the other entries
are kept; when it returns anything else the cache is the one before. -/
theorem setProperty_cache (avr : Bool) (ram : Nat → List Nat) (p : PropArg) (v : Nat) (s : NxtLcd)
    (h : Ready s) (hd : Drainable s) (hok : PropArgOk p) (hv : chkProperty p s ≠ 255) :
    ∃ code s', setProperty avr ram p v s = .ok (code, s') ∧
      (code = replyCmdOk → s'.sysProp = s.sysProp.set (chkProperty p s) v) ∧
      (code ≠ replyCmdOk → s'.sysProp = s.sysProp) := by
  obtain ⟨code, s', e, _, _, ok, no, _⟩ := setProperty_run avr ram p v s h hd hok hv
  exact ⟨code, s', e, ok, no⟩


theorem frameCode_number (a b c d : Nat) :
    frameCode [0x71, a, b, c, d, 0xFF, 0xFF, 0xFF] = replyGetNum := by
  have r0 : (landed idle [0x71, a, b, c, d, 0xFF, 0xFF, 0xFF] []).recvAt 0 = 0x71 :=
    recvAt_landed idle _ [] 0 rfl (by simp)
  unfold frameCode
  generalize landed idle [0x71, a, b, c, d, 0xFF, 0xFF, 0xFF] [] = X at r0 ⊢
  simp [classify, r0, cmdFail, cmdOk, cmdInvalidCid, cmdInvalidPage,
    cmdInvPicId, cmdInvFontId, cmdInvVar, cmdBufOvfl, cmdTouchCompEv, cmdDevReady,
    cmdTouchXYaw, cmdTouchXYsl, cmdSleepOn, cmdSleepOff, cmdGetStr, cmdGetNum]

/-- The word `memcpy(value, &recvBuf[1], 2)` reads from a stored number frame. -/
theorem recvWord_number (s : NxtLcd) (v c d : Nat) (hr : s.recvBuf = BufId.sendBuf)
    (hb : s.sendBuf = padded [0x71, v % 256, v / 256, c, d, 0xFF, 0xFF, 0xFF])
    (hv : v < 65536) : recvWord s = v := by
  unfold recvWord recvAt
  rw [hr]
  simp only [bufOf, hb]
  rw [padded_getD _ 1 (by simp), padded_getD _ 2 (by simp)]
  simp only [List.getD_cons_succ, List.getD_cons_zero]
  omega

/-- C27: property round trip, on every build.  On a ready driver with the cache of its
declared size, `setProperty(p, v)` returned `replyCmdOk` for a 16-bit `v`; then, with nothing pending and a
display that answers the next command with `71`, `v` as a 4-byte little-endian number and
`FF FF FF`, `getProperty(p, &out, 0)` writes `get <name>` and the terminator, returns
`replyCmdOk` with `out = v`, and the cache entry of `p` is `v`. -/
theorem property_round_trip (avr : Bool) (ram : Nat → List Nat) (p : PropArg) (v out : Nat)
    (s0 s : NxtLcd) (rest : List (List Nat)) (h0 : Ready s0) (hd0 : Drainable s0) (hok : PropArgOk p)
    (hv16 : v < 65536) (hcache : s0.sysProp.length = sysPropLen)
    (hset : setProperty avr ram p v s0 = .ok (replyCmdOk, s)) (hrx : s.rx = [])
    (hscript : s.script = [0x71, v % 256, v / 256, 0, 0, 0xFF, 0xFF, 0xFF] :: rest) :
    ∃ s', getProperty p out 0 s = .ok (replyCmdOk, v, s') ∧
      s'.sysProp.getD (chkProperty p s) 0 = v ∧
      s'.tx = s.tx ++
        (ascii "get " ++ sysPropNames.getD (chkProperty p s) [] ++ [0xFF, 0xFF, 0xFF]) := by
  have h7 : NXT_PROP_SIZE = 7 := rfl
  -- what the successful set left
  have hv0 : chkProperty p s0 ≠ 255 := by
    intro h255
    unfold setProperty at hset
    rw [if_neg h0.1, if_pos h255] at hset
    injection hset with e
    have e2 : invalidData = replyCmdOk := congrArg Prod.fst e
    exact absurd e2 (by decide)
  obtain ⟨code, s1, e1, _, _, ok1, _, hr1, dt1, _⟩ :=
    setProperty_run avr ram p v s0 h0 hd0 hok hv0
  rw [hset] at e1
  injection e1 with e1
  have ec : replyCmdOk = code := congrArg Prod.fst e1
  have es : s = s1 := congrArg Prod.snd e1
  rw [← es] at hr1 dt1 ok1
  have hsp : s.sysProp = s0.sysProp.set (chkProperty p s0) v := ok1 ec.symm
  have hchk : chkProperty p s = chkProperty p s0 := by
    cases p <;> simp only [chkProperty, getPropCnt, dt1]
  have hv : chkProperty p s ≠ 255 := by rw [hchk]; exact hv0
  obtain ⟨c1, c2, _, _⟩ := chkProperty_valid p s hok hv
  have hlt : chkProperty p s < sysPropLen := lt_of_lt_of_le c1 (getPropCnt_le s)
  obtain ⟨n1, n2⟩ := names_getD_ok (chkProperty p s) hlt
  -- the get
  have l1 : (ascii "get ").length = 4 := by decide
  obtain ⟨s', e', tx', _, _, sb', hr', sp', _⟩ := sendCommand_answered
    (ascii "get " ++ propText p s ++ msgEnd) [0x71, v % 256, v / 256, 0, 0, 0xFF, 0xFF, 0xFF]
    rest replyGetNum NXT_REPLY_WAIT s hr1 hrx
    (by rw [c2]; exact nz_append _ _ (nz_append _ _ (by decide) n1) (by decide))
    (by simp [msgEnd])
    (by rw [c2]
        simp only [List.length_append, l1, msgEnd, List.length_cons, List.length_nil]
        omega)
    (Or.inl (by decide)) hscript
    (completeFrame_fixed 0x71 [v % 256, v / 256, 0, 0] (by simp [expLenOf, cmdTouchCompEv,
      cmdTouchXYaw, cmdTouchXYsl, cmdGetStr, cmdSendme, cmdGetNum]) (by simp [NXT_BUF_SIZE]))
    (by simp [eventOpcodes, cmdTouchCompEv, cmdSendme, cmdTouchXYaw, cmdTouchXYsl, cmdSleepOn,
      cmdSleepOff])
  rw [frameCode_number] at e'
  have hcmp : compareReply replyGetNum replyGetNum = replyCmdOk := by decide
  rw [hcmp] at e'
  have hw : recvWord s' = v := recvWord_number s' v 0 0 hr'.2.1 sb' hv16
  refine ⟨{ s' with sysProp := s'.sysProp.set (chkProperty p s) v }, ?_, ?_, ?_⟩
  · unfold getProperty
    rw [if_neg hr1.1, if_neg hv, if_neg (by decide)]
    simp only [e']
    rw [if_pos trivial, hw]
  · show (s'.sysProp.set (chkProperty p s) v).getD (chkProperty p s) 0 = v
    have hlen : chkProperty p s < (s'.sysProp.set (chkProperty p s) v).length := by
      rw [List.length_set, sp', hsp, List.length_set, hcache]; exact hlt
    rw [List.getD_eq_getElem _ _ hlen, List.getElem_set_self]
  · show s'.tx = _
    rw [tx', c2]; rfl

/-- Instance of C27 at `v = 0xFFFF`: `setProperty("dim", 65535)` with debug off, then the
read with the display answering `71 FF FF 00 00 FF FF FF`. -/
theorem property_round_trip_witness :
    Ready (answering [[], [0x71, 0xFF, 0xFF, 0, 0, 0xFF, 0xFF, 0xFF]]) ∧
    Drainable (answering [[], [0x71, 0xFF, 0xFF, 0, 0, 0xFF, 0xFF, 0xFF]]) ∧
    PropArgOk (.name (ascii "dim")) ∧ 65535 < 65536 ∧
    (answering [[], [0x71, 0xFF, 0xFF, 0, 0, 0xFF, 0xFF, 0xFF]]).sysProp.length = sysPropLen ∧
    setProperty false (ramHolding []) (.name (ascii "dim")) 65535
        (answering [[], [0x71, 0xFF, 0xFF, 0, 0, 0xFF, 0xFF, 0xFF]]) =
      .ok (replyCmdOk, stateOf idle (setProperty false (ramHolding []) (.name (ascii "dim")) 65535
        (answering [[], [0x71, 0xFF, 0xFF, 0, 0, 0xFF, 0xFF, 0xFF]]))) ∧
    (stateOf idle (setProperty false (ramHolding []) (.name (ascii "dim")) 65535
        (answering [[], [0x71, 0xFF, 0xFF, 0, 0, 0xFF, 0xFF, 0xFF]]))).rx = [] ∧
    (stateOf idle (setProperty false (ramHolding []) (.name (ascii "dim")) 65535
        (answering [[], [0x71, 0xFF, 0xFF, 0, 0, 0xFF, 0xFF, 0xFF]]))).script =
      [0x71, 65535 % 256, 65535 / 256, 0, 0, 0xFF, 0xFF, 0xFF] :: [] ∧
    ∃ s', getProperty (.name (ascii "dim")) 7 0
        (stateOf idle (setProperty false (ramHolding []) (.name (ascii "dim")) 65535
          (answering [[], [0x71, 0xFF, 0xFF, 0, 0, 0xFF, 0xFF, 0xFF]]))) =
        .ok (replyCmdOk, 65535, s') ∧
      s'.sysProp.getD (chkProperty (.name (ascii "dim"))
        (stateOf idle (setProperty false (ramHolding []) (.name (ascii "dim")) 65535
          (answering [[], [0x71, 0xFF, 0xFF, 0, 0, 0xFF, 0xFF, 0xFF]])))) 0 = 65535 ∧
      s'.tx = (stateOf idle (setProperty false (ramHolding []) (.name (ascii "dim")) 65535
          (answering [[], [0x71, 0xFF, 0xFF, 0, 0, 0xFF, 0xFF, 0xFF]]))).tx ++
        (ascii "get " ++ sysPropNames.getD (chkProperty (.name (ascii "dim"))
          (stateOf idle (setProperty false (ramHolding []) (.name (ascii "dim")) 65535
            (answering [[], [0x71, 0xFF, 0xFF, 0, 0, 0xFF, 0xFF, 0xFF]])))) [] ++
          [0xFF, 0xFF, 0xFF]) :=
  ⟨by decide, by decide, by decide, by decide, by decide, by decide, by decide, by decide,
   property_round_trip false (ramHolding []) (.name (ascii "dim")) 65535 7
     (answering [[], [0x71, 0xFF, 0xFF, 0, 0, 0xFF, 0xFF, 0xFF]])
     (stateOf idle (setProperty false (ramHolding []) (.name (ascii "dim")) 65535
       (answering [[], [0x71, 0xFF, 0xFF, 0, 0, 0xFF, 0xFF, 0xFF]])))
     [] (by decide) (by decide) (by decide) (by decide) (by decide) (by decide) (by decide)
     (by decide)⟩


/-! ## Commands longer than the buffer -/

/-- C21: `setNumeric(page, "n0", 5)` with a page name of 120 bytes on an initialised driver,
debug off.  The rendering has 132 bytes; `setNumeric` has no size test, returns `replyCmdOk`
and writes the first 127 bytes, which end inside the digits, without terminator.
`setString` with the same names returns `dataTooBig` and writes nothing. -/
theorem setNumeric_oversize_sent :
    (setNumericText (.names (List.replicate 120 0x41) (ascii "n0")) 5).length = 132 ∧
    (setNumeric (.names (List.replicate 120 0x41) (ascii "n0")) 5 idle).map Prod.fst =
      .ok replyCmdOk ∧
    (stateOf idle (setNumeric (.names (List.replicate 120 0x41) (ascii "n0")) 5 idle)).tx =
      (setNumericText (.names (List.replicate 120 0x41) (ascii "n0")) 5).take 127 ∧
    (stateOf idle (setNumeric (.names (List.replicate 120 0x41) (ascii "n0")) 5 idle)).tx.drop
      121 = ascii "n0.val" ∧
    setString (.names (List.replicate 120 0x41) (ascii "n0")) (ascii "5") idle =
      .ok (dataTooBig, idle) := by
  decide

/-- C22: `writeStr` with a message of 86 bytes (`86 + 42 = 128`, accepted) and the arguments
`100, 100, 200, 50, 0, RED = 63488, WHITE = 65535, 1, 1`.  The rendering has 131 bytes, the
call returns `replyCmdOk` and writes the first 127 of them, which end in four bytes of the
message: closing quote and terminator are lost.  With 87 bytes the call returns
`dataTooBig`; with 86 bytes and the colours `0, 65535` the rendering has 127 bytes and is
written whole. -/
theorem writeStr_truncated :
    writeStr (List.replicate 87 0x41) 100 100 200 50 0 63488 65535 1 1 idle =
      .ok (dataTooBig, idle) ∧
    (writeStrText (List.replicate 86 0x41) 100 100 200 50 0 63488 65535 1 1).length = 131 ∧
    (writeStr (List.replicate 86 0x41) 100 100 200 50 0 63488 65535 1 1 idle).map Prod.fst =
      .ok replyCmdOk ∧
    (stateOf idle (writeStr (List.replicate 86 0x41) 100 100 200 50 0 63488 65535 1 1 idle)).tx =
      (writeStrText (List.replicate 86 0x41) 100 100 200 50 0 63488 65535 1 1).take 127 ∧
    (stateOf idle
      (writeStr (List.replicate 86 0x41) 100 100 200 50 0 63488 65535 1 1 idle)).tx.drop 123 =
      [0x41, 0x41, 0x41, 0x41] ∧
    (stateOf idle (writeStr (List.replicate 86 0x41) 100 100 200 50 0 0 65535 1 1 idle)).tx =
      writeStrText (List.replicate 86 0x41) 100 100 200 50 0 0 65535 1 1 := by
  decide

/-! ## Reset -/

/-- C23: `devReset()` on the idle driver.  Answered with the startup frame and the
device-ready frame it writes `rest` and the terminator and returns `replyCmdOk`; with no
answer, or with the startup frame alone, it returns `replyCmdFail`.  Answered with the
acknowledgement `01 FF FF FF` followed by the device-ready frame it returns `replyCmdOk` as
well: `writeBuf(replyStartUp, 500)` hands back the code read, and that code is the success
value. -/
theorem devReset_ack_counts_as_startup :
    devReset (answering [[0x00, 0x00, 0x00, 0xFF, 0xFF, 0xFF, 0x88, 0xFF, 0xFF, 0xFF]]) =
      .ok (replyCmdOk,
        { idle with tx := ascii "rest" ++ [0xFF, 0xFF, 0xFF], elapsed := 500,
                    sendBuf := padded [0x88, 0xFF, 0xFF, 0xFF] }) ∧
    (devReset (answering [[]])).map Prod.fst = .ok replyCmdFail ∧
    (devReset (answering [[0x00, 0x00, 0x00, 0xFF, 0xFF, 0xFF]])).map Prod.fst =
      .ok replyCmdFail ∧
    (devReset (answering [[0x01, 0xFF, 0xFF, 0xFF]])).map Prod.fst = .ok replyCmdFail ∧
    frameCode [0x01, 0xFF, 0xFF, 0xFF] ≠ replyStartUp ∧
    (devReset (answering [[0x01, 0xFF, 0xFF, 0xFF, 0x88, 0xFF, 0xFF, 0xFF]])).map Prod.fst =
      .ok replyCmdOk := by
  decide

/-! ## The event slot -/

/-- C29: events are consumed once.  With an event cached (`haveEvent = 1`), `ckEvents`
returns 1, hands the cached event to the caller and clears the flag, the driver being
otherwise as before (nothing read, nothing written).  A second `ckEvents` right after it, with
no byte on the line, returns 0 and leaves the caller's struct as it was; nothing is read or
written by it either. -/
theorem ckEvents_consume_once (x y : nxtEvent_t) (s : NxtLcd) (h1 : s.haveEvent = 1) :
    ckEvents x s = .ok (1, s.lastEvent, { s with haveEvent := 0 }) ∧
    (s.rx = [] →
      ∃ s2, ckEvents y { s with haveEvent := 0 } = .ok (0, y, s2) ∧
        s2.rx = [] ∧ s2.tx = s.tx ∧ s2.haveEvent = 0) := by
  constructor
  · unfold ckEvents
    rw [if_neg (by rw [h1]; decide)]
    simp only [h1, if_true]
  · intro hrx
    by_cases hi : s.initialized = 0
    · refine ⟨{ s with haveEvent := 0 }, ?_, hrx, rfl, rfl⟩
      unfold ckEvents readEvent
      simp [hi]
    · refine ⟨{ s with haveEvent := 0, recvBuf := BufId.sendBuf }, ?_, hrx, rfl, rfl⟩
      unfold ckEvents readEvent readBuf
      simp [hi, hrx, readLoop, noReply, replyTouchEv, replySleepEv, replySendMe]

/-- Instance of C29: a cached touch event on the idle driver. -/
theorem ckEvents_consume_once_witness :
    ({ idle with haveEvent := 1, lastEvent := ⟨0x65, 2, 7, 1⟩ } : NxtLcd).haveEvent = 1 ∧
    ckEvents ⟨0, 0, 0, 0⟩ { idle with haveEvent := 1, lastEvent := ⟨0x65, 2, 7, 1⟩ } =
      .ok (1, ({ idle with haveEvent := 1, lastEvent := ⟨0x65, 2, 7, 1⟩ } : NxtLcd).lastEvent,
        { { idle with haveEvent := 1, lastEvent := ⟨0x65, 2, 7, 1⟩ } with haveEvent := 0 }) ∧
    (({ idle with haveEvent := 1, lastEvent := ⟨0x65, 2, 7, 1⟩ } : NxtLcd).rx = [] →
      ∃ s2, ckEvents ⟨9, 9, 9, 9⟩
          { { idle with haveEvent := 1, lastEvent := ⟨0x65, 2, 7, 1⟩ } with haveEvent := 0 } =
          .ok (0, ⟨9, 9, 9, 9⟩, s2) ∧
        s2.rx = [] ∧
        s2.tx = ({ idle with haveEvent := 1, lastEvent := ⟨0x65, 2, 7, 1⟩ } : NxtLcd).tx ∧
        s2.haveEvent = 0) :=
  ⟨rfl, ckEvents_consume_once ⟨0, 0, 0, 0⟩ ⟨9, 9, 9, 9⟩
    { idle with haveEvent := 1, lastEvent := ⟨0x65, 2, 7, 1⟩ } rfl⟩


/-! ## Device errors behind the property setters -/

/-- Only the first 127 bytes of a rendering reach `sendBuf`, so a command behaves like the
command of its first 127 bytes. -/
theorem sendCommand_cut (r : List Nat) (e w : Nat) (s : NxtLcd) :
    sendCommand r e w s = sendCommand (r.take 127) e w s := by
  unfold sendCommand snprintf
  simp [NXT_BUF_SIZE, List.take_take]

/-- Method `setProperty` in debug mode, on every build, nothing pending, answered with one
complete frame that is not an event and whose code is not `replyCmdOk`: the result is
`replyCmdFail`, the cache is untouched. -/
theorem setProperty_refused (avr : Bool) (ram : Nat → List Nat) (p : PropArg) (v : Nat)
    (f : List Nat) (rest : List (List Nat))
    (s : NxtLcd) (h : Ready s) (hrx : s.rx = []) (hok : PropArgOk p)
    (hv : chkProperty p s ≠ 255) (hdbg : 0 < s.debug)
    (hs : s.script = f :: rest) (hf : CompleteFrame f) (hev : f.getD 0 0 ∉ eventOpcodes)
    (hcode : compareReply 0 (frameCode f) ≠ replyCmdOk) :
    ∃ s', setProperty avr ram p v s = .ok (replyCmdFail, s') ∧ s'.sysProp = s.sysProp := by
  have t2 : ∀ b ∈ setPropText avr ram p s ++ ascii "=" ++ dec v ++ msgEnd, b ≠ 0 :=
    nz_append _ _ (nz_append _ _ (nz_append _ _ (nz_setPropText avr ram p s hok hv)
      (by decide)) (nz_dec _)) (by decide)
  have t4 : (setPropText avr ram p s ++ ascii "=" ++ dec v ++ msgEnd).take 127 ≠ [] := by
    simp [msgEnd]
  obtain ⟨s', e', _, _, _, _, _, sp', _⟩ := sendCommand_answered
    ((setPropText avr ram p s ++ ascii "=" ++ dec v ++ msgEnd).take 127) f rest 0
    NXT_REPLY_WAIT s h hrx (fun b hb => t2 b (List.mem_of_mem_take hb)) t4
    (by rw [List.length_take]; omega) (Or.inr hdbg) hs hf hev
  rw [← sendCommand_cut] at e'
  refine ⟨s', ?_, sp'⟩
  unfold setProperty
  rw [if_neg h.1, if_neg hv]
  simp only [e']
  rw [if_neg hcode]

theorem chkProperty_low (ndx : Nat) (s : NxtLcd) (hn : ndx < 19) :
    chkProperty (.id ndx) s = ndx := by
  have := getPropCnt_ge s
  unfold chkProperty
  simp only [if_pos (show ndx < getPropCnt s by omega)]

/-- The setters built on `setProperty`, in the situation of `setProperty_refused`. -/
theorem setMirrored_refused (avr : Bool) (ram : Nat → List Nat) (ndx v : Nat) (f : List Nat)
    (rest : List (List Nat))
    (s : NxtLcd) (h : Ready s) (hrx : s.rx = []) (hn : ndx < 19)
    (hdbg : 0 < s.debug) (hs : s.script = f :: rest) (hf : CompleteFrame f)
    (hev : f.getD 0 0 ∉ eventOpcodes) (hcode : compareReply 0 (frameCode f) ≠ replyCmdOk) :
    ∃ s', setMirrored avr ram ndx v s = .ok (replyCmdFail, s') ∧ s'.sysProp = s.sysProp := by
  obtain ⟨s', e', sp'⟩ := setProperty_refused avr ram (.id ndx) v f rest s h hrx
    (show ndx < 256 by omega) (by rw [chkProperty_low ndx s hn]; omega) hdbg hs hf hev hcode
  refine ⟨s', ?_, sp'⟩
  unfold setMirrored
  simp only [e']
  rw [if_neg (by decide)]

/-- Counterexample to C28 as stated: in debug mode the display answers `dim=50` with the
wrong-variable frame `1A FF FF FF`, which `readBuf` classifies as `replyWrongVar`;
`setProperty("dim", 50)` and `setDim(50)` return `replyCmdFail`. -/
theorem setProperty_hides_device_code :
    frameCode [0x1A, 0xFF, 0xFF, 0xFF] = replyWrongVar ∧
    (setProperty false (ramHolding []) (.name (ascii "dim")) 50
      (debugging [[0x1A, 0xFF, 0xFF, 0xFF]])).map Prod.fst = .ok replyCmdFail ∧
    (setProperty true (ramHolding []) (.name (ascii "dim")) 50
      (debugging [[0x1A, 0xFF, 0xFF, 0xFF]])).map Prod.fst = .ok replyCmdFail ∧
    (setDim false (ramHolding []) 50 (debugging [[0x1A, 0xFF, 0xFF, 0xFF]])).map Prod.fst =
      .ok replyCmdFail ∧
    replyCmdFail ≠ replyWrongVar := by
  decide

/-- C28, amended: in debug mode, with nothing pending, on every build, when the display
answers the command of `setProperty` (any valid property, any 16-bit value), `setDim`,
`setSleep` or `setPageN` with the wrong-variable frame `1A FF FF FF`, the wrong-id frame
`02 FF FF FF` or the buffer-overflow frame `24 FF FF FF`, the operation returns
`replyCmdFail` and leaves the cache as it was. -/
theorem property_setters_report_failure (avr : Bool) (ram : Nat → List Nat) (p : PropArg) (v : Nat)
    (f : List Nat)
    (rest : List (List Nat)) (s : NxtLcd) (h : Ready s) (hrx : s.rx = [])
    (hok : PropArgOk p) (hv : chkProperty p s ≠ 255) (hv16 : v < 65536) (hdbg : 0 < s.debug)
    (hf : f = [0x1A, 0xFF, 0xFF, 0xFF] ∨ f = [0x02, 0xFF, 0xFF, 0xFF] ∨
      f = [0x24, 0xFF, 0xFF, 0xFF])
    (hs : s.script = f :: rest) :
    (∃ s', setProperty avr ram p v s = .ok (replyCmdFail, s') ∧ s'.sysProp = s.sysProp) ∧
    (v ≤ 100 → ∃ s', setDim avr ram v s = .ok (replyCmdFail, s') ∧ s'.sysProp = s.sysProp) ∧
    (v ≤ 1 → ∃ s', setSleep avr ram v s = .ok (replyCmdFail, s') ∧ s'.sysProp = s.sysProp) ∧
    (v < 256 →
      ∃ s', setPageN avr ram v s = .ok (replyCmdFail, s') ∧ s'.sysProp = s.sysProp) := by
  have _h16 := hv16
  have hcf : CompleteFrame f := by
    rcases hf with e | e | e <;> (rw [e]; decide)
  have hev : f.getD 0 0 ∉ eventOpcodes := by
    rcases hf with e | e | e <;> (rw [e]; decide)
  have hcode : compareReply 0 (frameCode f) ≠ replyCmdOk := by
    rcases hf with e | e | e <;> (rw [e]; decide)
  refine ⟨setProperty_refused avr ram p v f rest s h hrx hok hv hdbg hs hcf hev hcode,
    ?_, ?_, ?_⟩
  · intro hle
    unfold setDim
    rw [if_neg h.1, if_neg (by omega)]
    exact setMirrored_refused avr ram nxt_dim v f rest s h hrx (by decide) hdbg hs hcf hev hcode
  · intro hle
    unfold setSleep
    rw [if_neg h.1, if_neg (by omega)]
    exact setMirrored_refused avr ram nxt_sleep v f rest s h hrx (by decide) hdbg hs hcf hev
      hcode
  · intro _
    unfold setPageN
    rw [if_neg h.1]
    exact setProperty_refused avr ram (.id nxt_dp) v f rest s h hrx
      (show nxt_dp < 256 by decide)
      (by rw [chkProperty_low nxt_dp s (by decide)]; decide) hdbg hs hcf hev hcode

/-- Instance of C28 (amended): `setProperty("sleep", 1)`, `setDim(1)`, `setSleep(1)` and
`setPageN(1)` answered with the buffer-overflow frame. -/
theorem property_setters_report_failure_witness :
    Ready (debugging [[0x24, 0xFF, 0xFF, 0xFF]]) ∧ (debugging [[0x24, 0xFF, 0xFF, 0xFF]]).rx = [] ∧
    PropArgOk (.name (ascii "sleep")) ∧
    chkProperty (.name (ascii "sleep")) (debugging [[0x24, 0xFF, 0xFF, 0xFF]]) ≠ 255 ∧
    1 < 65536 ∧ 0 < (debugging [[0x24, 0xFF, 0xFF, 0xFF]]).debug ∧
    (([0x24, 0xFF, 0xFF, 0xFF] : List Nat) = [0x1A, 0xFF, 0xFF, 0xFF] ∨
      ([0x24, 0xFF, 0xFF, 0xFF] : List Nat) = [0x02, 0xFF, 0xFF, 0xFF] ∨
      ([0x24, 0xFF, 0xFF, 0xFF] : List Nat) = [0x24, 0xFF, 0xFF, 0xFF]) ∧
    (debugging [[0x24, 0xFF, 0xFF, 0xFF]]).script = [0x24, 0xFF, 0xFF, 0xFF] :: [] ∧
    ((∃ s', setProperty false (ramHolding []) (.name (ascii "sleep")) 1
          (debugging [[0x24, 0xFF, 0xFF, 0xFF]]) = .ok (replyCmdFail, s') ∧
        s'.sysProp = (debugging [[0x24, 0xFF, 0xFF, 0xFF]]).sysProp) ∧
    (1 ≤ 100 →
      ∃ s', setDim false (ramHolding []) 1 (debugging [[0x24, 0xFF, 0xFF, 0xFF]]) = .ok (replyCmdFail, s') ∧
        s'.sysProp = (debugging [[0x24, 0xFF, 0xFF, 0xFF]]).sysProp) ∧
    (1 ≤ 1 →
      ∃ s', setSleep false (ramHolding []) 1 (debugging [[0x24, 0xFF, 0xFF, 0xFF]]) =
          .ok (replyCmdFail, s') ∧
        s'.sysProp = (debugging [[0x24, 0xFF, 0xFF, 0xFF]]).sysProp) ∧
    (1 < 256 → ∃ s', setPageN false (ramHolding []) 1 (debugging [[0x24, 0xFF, 0xFF, 0xFF]]) =
        .ok (replyCmdFail, s') ∧
        s'.sysProp = (debugging [[0x24, 0xFF, 0xFF, 0xFF]]).sysProp)) :=
  ⟨by decide, by decide, by decide, by decide, by decide, by decide, by decide, by decide,
   property_setters_report_failure false (ramHolding []) (.name (ascii "sleep")) 1
     [0x24, 0xFF, 0xFF, 0xFF] []
     (debugging [[0x24, 0xFF, 0xFF, 0xFF]]) (by decide) (by decide) (by decide) (by decide)
     (by decide) (by decide) (by decide) (by decide)⟩


/-! ## The event-path loop of `readBuf` -/

theorem stored_set (old cur : List Nat) (b : Nat) (h : cur.length < old.length) :
    (stored old cur).set cur.length b = stored old (cur ++ [b]) := by
  unfold stored
  rw [List.set_append_right _ _ (le_refl _), Nat.sub_self]
  have hd : old.drop cur.length = old.getD cur.length 0 :: old.drop (cur.length + 1) := by
    rw [List.getD_eq_getElem _ _ h]
    exact List.drop_eq_getElem_cons h
  rw [hd, List.set_cons_zero, List.length_append, List.length_singleton, List.append_assoc]
  rfl

theorem stored_getD (old cur : List Nat) (i : Nat) (h : i < cur.length) :
    (stored old cur).getD i 0 = cur.getD i 0 := by
  unfold stored
  exact List.getD_append _ _ _ _ h

theorem stored_length (old cur : List Nat) (h : cur.length ≤ old.length) :
    (stored old cur).length = old.length := by
  unfold stored
  rw [List.length_append, List.length_drop]
  omega

theorem recvStore_evt (t : NxtLcd) (old cur : List Nat) (b : Nat)
    (hr : t.recvBuf = BufId.evtBuf) (hb : t.evtBuf = stored old cur)
    (ho : old.length = NXT_EV_BUF_SIZE) (hl : cur.length < NXT_EV_BUF_SIZE) :
    recvStore t cur.length b = .ok { t with evtBuf := stored old (cur ++ [b]) } := by
  have hl2 : cur.length < capacity t.recvBuf := by rw [hr]; exact hl
  unfold recvStore
  rw [if_pos hl2]
  congr 1
  rw [hr]
  simp only [setBuf, bufOf, hb, stored_set old cur b (by rw [ho]; exact hl)]
  rw [hr]

/-- Loop test of `readBuf` read off the image of `evtBuf` agrees with `endsFrame`. -/
theorem term_test_evt (t : NxtLcd) (old cur : List Nat) (b : Nat)
    (hr : t.recvBuf = BufId.evtBuf) (hb : t.evtBuf = stored old (cur ++ [b]))
    (he : t.expLen = expLenOf ((cur ++ [b]).getD 0 0)) :
    (t.expLen ≤ cur.length ∧ t.recvAt cur.length = 0xFF ∧
      t.recvAt (cur.length - 1) = 0xFF ∧ t.recvAt (cur.length - 2) = 0xFF) ↔
    endsFrame (cur ++ [b]) := by
  have h0 : (cur ++ [b]).length = cur.length + 1 := by simp
  have e1 : t.recvAt cur.length = (cur ++ [b]).getD cur.length 0 := by
    unfold recvAt; rw [hr]; simp only [bufOf, hb]; exact stored_getD _ _ _ (by omega)
  have e2 : t.recvAt (cur.length - 1) = (cur ++ [b]).getD (cur.length - 1) 0 := by
    unfold recvAt; rw [hr]; simp only [bufOf, hb]; exact stored_getD _ _ _ (by omega)
  have e3 : t.recvAt (cur.length - 2) = (cur ++ [b]).getD (cur.length - 2) 0 := by
    unfold recvAt; rw [hr]; simp only [bufOf, hb]; exact stored_getD _ _ _ (by omega)
  unfold endsFrame
  rw [e1, e2, e3, he, h0]
  have a1 : cur.length + 1 - 1 = cur.length := by omega
  have a2 : cur.length + 1 - 2 = cur.length - 1 := by omega
  have a3 : cur.length + 1 - 3 = cur.length - 2 := by omega
  rw [a1, a2, a3]

/-- Event-path state after the store and the expected-length switch of one loop turn. -/
theorem head_state_evt (t : NxtLcd) (old cur rest : List Nat) (b : Nat)
    (hr : t.recvBuf = BufId.evtBuf)
    (he : cur ≠ [] → t.expLen = expLenOf (cur.getD 0 0)) :
    (if cur.length = 0 then
        { ({ t with rx := rest, evtBuf := stored old (cur ++ [b]) } : NxtLcd) with
          expLen := expLenOf (recvAt { t with rx := rest, evtBuf := stored old (cur ++ [b]) } 0) }
      else { t with rx := rest, evtBuf := stored old (cur ++ [b]) }) =
    { t with rx := rest, evtBuf := stored old (cur ++ [b]),
             expLen := expLenOf ((cur ++ [b]).getD 0 0) } := by
  cases cur with
  | nil =>
    have : recvAt { t with rx := rest, evtBuf := stored old ([] ++ [b]) } 0 = b := by
      unfold recvAt
      simp only [hr, bufOf]
      rfl
    simp only [List.length_nil, if_true, this]
    rfl
  | cons a l =>
    have h1 := he (by simp)
    have h2 : ((a :: l) ++ [b]).getD 0 0 = (a :: l).getD 0 0 := rfl
    rw [h2, ← h1]
    simp

/-- One turn of the event-path loop from an `evtBuf` holding `cur`. -/
theorem readLoop_head_evt (t : NxtLcd) (old cur rest : List Nat) (b ret : Nat)
    (hr : t.recvBuf = BufId.evtBuf) (hb : t.evtBuf = stored old cur)
    (ho : old.length = NXT_EV_BUF_SIZE)
    (he : cur ≠ [] → t.expLen = expLenOf (cur.getD 0 0)) (hl : cur.length < NXT_EV_BUF_SIZE) :
    readLoop 1 (b :: rest) cur.length ret t =
      if endsFrame (cur ++ [b]) then
        .ok (finishFrame (classify
          { t with rx := rest, evtBuf := stored old (cur ++ [b]),
                   expLen := expLenOf ((cur ++ [b]).getD 0 0) } cur.length))
      else if cur.length + 1 = NXT_EV_BUF_SIZE then
        .ok (bufOvfl,
          { t with rx := rest, evtBuf := List.replicate NXT_EV_BUF_SIZE 0, cntStatic := 0,
                   expLen := expLenOf ((cur ++ [b]).getD 0 0) })
      else
        readLoop 1 rest (cur.length + 1) noComplete (scannedEv t old (cur ++ [b]) rest) := by
  rw [readLoop]
  rw [recvStore_evt { t with rx := rest } old cur b hr hb ho hl]
  simp only []
  rw [head_state_evt t old cur rest b hr he]
  have key := term_test_evt
    { t with rx := rest, evtBuf := stored old (cur ++ [b]),
             expLen := expLenOf ((cur ++ [b]).getD 0 0) } old cur b hr rfl rfl
  by_cases hE : endsFrame (cur ++ [b])
  · rw [if_pos (key.mpr hE), if_pos hE]
  · rw [if_neg (fun h => hE (key.mp h)), if_neg hE]
    have hm : (cur.length + 1) % 65536 = cur.length + 1 := by
      apply Nat.mod_eq_of_lt
      unfold NXT_EV_BUF_SIZE at hl
      omega
    simp only [hm, gt_iff_lt, Nat.lt_one_iff, Nat.one_pos, if_true]
    by_cases h10 : cur.length + 1 = NXT_EV_BUF_SIZE
    · rw [if_pos h10, if_pos h10]
      have hlen : (stored old (cur ++ [b])).length = NXT_EV_BUF_SIZE := by
        rw [stored_length _ _ (by
          simp only [List.length_append, List.length_singleton]; omega), ho]
      unfold memsetZero
      rw [hr]
      simp only [capacity, le_refl, if_true, setBuf, bufOf]
      rw [List.drop_of_length_le (le_of_eq hlen), List.append_nil]
    · rw [if_neg h10, if_neg h10]
      unfold scannedEv
      simp only [List.length_append, List.length_singleton]

/-- The event-path loop walks over bytes among which no frame ends. -/
theorem readLoop_scan_evt (old mid : List Nat) :
    ∀ (t : NxtLcd) (cur rest : List Nat) (ret : Nat),
    t.recvBuf = BufId.evtBuf → t.evtBuf = stored old cur → old.length = NXT_EV_BUF_SIZE →
    (cur ≠ [] → t.expLen = expLenOf (cur.getD 0 0)) →
    cur.length + mid.length < NXT_EV_BUF_SIZE →
    (∀ j, j < mid.length → ¬ endsFrame (cur ++ mid.take (j + 1))) →
    mid ≠ [] →
    readLoop 1 (mid ++ rest) cur.length ret t =
      readLoop 1 rest (cur.length + mid.length) noComplete
        (scannedEv t old (cur ++ mid) rest) := by
  induction mid with
  | nil => intro t cur rest ret _ _ _ _ _ _ h; exact absurd rfl h
  | cons b mid ih =>
    intro t cur rest ret hr hb ho he hl hno _
    have hl1 : cur.length < NXT_EV_BUF_SIZE := by
      simp only [List.length_cons] at hl; omega
    have h0 : ¬ endsFrame (cur ++ [b]) := hno 0 (by simp)
    have hne : ¬ (cur.length + 1 = NXT_EV_BUF_SIZE) := by
      simp only [List.length_cons] at hl; omega
    rw [List.cons_append, readLoop_head_evt t old cur (mid ++ rest) b ret hr hb ho he hl1,
      if_neg h0, if_neg hne]
    cases mid with
    | nil => rfl
    | cons c mid2 =>
      have hlen : (cur ++ [b]).length = cur.length + 1 := by simp
      have step := ih (scannedEv t old (cur ++ [b]) (c :: mid2 ++ rest)) (cur ++ [b]) rest
        noComplete hr rfl ho (fun _ => rfl)
        (by rw [hlen]; simp only [List.length_cons] at hl ⊢; omega)
        (by
          intro j hj
          have := hno (j + 1) (by simp only [List.length_cons] at hj ⊢; omega)
          simpa [List.take_succ_cons, List.append_assoc] using this)
        (by simp)
      rw [hlen] at step
      rw [step]
      have e1 : cur ++ [b] ++ c :: mid2 = cur ++ b :: c :: mid2 := by simp
      have e2 : cur.length + 1 + (c :: mid2).length = cur.length + (b :: c :: mid2).length := by
        simp only [List.length_cons]; omega
      rw [e1, e2]
      rfl


/-- The event-path loop on bytes that complete a frame begun by the stored bytes `cur`. -/
theorem readLoop_frame_evt (t : NxtLcd) (old cur mid rest : List Nat) (ret : Nat)
    (hr : t.recvBuf = BufId.evtBuf) (hb : t.evtBuf = stored old cur)
    (ho : old.length = NXT_EV_BUF_SIZE)
    (he : cur ≠ [] → t.expLen = expLenOf (cur.getD 0 0)) (hc : t.cntStatic = cur.length)
    (hmid : mid ≠ []) (hE : endsFrame (cur ++ mid))
    (hN : ∀ j, j + 1 < mid.length → ¬ endsFrame (cur ++ mid.take (j + 1)))
    (hL : (cur ++ mid).length ≤ NXT_EV_BUF_SIZE) :
    readLoop 1 (mid ++ rest) cur.length ret t =
      .ok (finishFrame (classify (landedEv t old (cur ++ mid) rest)
        ((cur ++ mid).length - 1))) := by
  obtain ⟨pre, b, rfl⟩ : ∃ pre b, mid = pre ++ [b] :=
    ⟨mid.dropLast, mid.getLast hmid, (List.dropLast_append_getLast hmid).symm⟩
  have hlen : (cur ++ (pre ++ [b])).length = cur.length + pre.length + 1 := by
    simp only [List.length_append, List.length_singleton]; omega
  rw [hlen] at hL
  have hassoc : cur ++ (pre ++ [b]) = (cur ++ pre) ++ [b] := by rw [List.append_assoc]
  have hcp : (cur ++ pre).length = cur.length + pre.length := by simp
  by_cases hpre : pre = []
  · subst hpre
    simp only [List.nil_append, List.append_nil] at *
    rw [List.singleton_append, readLoop_head_evt t old cur rest b ret hr hb ho he (by omega),
      if_pos hE]
    have e : (cur ++ [b]).length - 1 = cur.length := by
      simp only [List.length_append, List.length_singleton]; omega
    rw [e]
    unfold landedEv
    rw [e, ← hc]
  · have scan := readLoop_scan_evt old pre t cur ([b] ++ rest) ret hr hb ho he (by omega)
      (by
        intro j hj
        have := hN j (by simp only [List.length_append, List.length_singleton]; omega)
        rw [List.take_append_of_le_length (by omega)] at this
        exact this)
      hpre
    rw [List.append_assoc, scan, List.singleton_append, ← hcp,
      readLoop_head_evt (scannedEv t old (cur ++ pre) (b :: rest)) old (cur ++ pre) rest b
        noComplete hr rfl ho (fun _ => rfl) (by rw [hcp]; omega),
      if_pos (by rw [← hassoc]; exact hE)]
    have e : (cur ++ (pre ++ [b])).length - 1 = (cur ++ pre).length := by
      rw [hlen, hcp]; omega
    rw [e, hassoc]
    unfold landedEv scannedEv
    have e2 : (cur ++ pre ++ [b]).length - 1 = (cur ++ pre).length := by
      rw [← hassoc]; exact e
    rw [e2]

theorem recvAt_landedEv (t : NxtLcd) (old f rest : List Nat) (i : Nat)
    (hr : t.recvBuf = BufId.evtBuf) (hi : i < f.length) :
    (landedEv t old f rest).recvAt i = f.getD i 0 := by
  unfold recvAt landedEv
  simp only [hr, bufOf]
  exact stored_getD old f i hi

theorem finished_evtBuf (s : NxtLcd) (cnt : Nat) :
    (finishFrame (classify s cnt)).2.evtBuf = s.evtBuf := by
  obtain ⟨_, w, hw⟩ := finishFrame_keeps (classify s cnt)
  obtain ⟨w2, l, g, e, hc⟩ := classify_keeps s cnt
  rw [hw, hc]

/-- The event decoded from the image of `evtBuf` is the event decoded from the frame: the
bytes `decodeEvent` reads lie inside the frame. -/
theorem decodeEvent_stored (old f : List Nat) (hf : endsFrame f) :
    decodeEvent (stored old f) = decodeEvent f := by
  have h4 := endsFrame_length f hf
  have g : ∀ k, k < f.length → (stored old f).getD k 0 = f.getD k 0 :=
    fun k hk => stored_getD old f k hk
  unfold decodeEvent
  rw [g 0 (by omega)]
  by_cases h65 : f.getD 0 0 = cmdTouchCompEv
  · simp only [if_pos h65]
    rw [g 1 (by omega), g 2 (by omega), g 3 (by omega)]
  · simp only [if_neg h65]
    by_cases hxy : f.getD 0 0 = cmdTouchXYaw ∨ f.getD 0 0 = cmdTouchXYsl
    · have h9 : 9 ≤ f.length := by
        have := hf.1
        have e8 : expLenOf (f.getD 0 0) = 8 := by
          rcases hxy with e | e <;> (rw [e]; decide)
        omega
      simp only [if_pos hxy]
      rw [g 1 (by omega), g 2 (by omega), g 3 (by omega), g 4 (by omega), g 5 (by omega)]
    · simp only [if_neg hxy]
      rw [g 1 (by omega)]

/-- An event frame has at most nine bytes. -/
theorem eventFrame_length (f : List Nat) (hf : EventFrame f) : f.length ≤ 9 := by
  obtain ⟨hc, hev⟩ := hf
  have h4 := endsFrame_length f hc.1
  have hop := frameCode_event f hc hev
  have r0 : (landed idle f []).recvAt 0 = f.getD 0 0 :=
    recvAt_landed idle f [] 0 rfl (by omega)
  have hin : f.length - 1 ∈ entryPos (f.getD 0 0) := by
    by_contra hno
    have hne : f.getD 0 0 ≠ cmdGetStr := by
      intro e; rw [e] at hop; revert hop; decide
    have hu := classify_unknown (landed idle f []) (f.getD 0 0) (f.length - 1) r0
      (Or.inr ⟨hne, hno⟩)
    have hu2 : frameCode f = replyUnknown := hu
    rw [hu2] at hev
    revert hev; decide
  have hle : ∀ k ∈ entryPos (f.getD 0 0), k ≤ 8 := by
    simp only [eventOpcodes, List.mem_cons, List.mem_singleton, List.not_mem_nil,
      or_false] at hop
    rcases hop with e | e | e | e | e | e <;> (rw [e]; decide)
  have := hle _ hin
  omega


/-! ## Event frames through `readEvent` and `ckEvents` -/

/-- The event drain `readEvent()` on a line that starts with an event frame, no partial frame
being held over: the frame is consumed and decoded into the event slot, the flag is raised,
everything else a command needs is left alone. -/
theorem readEvent_event (s : NxtLcd) (f rest : List Nat) (h : Fresh s)
    (hrx : s.rx = f ++ rest) (hf : EventFrame f) :
    ∃ s', readEvent none s = .ok (frameCode f, s') ∧ Fresh s' ∧ Outside s s' ∧
      s'.rx = rest ∧ s'.haveEvent = 1 ∧ s'.lastEvent = decodeEvent f ∧
      s'.sendBuf = s.sendBuf := by
  obtain ⟨⟨hi, hr, hsl, hel⟩, hc⟩ := h
  obtain ⟨hcf, hev⟩ := hf
  have h4 := endsFrame_length f hcf.1
  have h9 := eventFrame_length f ⟨hcf, hev⟩
  have hne : f ≠ [] := by intro h0; rw [h0] at h4; simp at h4
  have h10 : NXT_EV_BUF_SIZE = 10 := rfl
  -- the read
  have hloop := readLoop_frame_evt { s with recvBuf := BufId.evtBuf } s.evtBuf [] f rest
    noReply rfl rfl hel (fun h0 => absurd rfl h0) hc hne hcf.1
    (by
      intro j hj
      exact hcf.2.1 j (by omega))
    (by simp only [List.nil_append]; omega)
  simp only [List.nil_append, List.length_nil] at hloop
  have hrb : readBuf 1 { s with recvBuf := BufId.evtBuf } =
      .ok (finishFrame (classify
        (landedEv { s with recvBuf := BufId.evtBuf } s.evtBuf f rest) (f.length - 1))) := by
    unfold readBuf
    rw [if_neg (show ¬ s.initialized = 0 from hi), if_pos (by decide)]
    have e1 : ∀ (l : List Nat) (c : Nat), l = f ++ rest → c = 0 →
        readLoop 1 l c noReply { s with recvBuf := BufId.evtBuf } =
          .ok (finishFrame (classify
            (landedEv { s with recvBuf := BufId.evtBuf } s.evtBuf f rest) (f.length - 1))) := by
      intro l c hl hc0
      rw [hl, hc0]
      exact hloop
    exact e1 s.rx s.cntStatic hrx hc
  -- its code
  have hcode : (finishFrame (classify
      (landedEv { s with recvBuf := BufId.evtBuf } s.evtBuf f rest) (f.length - 1))).1 =
      frameCode f := by
    rw [(finishFrame_keeps _).1]
    unfold frameCode
    apply classify_code_congr
    · rw [recvAt_landedEv _ _ f rest 0 rfl (by omega), recvAt_landed idle f [] 0 rfl (by omega)]
    · rw [recvAt_landedEv _ _ f rest 1 rfl (by omega), recvAt_landed idle f [] 1 rfl (by omega)]
    · rw [recvAt_landedEv _ _ f rest 2 rfl (by omega), recvAt_landed idle f [] 2 rfl (by omega)]
  generalize hX : finishFrame (classify
      (landedEv { s with recvBuf := BufId.evtBuf } s.evtBuf f rest) (f.length - 1)) = X
    at hrb hcode
  have k := finished_kept (landedEv { s with recvBuf := BufId.evtBuf } s.evtBuf f rest)
    (f.length - 1)
  have krx := finished_rx (landedEv { s with recvBuf := BufId.evtBuf } s.evtBuf f rest)
    (f.length - 1)
  have kc := finished_cntStatic (landedEv { s with recvBuf := BufId.evtBuf } s.evtBuf f rest)
    (f.length - 1)
  have ke := finished_evtBuf (landedEv { s with recvBuf := BufId.evtBuf } s.evtBuf f rest)
    (f.length - 1)
  rw [hX] at k krx kc ke
  have hsz : Sized X.2 := ⟨k.sendLen.trans hsl, by
    rw [ke]
    show (stored s.evtBuf f).length = _
    rw [stored_length _ _ (by omega), hel]⟩
  obtain ⟨o, sb, srx, sc, she, sle⟩ := storeEvent_outside X.2 BufId.evtBuf hsz
  have hres : readEvent none s = .ok (frameCode f,
      { storeEvent X.2 BufId.evtBuf with recvBuf := BufId.sendBuf }) := by
    unfold readEvent
    rw [if_neg hi]
    simp only [hrb]
    rw [hcode, if_pos hev]
  refine ⟨_, hres, ⟨⟨?_, rfl, ?_, ?_⟩, ?_⟩, ⟨?_, ?_, ?_, ?_, hr.symm, ?_, ?_, ?_, ?_⟩, ?_, she, ?_,
    ?_⟩
  · show (storeEvent X.2 BufId.evtBuf).initialized ≠ 0
    rw [o.initialized, k.initialized]; exact hi
  · show (storeEvent X.2 BufId.evtBuf).sendBuf.length = _
    rw [o.sendLen, k.sendLen]; exact hsl
  · show (storeEvent X.2 BufId.evtBuf).evtBuf.length = _
    rw [o.evtLen]; exact hsz.2
  · show (storeEvent X.2 BufId.evtBuf).cntStatic = 0
    rw [sc]; exact kc
  · show (storeEvent X.2 BufId.evtBuf).tx = _
    rw [o.tx, k.tx]; rfl
  · show (storeEvent X.2 BufId.evtBuf).script = _
    rw [o.script, k.script]; rfl
  · show (storeEvent X.2 BufId.evtBuf).initialized = _
    rw [o.initialized, k.initialized]; rfl
  · show (storeEvent X.2 BufId.evtBuf).debug = _
    rw [o.debug, k.debug]; rfl
  · show (storeEvent X.2 BufId.evtBuf).dispType = _
    rw [o.dispType, k.dispType]; rfl
  · show (storeEvent X.2 BufId.evtBuf).sysProp = _
    rw [o.sysProp, k.sysProp]; rfl
  · show (storeEvent X.2 BufId.evtBuf).sendBuf.length = _
    rw [o.sendLen, k.sendLen]; rfl
  · show (storeEvent X.2 BufId.evtBuf).evtBuf.length = _
    rw [o.evtLen, hsz.2, hel]
  · show (storeEvent X.2 BufId.evtBuf).rx = _
    rw [srx]; exact krx
  · show (storeEvent X.2 BufId.evtBuf).lastEvent = _
    rw [sle]
    show decodeEvent X.2.evtBuf = _
    rw [ke]
    exact decodeEvent_stored s.evtBuf f hcf.1
  · show (storeEvent X.2 BufId.evtBuf).sendBuf = _
    rw [sb, k.sendSame rfl]; rfl

/-- Method `ckEvents` with no event cached, on a line that starts with an event frame: it
returns 1 with the event of that frame, the flag is down again, the rest of the line is
untouched. -/
theorem ckEvents_event (x : nxtEvent_t) (s : NxtLcd) (f rest : List Nat) (h : Fresh s)
    (h0 : s.haveEvent = 0) (hrx : s.rx = f ++ rest) (hf : EventFrame f) :
    ∃ s', ckEvents x s = .ok (1, decodeEvent f, s') ∧ Fresh s' ∧ Outside s s' ∧
      s'.rx = rest ∧ s'.haveEvent = 0 ∧ s'.sendBuf = s.sendBuf := by
  obtain ⟨s1, e1, f1, o1, r1, he1, le1, sb1⟩ := readEvent_event s f rest h hrx hf
  refine ⟨{ s1 with haveEvent := 0 }, ?_, f1,
    ⟨o1.tx, o1.script, o1.initialized, o1.debug, o1.recvBuf, o1.dispType, o1.sysProp,
     o1.sendLen, o1.evtLen⟩, r1, rfl, sb1⟩
  unfold ckEvents
  rw [if_pos h0]
  simp only [e1]
  rw [if_pos he1, le1]

/-- Method `ckEvents` with no event cached and nothing on the line of a ready driver. -/
theorem ckEvents_quiet (x : nxtEvent_t) (s : NxtLcd) (h : Ready s) (h0 : s.haveEvent = 0)
    (hrx : s.rx = []) : ckEvents x s = .ok (0, x, s) := by
  unfold ckEvents
  rw [if_pos h0, readEvent_quiet s h hrx]
  simp only []
  rw [if_neg (by rw [h0]; decide)]

/-- Counterexample to C30 as stated: the touch frames of components 2 and 3 are on the line
when `ckEvents` is called; the call returns the event of the first frame, not of the second,
and the following call returns 1 with the event of the second. -/
theorem ckEvents_first_frame_first :
    (ckEvents ⟨0, 0, 0, 0⟩
      { idle with rx := [0x65, 1, 2, 1, 0xFF, 0xFF, 0xFF, 0x65, 1, 3, 0, 0xFF, 0xFF, 0xFF] }).map
        (fun r => (r.1, r.2.1, r.2.2.rx)) =
      .ok (1, ⟨0x65, 1, 2, 1⟩, [0x65, 1, 3, 0, 0xFF, 0xFF, 0xFF]) ∧
    decodeEvent [0x65, 1, 3, 0, 0xFF, 0xFF, 0xFF] = ⟨0x65, 1, 3, 0⟩ ∧
    (ckEvents ⟨0, 0, 0, 0⟩
      { idle with rx := [0x65, 1, 3, 0, 0xFF, 0xFF, 0xFF] }).map (fun r => (r.1, r.2.1)) =
      .ok (1, ⟨0x65, 1, 3, 0⟩) := by
  decide

/-- C30, amended: no event is cached, no partial frame is held over, and two event frames
`e1`, `e2` are on the line, one behind the other, when `ckEvents` is called.  The call
returns 1 with the event of `e1` and leaves `e2` on the line; the following call returns 1
with the event of `e2`; a third call, with no further input, returns 0 and leaves the
caller's struct alone. -/
theorem ckEvents_back_to_back (x y z : nxtEvent_t) (e1 e2 : List Nat) (s : NxtLcd)
    (h : Fresh s) (h0 : s.haveEvent = 0) (hrx : s.rx = e1 ++ e2) (h1 : EventFrame e1)
    (h2 : EventFrame e2) :
    ∃ s1 s2, ckEvents x s = .ok (1, decodeEvent e1, s1) ∧ s1.rx = e2 ∧
      ckEvents y s1 = .ok (1, decodeEvent e2, s2) ∧ s2.rx = [] ∧
      ckEvents z s2 = .ok (0, z, s2) := by
  obtain ⟨s1, c1, f1, _, r1, he1, _⟩ := ckEvents_event x s e1 e2 h h0 hrx h1
  obtain ⟨s2, c2, f2, _, r2, he2, _⟩ := ckEvents_event y s1 e2 [] f1 he1
    (by rw [r1, List.append_nil]) h2
  exact ⟨s1, s2, c1, r1, c2, r2, ckEvents_quiet z s2 f2.1 he2 r2⟩

/-- Instance of C30 (amended): a touch frame followed by a sleep frame. -/
theorem ckEvents_back_to_back_witness :
    Fresh { idle with rx := [0x65, 1, 2, 1, 0xFF, 0xFF, 0xFF] ++ [0x86, 0xFF, 0xFF, 0xFF] } ∧
    ({ idle with rx := [0x65, 1, 2, 1, 0xFF, 0xFF, 0xFF] ++ [0x86, 0xFF, 0xFF, 0xFF] }
      : NxtLcd).haveEvent = 0 ∧
    EventFrame [0x65, 1, 2, 1, 0xFF, 0xFF, 0xFF] ∧ EventFrame [0x86, 0xFF, 0xFF, 0xFF] ∧
    decodeEvent [0x65, 1, 2, 1, 0xFF, 0xFF, 0xFF] = ⟨0x65, 1, 2, 1⟩ ∧
    decodeEvent [0x86, 0xFF, 0xFF, 0xFF] = ⟨0x86, 0, 0, 0⟩ ∧
    ∃ s1 s2, ckEvents ⟨0, 0, 0, 0⟩
        { idle with rx := [0x65, 1, 2, 1, 0xFF, 0xFF, 0xFF] ++ [0x86, 0xFF, 0xFF, 0xFF] } =
        .ok (1, decodeEvent [0x65, 1, 2, 1, 0xFF, 0xFF, 0xFF], s1) ∧
      s1.rx = [0x86, 0xFF, 0xFF, 0xFF] ∧
      ckEvents ⟨0, 0, 0, 0⟩ s1 = .ok (1, decodeEvent [0x86, 0xFF, 0xFF, 0xFF], s2) ∧
      s2.rx = [] ∧
      ckEvents ⟨9, 9, 9, 9⟩ s2 = .ok (0, ⟨9, 9, 9, 9⟩, s2) :=
  ⟨by decide, by decide, by decide, by decide, by decide, by decide,
   ckEvents_back_to_back ⟨0, 0, 0, 0⟩ ⟨0, 0, 0, 0⟩ ⟨9, 9, 9, 9⟩
     [0x65, 1, 2, 1, 0xFF, 0xFF, 0xFF] [0x86, 0xFF, 0xFF, 0xFF]
     { idle with rx := [0x65, 1, 2, 1, 0xFF, 0xFF, 0xFF] ++ [0x86, 0xFF, 0xFF, 0xFF] }
     (by decide) (by decide) rfl (by decide) (by decide)⟩


/-! ## Waveform channels -/

/-- C36: `clearWaveCh(1, 0)` on the idle driver.  The AVR build writes `cle 1,0` and the
terminator; every other build writes `add 1,0` and the terminator, the format of that branch
being `add %u,%u`.  Both builds accept channel 255 and return `invalidData` for channel 4
without writing. -/
theorem clearWaveCh_sends_add :
    (stateOf idle (clearWaveCh true 1 0 idle)).tx = ascii "cle 1,0" ++ [0xFF, 0xFF, 0xFF] ∧
    (stateOf idle (clearWaveCh false 1 0 idle)).tx = ascii "add 1,0" ++ [0xFF, 0xFF, 0xFF] ∧
    (clearWaveCh false 1 0 idle).map Prod.fst = .ok replyCmdOk ∧
    (stateOf idle (clearWaveCh true 1 255 idle)).tx = ascii "cle 1,255" ++ [0xFF, 0xFF, 0xFF] ∧
    (stateOf idle (clearWaveCh false 1 255 idle)).tx =
      ascii "add 1,255" ++ [0xFF, 0xFF, 0xFF] ∧
    clearWaveCh true 1 4 idle = .ok (invalidData, idle) ∧
    clearWaveCh false 1 4 idle = .ok (invalidData, idle) := by
  decide

/-- C33: `addWaveBytes(1, 0, bytes, len)` on the idle driver, every header answered with
`FE FF FF FF` and every chunk with `FD FF FF FF`.  With the first 256 wave points the two
chunks written are the two halves of the array.  With all 257 the call returns `replyCmdOk`
and announces chunks of 128, 128 and 1 bytes, but the third chunk is `bytes[0] = 0`, not
`bytes[256] = 0xAA`: the offset `cnt` is a `uint8_t` and is back at 0 after 256 bytes. -/
theorem addWaveBytes_offset_wraps :
    (stateOf idle (addWaveBytes 1 0 (wavePoints.take 256) 256
        (answering [tdReady, tdEnd, tdReady, tdEnd]))).tx =
      addtText 1 0 128 ++ wavePoints.take 128 ++
        (addtText 1 0 128 ++ (wavePoints.drop 128).take 128) ∧
    (addWaveBytes 1 0 wavePoints 257
        (answering [tdReady, tdEnd, tdReady, tdEnd, tdReady, tdEnd])).map Prod.fst =
      .ok replyCmdOk ∧
    (stateOf idle (addWaveBytes 1 0 wavePoints 257
        (answering [tdReady, tdEnd, tdReady, tdEnd, tdReady, tdEnd]))).tx =
      addtText 1 0 128 ++ wavePoints.take 128 ++
        (addtText 1 0 128 ++ (wavePoints.drop 128).take 128) ++
        (addtText 1 0 1 ++ [0]) ∧
    wavePoints.length = 257 ∧ wavePoints.drop 256 = [0xAA] := by
  decide


/-! ## Looking a property up by name -/

theorem getPropCnt_cases (s : NxtLcd) :
    (s.dispType = nxt_basic ∧ getPropCnt s = 19) ∨
      (s.dispType ≠ nxt_basic ∧ getPropCnt s = 26) := by
  unfold getPropCnt
  by_cases h : s.dispType = nxt_basic
  · left; exact ⟨h, by rw [if_pos h]; rfl⟩
  · right
    refine ⟨h, ?_⟩
    rw [if_neg h]
    by_cases h2 : s.dispType = nxt_enhanced
    · rw [if_pos h2]; rfl
    · rw [if_neg h2]; rfl

theorem chkLoop_table :
    (∀ i, i < 26 → chkLoop (sysPropNames.getD i []) (sysPropNames.take 19) 0 =
      if i < 19 then i else 255) ∧
    (∀ i, i < 26 → chkLoop (sysPropNames.getD i []) (sysPropNames.take 26) 0 = i) ∧
    (∀ i, i < 19 → (sysPropNames.take 19).getD i [] = sysPropNames.getD i []) ∧
    (∀ i, i < 26 → (sysPropNames.take 26).getD i [] = sysPropNames.getD i []) := by
  decide

theorem chkProperty_name_index (i : Nat) (s : NxtLcd) (hi : i < sysPropLen) :
    chkProperty (.name (sysPropNames.getD i [])) s = if i < getPropCnt s then i else 255 := by
  have hi2 : i < 26 := hi
  show chkLoop (sysPropNames.getD i []) (sysPropNames.take (getPropCnt s)) 0 = _
  rcases getPropCnt_cases s with ⟨_, e⟩ | ⟨_, e⟩
  · rw [e]; exact chkLoop_table.1 i hi2
  · rw [e, if_pos hi2]; exact chkLoop_table.2.1 i hi2

theorem take_names_getD (i : Nat) (s : NxtLcd) (hi : i < getPropCnt s) :
    (sysPropNames.take (getPropCnt s)).getD i [] = sysPropNames.getD i [] := by
  rcases getPropCnt_cases s with ⟨_, e⟩ | ⟨_, e⟩
  · rw [e] at hi ⊢; exact chkLoop_table.2.2.1 i hi
  · rw [e] at hi ⊢; exact chkLoop_table.2.2.2 i hi

theorem take_names_length (s : NxtLcd) :
    (sysPropNames.take (getPropCnt s)).length = getPropCnt s := by
  rcases getPropCnt_cases s with ⟨_, e⟩ | ⟨_, e⟩ <;> rw [e] <;> decide

theorem chkProperty_name_spec (prop : List Nat) (s : NxtLcd) (hp : ∀ x ∈ prop, x ≠ 0) :
    (prop ∉ sysPropNames.take (getPropCnt s) → chkProperty (.name prop) s = 255) ∧
    (prop ∈ sysPropNames.take (getPropCnt s) →
      chkProperty (.name prop) s < getPropCnt s ∧
      sysPropNames.getD (chkProperty (.name prop) s) [] = prop) := by
  have h := chkLoop_spec prop hp (sysPropNames.take (getPropCnt s)) 0
    (take_names_short (getPropCnt s))
  refine ⟨h.1, fun hm => ?_⟩
  obtain ⟨k, hk, e, g⟩ := h.2 hm
  rw [take_names_length] at hk
  have e2 : chkProperty (.name prop) s = k := by
    show chkLoop prop (sysPropNames.take (getPropCnt s)) 0 = k
    rw [e]; omega
  rw [e2]
  exact ⟨hk, by rw [← take_names_getD k s hk]; exact g⟩

/-- Looking a property name up is exact and inverse to the index.  The count `n` is 19 on a
basic display and 26 on every other one.  For every C string `prop`: the result of
`chkProperty(prop)` is an index below `n` or 255; for `i < n` it is `i` exactly when `prop`
equals the `i`-th entry of `sysPropNames` (so `dim` gives 1 and `dims` gives 2); it is 255
when `prop` equals none of the first `n` entries.  For every index `i` of the table,
`setProperty` with the `i`-th name, on any build, is the same run as `setProperty(i, v)` on a
build other than AVR: same result, same bytes written, same cache afterwards. -/
theorem chkProperty_exact (avr : Bool) (ram : Nat → List Nat) (prop : List Nat) (v i : Nat)
    (s : NxtLcd) (hp : CStr prop) :
    getPropCnt s = (if s.dispType = nxt_basic then 19 else 26) ∧
    (chkProperty (.name prop) s < getPropCnt s ∨ chkProperty (.name prop) s = 255) ∧
    (i < getPropCnt s →
      (chkProperty (.name prop) s = i ↔ prop = sysPropNames.getD i [])) ∧
    ((∀ j, j < getPropCnt s → prop ≠ sysPropNames.getD j []) →
      chkProperty (.name prop) s = 255) ∧
    chkProperty (.name (ascii "dim")) s = 1 ∧ chkProperty (.name (ascii "dims")) s = 2 ∧
    (i < sysPropLen →
      setProperty avr ram (.name (sysPropNames.getD i [])) v s =
        setProperty false ram (.id i) v s) := by
  have hz := nz_cstr prop hp
  have sp := chkProperty_name_spec prop s hz
  have hn : getPropCnt s < 255 := lt_of_le_of_lt (getPropCnt_le s) (by decide)
  refine ⟨?_, ?_, ?_, ?_, ?_, ?_, ?_⟩
  · rcases getPropCnt_cases s with ⟨d, e⟩ | ⟨d, e⟩
    · rw [e, if_pos d]
    · rw [e, if_neg d]
  · by_cases hm : prop ∈ sysPropNames.take (getPropCnt s)
    · exact Or.inl (sp.2 hm).1
    · exact Or.inr (sp.1 hm)
  · intro hi
    constructor
    · intro e
      by_cases hm : prop ∈ sysPropNames.take (getPropCnt s)
      · have g := (sp.2 hm).2
        rw [e] at g
        exact g.symm
      · have := sp.1 hm
        omega
    · intro e
      rw [e, chkProperty_name_index i s (lt_of_lt_of_le hi (getPropCnt_le s)), if_pos hi]
  · intro hall
    apply sp.1
    intro hm
    have g := sp.2 hm
    exact hall _ g.1 g.2.symm
  · have := chkProperty_name_index 1 s (by decide)
    rw [if_pos (lt_of_lt_of_le (by decide) (getPropCnt_ge s))] at this
    exact this
  · have := chkProperty_name_index 2 s (by decide)
    rw [if_pos (lt_of_lt_of_le (by decide) (getPropCnt_ge s))] at this
    exact this
  · intro hi
    have e1 := chkProperty_name_index i s hi
    have e2 : chkProperty (.id i) s = if i < getPropCnt s then i else 255 := rfl
    have e3 : setPropText false ram (.id i) s =
        sysPropNames.getD (chkProperty (.id i) s) [] := rfl
    have e4 : setPropText avr ram (.name (sysPropNames.getD i [])) s =
        sysPropNames.getD i [] := rfl
    unfold setProperty
    rw [e1, e4, e3, e2]
    by_cases hlt : i < getPropCnt s
    · simp only [if_pos hlt]
    · simp only [if_neg hlt]
      simp

theorem chkProperty_exact_witness :
    CStr (ascii "dims") ∧
    (chkProperty (.name (ascii "dims")) idle = 2 ↔ ascii "dims" = sysPropNames.getD 2 []) ∧
    setProperty true (ramHolding []) (.name (sysPropNames.getD 2 [])) 50 idle =
      setProperty false (ramHolding []) (.id 2) 50 idle :=
  ⟨by decide,
   (chkProperty_exact true (ramHolding []) (ascii "dims") 50 2 idle (by decide)).2.2.1 (by decide),
   (chkProperty_exact true (ramHolding []) (ascii "dims") 50 2 idle (by decide)).2.2.2.2.2.2 (by decide)⟩


/-! ## Decoding of the event frames -/

theorem pair_big_endian (hi lo : Nat) (hh : hi < 256) (hl : lo < 256) :
    (lo ||| (hi <<< 8)) % 65536 = 256 * hi + lo := by
  have e : 2 ^ 8 * hi + lo = 2 ^ 8 * hi ||| lo := Nat.mul_add_lt_is_or (by omega) hi
  rw [Nat.or_comm, Nat.shiftLeft_eq, Nat.mul_comm, ← e]
  omega

theorem frameCode_touchXY (op a b c d e : Nat) (hop : op = 0x67 ∨ op = 0x68) :
    frameCode [op, a, b, c, d, e, 0xFF, 0xFF, 0xFF] = replyTouchEv := by
  have r0 : (landed idle [op, a, b, c, d, e, 0xFF, 0xFF, 0xFF] []).recvAt 0 = op :=
    recvAt_landed idle _ [] 0 rfl (by simp)
  unfold frameCode
  generalize landed idle [op, a, b, c, d, e, 0xFF, 0xFF, 0xFF] [] = X at r0 ⊢
  rcases hop with rfl | rfl <;>
    simp [classify, r0, cmdFail, cmdOk, cmdInvalidCid, cmdInvalidPage,
      cmdInvPicId, cmdInvFontId, cmdInvVar, cmdBufOvfl, cmdTouchCompEv, cmdDevReady,
      cmdTouchXYaw, cmdTouchXYsl]

theorem frameCode_sendme (pg : Nat) :
    frameCode [0x66, pg, 0xFF, 0xFF, 0xFF] = replySendMe := by
  have r0 : (landed idle [0x66, pg, 0xFF, 0xFF, 0xFF] []).recvAt 0 = 0x66 :=
    recvAt_landed idle _ [] 0 rfl (by simp)
  unfold frameCode
  generalize landed idle [0x66, pg, 0xFF, 0xFF, 0xFF] [] = X at r0 ⊢
  simp [classify, r0, cmdFail, cmdOk, cmdInvalidCid, cmdInvalidPage,
    cmdInvPicId, cmdInvFontId, cmdInvVar, cmdBufOvfl, cmdTouchCompEv, cmdDevReady,
    cmdTouchXYaw, cmdTouchXYsl, cmdSleepOn, cmdSleepOff, cmdGetStr, cmdGetNum, cmdSendme]

theorem eventFrame_touch (p c e : Nat) : EventFrame [0x65, p, c, e, 0xFF, 0xFF, 0xFF] :=
  ⟨completeFrame_fixed 0x65 [p, c, e] (by show expLenOf 0x65 = 3 + 3; decide)
    (by show 3 + 4 ≤ NXT_BUF_SIZE; decide), Or.inl (frameCode_touch p c e)⟩

theorem eventFrame_touchXY (op a b c d e : Nat) (hop : op = 0x67 ∨ op = 0x68) :
    EventFrame [op, a, b, c, d, e, 0xFF, 0xFF, 0xFF] :=
  ⟨completeFrame_fixed op [a, b, c, d, e]
    (by show expLenOf op = 5 + 3; rcases hop with rfl | rfl <;> decide)
    (by show 5 + 4 ≤ NXT_BUF_SIZE; decide),
    Or.inl (frameCode_touchXY op a b c d e hop)⟩

theorem eventFrame_sendme (pg : Nat) : EventFrame [0x66, pg, 0xFF, 0xFF, 0xFF] :=
  ⟨completeFrame_fixed 0x66 [pg] (by show expLenOf 0x66 = 1 + 3; decide)
    (by show 1 + 4 ≤ NXT_BUF_SIZE; decide), Or.inr (Or.inr (frameCode_sendme pg))⟩

theorem eventFrame_sleep (op : Nat) (hop : op = 0x86 ∨ op = 0x87) :
    EventFrame [op, 0xFF, 0xFF, 0xFF] := by
  rcases hop with rfl | rfl <;> decide

theorem decodeEvent_touchXY (op xh xl yh yl e : Nat) (hop : op = 0x67 ∨ op = 0x68)
    (h1 : xh < 256) (h2 : xl < 256) (h3 : yh < 256) (h4 : yl < 256) :
    decodeEvent [op, xh, xl, yh, yl, e, 0xFF, 0xFF, 0xFF] =
      ⟨op, 256 * xh + xl, 256 * yh + yl, e⟩ := by
  have ex := pair_big_endian xh xl h1 h2
  have ey := pair_big_endian yh yl h3 h4
  rcases hop with rfl | rfl <;>
    simp [decodeEvent, cmdTouchCompEv, cmdTouchXYaw, cmdTouchXYsl, ex, ey]

/-- Decoding of the event frames by `ckEvents` when no event is cached and no partial frame
is held over (`cntStatic = 0`); the line starts with the frame named (whatever follows stays on the
line).  `ckEvents` returns 1 and hands out: for `65 p c e FF FF FF` the event
`(0x65, p, c, e)`; for `op xh xl yh yl e FF FF FF` with `op` 0x67 or 0x68 the event
`(op, 256*xh + xl, 256*yh + yl, e)`; for `66 pg FF FF FF` the event `(0x66, pg, 0, 0)`; for
`86 FF FF FF` and `87 FF FF FF` the event `(op, 0, 0, 0)`. -/
theorem ckEvents_decodes (x : nxtEvent_t) (s : NxtLcd) (rest : List Nat)
    (op p c e xh xl yh yl pg : Nat) (h : Fresh s) (h0 : s.haveEvent = 0)
    (hx : xh < 256 ∧ xl < 256) (hy : yh < 256 ∧ yl < 256) :
    (s.rx = [0x65, p, c, e, 0xFF, 0xFF, 0xFF] ++ rest →
      ∃ s', ckEvents x s = .ok (1, ⟨0x65, p, c, e⟩, s') ∧ s'.rx = rest) ∧
    ((op = 0x67 ∨ op = 0x68) → s.rx = [op, xh, xl, yh, yl, e, 0xFF, 0xFF, 0xFF] ++ rest →
      ∃ s', ckEvents x s = .ok (1, ⟨op, 256 * xh + xl, 256 * yh + yl, e⟩, s') ∧
        s'.rx = rest) ∧
    (s.rx = [0x66, pg, 0xFF, 0xFF, 0xFF] ++ rest →
      ∃ s', ckEvents x s = .ok (1, ⟨0x66, pg, 0, 0⟩, s') ∧ s'.rx = rest) ∧
    ((op = 0x86 ∨ op = 0x87) → s.rx = [op, 0xFF, 0xFF, 0xFF] ++ rest →
      ∃ s', ckEvents x s = .ok (1, ⟨op, 0, 0, 0⟩, s') ∧ s'.rx = rest) := by
  refine ⟨fun hrx => ?_, fun hop hrx => ?_, fun hrx => ?_, fun hop hrx => ?_⟩
  · obtain ⟨s', e1, _, _, e2, _⟩ := ckEvents_event x s _ rest h h0 hrx (eventFrame_touch p c e)
    refine ⟨s', ?_, e2⟩
    rw [e1]
    have d : decodeEvent [0x65, p, c, e, 0xFF, 0xFF, 0xFF] = ⟨0x65, p, c, e⟩ := by
      simp [decodeEvent, cmdTouchCompEv]
    rw [d]
  · obtain ⟨s', e1, _, _, e2, _⟩ :=
      ckEvents_event x s _ rest h h0 hrx (eventFrame_touchXY op xh xl yh yl e hop)
    refine ⟨s', ?_, e2⟩
    rw [e1, decodeEvent_touchXY op xh xl yh yl e hop hx.1 hx.2 hy.1 hy.2]
  · obtain ⟨s', e1, _, _, e2, _⟩ := ckEvents_event x s _ rest h h0 hrx (eventFrame_sendme pg)
    refine ⟨s', ?_, e2⟩
    rw [e1]
    have d : decodeEvent [0x66, pg, 0xFF, 0xFF, 0xFF] = ⟨0x66, pg, 0, 0⟩ := by
      simp [decodeEvent, cmdTouchCompEv, cmdTouchXYaw, cmdTouchXYsl, cmdSleepOn, cmdSleepOff,
        cmdSendme]
    rw [d]
  · obtain ⟨s', e1, _, _, e2, _⟩ := ckEvents_event x s _ rest h h0 hrx (eventFrame_sleep op hop)
    refine ⟨s', ?_, e2⟩
    rw [e1]
    have d : decodeEvent [op, 0xFF, 0xFF, 0xFF] = ⟨op, 0, 0, 0⟩ := by
      rcases hop with rfl | rfl <;> decide
    rw [d]

theorem ckEvents_decodes_witness :
    Fresh { idle with rx := [0x67, 0x01, 0x2C, 0x00, 0xC8, 0x01, 0xFF, 0xFF, 0xFF] } ∧
    ({ idle with rx := [0x67, 0x01, 0x2C, 0x00, 0xC8, 0x01, 0xFF, 0xFF, 0xFF] } : NxtLcd).haveEvent
      = 0 ∧
    (∃ s', ckEvents ⟨0, 0, 0, 0⟩
        { idle with rx := [0x67, 0x01, 0x2C, 0x00, 0xC8, 0x01, 0xFF, 0xFF, 0xFF] } =
      .ok (1, ⟨0x67, 256 * 0x01 + 0x2C, 256 * 0x00 + 0xC8, 0x01⟩, s') ∧ s'.rx = []) :=
  ⟨by decide, by decide,
   (ckEvents_decodes ⟨0, 0, 0, 0⟩
      { idle with rx := [0x67, 0x01, 0x2C, 0x00, 0xC8, 0x01, 0xFF, 0xFF, 0xFF] } []
      0x67 0 0 0x01 0x01 0x2C 0x00 0xC8 0 (by decide) (by decide) (by decide)
      (by decide)).2.1 (by decide) (by decide)⟩


/-! ## Event frames that arrive in pieces -/

/-- Event-path `readBuf` through `readEvent()` when the bytes `cur` of an event frame are
held over from earlier calls and the line brings the rest `mid` of it: the frame is
classified, the event is stored, whatever follows stays on the line. -/
theorem readEvent_event_held (s : NxtLcd) (old cur mid rest : List Nat) (h : Ready s)
    (hb : s.evtBuf = stored old cur) (ho : old.length = NXT_EV_BUF_SIZE)
    (he : cur ≠ [] → s.expLen = expLenOf (cur.getD 0 0)) (hc : s.cntStatic = cur.length)
    (hrx : s.rx = mid ++ rest) (hmid : mid ≠ []) (hf : EventFrame (cur ++ mid)) :
    ∃ s', readEvent none s = .ok (frameCode (cur ++ mid), s') ∧ Fresh s' ∧ Outside s s' ∧
      s'.rx = rest ∧ s'.haveEvent = 1 ∧ s'.lastEvent = decodeEvent (cur ++ mid) ∧
      s'.sendBuf = s.sendBuf := by
  obtain ⟨hi, hr, hsl, hel⟩ := h
  obtain ⟨hcf, hev⟩ := hf
  have h4 := endsFrame_length (cur ++ mid) hcf.1
  have h9 := eventFrame_length (cur ++ mid) ⟨hcf, hev⟩
  have h10 : NXT_EV_BUF_SIZE = 10 := rfl
  have hloop := readLoop_frame_evt { s with recvBuf := BufId.evtBuf } old cur mid rest
    noReply rfl hb ho he hc hmid hcf.1
    (by
      intro j hj
      have := hcf.2.1 (cur.length + j) (by simp only [List.length_append]; omega)
      rw [show cur.length + j + 1 = cur.length + (j + 1) by omega, List.take_append] at this
      exact this)
    (by omega)
  have hrb : readBuf 1 { s with recvBuf := BufId.evtBuf } =
      .ok (finishFrame (classify
        (landedEv { s with recvBuf := BufId.evtBuf } old (cur ++ mid) rest)
        ((cur ++ mid).length - 1))) := by
    unfold readBuf
    rw [if_neg (show ¬ s.initialized = 0 from hi), if_pos (by decide)]
    have e1 : ∀ (l : List Nat) (c : Nat), l = mid ++ rest → c = cur.length →
        readLoop 1 l c noReply { s with recvBuf := BufId.evtBuf } =
          .ok (finishFrame (classify
            (landedEv { s with recvBuf := BufId.evtBuf } old (cur ++ mid) rest)
            ((cur ++ mid).length - 1))) := by
      intro l c hl hc0
      rw [hl, hc0]
      exact hloop
    exact e1 s.rx s.cntStatic hrx hc
  have hcode : (finishFrame (classify
      (landedEv { s with recvBuf := BufId.evtBuf } old (cur ++ mid) rest)
      ((cur ++ mid).length - 1))).1 = frameCode (cur ++ mid) := by
    rw [(finishFrame_keeps _).1]
    unfold frameCode
    apply classify_code_congr
    · rw [recvAt_landedEv _ _ (cur ++ mid) rest 0 rfl (by omega),
        recvAt_landed idle (cur ++ mid) [] 0 rfl (by omega)]
    · rw [recvAt_landedEv _ _ (cur ++ mid) rest 1 rfl (by omega),
        recvAt_landed idle (cur ++ mid) [] 1 rfl (by omega)]
    · rw [recvAt_landedEv _ _ (cur ++ mid) rest 2 rfl (by omega),
        recvAt_landed idle (cur ++ mid) [] 2 rfl (by omega)]
  generalize hX : finishFrame (classify
      (landedEv { s with recvBuf := BufId.evtBuf } old (cur ++ mid) rest)
      ((cur ++ mid).length - 1)) = X at hrb hcode
  have k := finished_kept (landedEv { s with recvBuf := BufId.evtBuf } old (cur ++ mid) rest)
    ((cur ++ mid).length - 1)
  have krx := finished_rx (landedEv { s with recvBuf := BufId.evtBuf } old (cur ++ mid) rest)
    ((cur ++ mid).length - 1)
  have kc := finished_cntStatic
    (landedEv { s with recvBuf := BufId.evtBuf } old (cur ++ mid) rest)
    ((cur ++ mid).length - 1)
  have ke := finished_evtBuf (landedEv { s with recvBuf := BufId.evtBuf } old (cur ++ mid) rest)
    ((cur ++ mid).length - 1)
  rw [hX] at k krx kc ke
  have hsz : Sized X.2 := ⟨k.sendLen.trans hsl, by
    rw [ke]
    show (stored old (cur ++ mid)).length = _
    rw [stored_length _ _ (by omega), ho]⟩
  obtain ⟨o, sb, srx, sc, she, sle⟩ := storeEvent_outside X.2 BufId.evtBuf hsz
  have hres : readEvent none s = .ok (frameCode (cur ++ mid),
      { storeEvent X.2 BufId.evtBuf with recvBuf := BufId.sendBuf }) := by
    unfold readEvent
    rw [if_neg hi]
    simp only [hrb]
    rw [hcode, if_pos hev]
  refine ⟨_, hres, ⟨⟨?_, rfl, ?_, ?_⟩, ?_⟩, ⟨?_, ?_, ?_, ?_, hr.symm, ?_, ?_, ?_, ?_⟩, ?_, she, ?_,
    ?_⟩
  · show (storeEvent X.2 BufId.evtBuf).initialized ≠ 0
    rw [o.initialized, k.initialized]; exact hi
  · show (storeEvent X.2 BufId.evtBuf).sendBuf.length = _
    rw [o.sendLen, k.sendLen]; exact hsl
  · show (storeEvent X.2 BufId.evtBuf).evtBuf.length = _
    rw [o.evtLen]; exact hsz.2
  · show (storeEvent X.2 BufId.evtBuf).cntStatic = 0
    rw [sc]; exact kc
  · show (storeEvent X.2 BufId.evtBuf).tx = _
    rw [o.tx, k.tx]; rfl
  · show (storeEvent X.2 BufId.evtBuf).script = _
    rw [o.script, k.script]; rfl
  · show (storeEvent X.2 BufId.evtBuf).initialized = _
    rw [o.initialized, k.initialized]; rfl
  · show (storeEvent X.2 BufId.evtBuf).debug = _
    rw [o.debug, k.debug]; rfl
  · show (storeEvent X.2 BufId.evtBuf).dispType = _
    rw [o.dispType, k.dispType]; rfl
  · show (storeEvent X.2 BufId.evtBuf).sysProp = _
    rw [o.sysProp, k.sysProp]; rfl
  · show (storeEvent X.2 BufId.evtBuf).sendBuf.length = _
    rw [o.sendLen, k.sendLen]; rfl
  · show (storeEvent X.2 BufId.evtBuf).evtBuf.length = _
    rw [o.evtLen, hsz.2, hel]
  · show (storeEvent X.2 BufId.evtBuf).rx = _
    rw [srx]; exact krx
  · show (storeEvent X.2 BufId.evtBuf).lastEvent = _
    rw [sle]
    show decodeEvent X.2.evtBuf = _
    rw [ke]
    exact decodeEvent_stored old (cur ++ mid) hcf.1
  · show (storeEvent X.2 BufId.evtBuf).sendBuf = _
    rw [sb, k.sendSame rfl]; rfl

/-- Event-path read through `readEvent()` when the line holds only the first bytes `a` of an
event frame: they are stored, the position and the expected length are kept for the next
call, and the result is `noComplete`. -/
theorem readEvent_first_part (s : NxtLcd) (a b : List Nat) (h : Fresh s) (hrx : s.rx = a)
    (ha : a ≠ []) (hb : b ≠ []) (hf : EventFrame (a ++ b)) :
    readEvent none s = .ok (noComplete,
      { s with rx := [], evtBuf := stored s.evtBuf a, cntStatic := a.length,
               expLen := expLenOf (a.getD 0 0) }) := by
  obtain ⟨⟨hi, hr, hsl, hel⟩, hc⟩ := h
  have h9 := eventFrame_length (a ++ b) hf
  have hbl : 0 < b.length := List.length_pos.mpr hb
  simp only [List.length_append] at h9
  have hscan := readLoop_scan_evt s.evtBuf a { s with recvBuf := BufId.evtBuf } [] [] noReply
    rfl rfl hel (fun h0 => absurd rfl h0)
    (by simp only [List.length_nil, Nat.zero_add]; show a.length < 10; omega)
    (by
      intro j hj
      have := hf.1.2.1 j (by simp only [List.length_append]; omega)
      rw [List.take_append_of_le_length (by omega)] at this
      simpa using this)
    ha
  simp only [List.nil_append, List.length_nil, Nat.zero_add, List.append_nil] at hscan
  have hrb : readBuf 1 { s with recvBuf := BufId.evtBuf } =
      .ok (noComplete, scannedEv { s with recvBuf := BufId.evtBuf } s.evtBuf a []) := by
    unfold readBuf
    rw [if_neg (show ¬ s.initialized = 0 from hi), if_pos (by decide)]
    have e1 : ∀ (l : List Nat) (c : Nat), l = a → c = 0 →
        readLoop 1 l c noReply { s with recvBuf := BufId.evtBuf } =
          .ok (noComplete, scannedEv { s with recvBuf := BufId.evtBuf } s.evtBuf a []) := by
      intro l c hl hc0
      rw [hl, hc0, hscan]
      rfl
    exact e1 s.rx s.cntStatic hrx hc
  unfold readEvent
  rw [if_neg hi]
  simp only [hrb]
  rw [if_neg (by decide)]
  cases s
  simp only at hr
  subst hr
  rfl


/-- The event drain keeps its place between calls when it starts at a frame boundary
(`cntStatic = 0`).  No event is cached, and an event frame `f` arrives in two non-empty pieces `a` and `b`.  `ckEvents`
with `a` on the line returns 0 and leaves the caller's struct alone; the next `ckEvents`,
with `b` on the line and no command in between, returns 1 with the event of `f`, which is
what a single `ckEvents` returns when all of `f` is on the line at once. -/
theorem ckEvents_split_frame (x y : nxtEvent_t) (f a b : List Nat) (s : NxtLcd)
    (h : Fresh s) (h0 : s.haveEvent = 0) (hf : EventFrame f) (hsplit : f = a ++ b)
    (ha : a ≠ []) (hb : b ≠ []) (hrx : s.rx = a) :
    ∃ s1 s2 s3,
      ckEvents x s = .ok (0, x, s1) ∧ s1.rx = [] ∧
      ckEvents y { s1 with rx := b } = .ok (1, decodeEvent f, s2) ∧ s2.rx = [] ∧
      ckEvents y { s with rx := f } = .ok (1, decodeEvent f, s3) ∧ s3.rx = [] := by
  subst hsplit
  have e1 := readEvent_first_part s a b h hrx ha hb hf
  obtain ⟨⟨hi, hr, hsl, hel⟩, hc⟩ := h
  have h9 := eventFrame_length (a ++ b) hf
  simp only [List.length_append] at h9
  have hbl : 0 < b.length := List.length_pos.mpr hb
  have hst : (stored s.evtBuf a).length = NXT_EV_BUF_SIZE := by
    rw [stored_length _ _ (by rw [hel]; show a.length ≤ 10; omega), hel]
  -- the second call
  obtain ⟨t2, r2, f2, _, rx2, he2, le2, _⟩ := readEvent_event_held
    { s with rx := b, evtBuf := stored s.evtBuf a, cntStatic := a.length,
             expLen := expLenOf (a.getD 0 0) }
    s.evtBuf a b [] ⟨hi, hr, hsl, hst⟩ rfl hel (fun _ => rfl) rfl (by simp) hb hf
  -- the single call on the whole frame
  obtain ⟨t3, r3, _, _, rx3, _, _⟩ := ckEvents_event y { s with rx := a ++ b } (a ++ b) []
    ⟨⟨hi, hr, hsl, hel⟩, hc⟩ h0 (by simp) hf
  refine ⟨{ s with rx := [], evtBuf := stored s.evtBuf a, cntStatic := a.length,
                    expLen := expLenOf (a.getD 0 0) },
    { t2 with haveEvent := 0 }, t3, ?_, rfl, ?_, rx2, r3, rx3⟩
  · unfold ckEvents
    rw [if_pos h0, e1]
    simp only []
    rw [if_neg (by rw [h0]; decide)]
  · have hx : ∀ t : NxtLcd, t.haveEvent = 0 →
        readEvent none t = .ok (frameCode (a ++ b), t2) →
        ckEvents y t = .ok (1, decodeEvent (a ++ b), { t2 with haveEvent := 0 }) := by
      intro t ht hre
      unfold ckEvents
      rw [if_pos ht]
      simp only [hre]
      rw [if_pos he2, le2]
    exact hx _ h0 r2

theorem ckEvents_split_frame_witness :
    Fresh { idle with rx := [0x65, 0x02] } ∧
    ({ idle with rx := [0x65, 0x02] } : NxtLcd).haveEvent = 0 ∧
    EventFrame [0x65, 0x02, 0x07, 0x01, 0xFF, 0xFF, 0xFF] ∧
    [0x65, 0x02, 0x07, 0x01, 0xFF, 0xFF, 0xFF] = [0x65, 0x02] ++ [0x07, 0x01, 0xFF, 0xFF, 0xFF] ∧
    [0x65, 0x02] ≠ [] ∧ [0x07, 0x01, 0xFF, 0xFF, 0xFF] ≠ [] ∧
    ∃ s1 s2 s3,
      ckEvents ⟨0, 0, 0, 0⟩ { idle with rx := [0x65, 0x02] } = .ok (0, ⟨0, 0, 0, 0⟩, s1) ∧
      s1.rx = [] ∧
      ckEvents ⟨0, 0, 0, 0⟩ { s1 with rx := [0x07, 0x01, 0xFF, 0xFF, 0xFF] } =
        .ok (1, decodeEvent [0x65, 0x02, 0x07, 0x01, 0xFF, 0xFF, 0xFF], s2) ∧ s2.rx = [] ∧
      ckEvents ⟨0, 0, 0, 0⟩ { idle with rx := [0x65, 0x02, 0x07, 0x01, 0xFF, 0xFF, 0xFF] } =
        .ok (1, decodeEvent [0x65, 0x02, 0x07, 0x01, 0xFF, 0xFF, 0xFF], s3) ∧ s3.rx = [] :=
  ⟨by decide, by decide, by decide, by decide, by decide, by decide,
   ckEvents_split_frame ⟨0, 0, 0, 0⟩ ⟨0, 0, 0, 0⟩ [0x65, 0x02, 0x07, 0x01, 0xFF, 0xFF, 0xFF]
     [0x65, 0x02] [0x07, 0x01, 0xFF, 0xFF, 0xFF] { idle with rx := [0x65, 0x02] }
     (by decide) (by decide) (by decide) (by decide) (by decide) (by decide) (by decide)⟩


/-! ## Two events in front of a reply -/

theorem decodeEvent_padded (f : List Nat) (hf : endsFrame f) :
    decodeEvent (padded f) = decodeEvent f := by
  have h4 := endsFrame_length f hf
  have g : ∀ k, k < f.length → (padded f).getD k 0 = f.getD k 0 :=
    fun k hk => padded_getD f k hk
  unfold decodeEvent
  rw [g 0 (by omega)]
  by_cases h65 : f.getD 0 0 = cmdTouchCompEv
  · simp only [if_pos h65]
    rw [g 1 (by omega), g 2 (by omega), g 3 (by omega)]
  · simp only [if_neg h65]
    by_cases hxy : f.getD 0 0 = cmdTouchXYaw ∨ f.getD 0 0 = cmdTouchXYsl
    · have h9 : 9 ≤ f.length := by
        have := hf.1
        have e8 : expLenOf (f.getD 0 0) = 8 := by
          rcases hxy with e | e <;> (rw [e]; decide)
        omega
      simp only [if_pos hxy]
      rw [g 1 (by omega), g 2 (by omega), g 3 (by omega), g 4 (by omega), g 5 (by omega)]
    · simp only [if_neg hxy]
      rw [g 1 (by omega)]

theorem compareReply_event (e code : Nat)
    (hev : code = replyTouchEv ∨ code = replySleepEv ∨ code = replySendMe) :
    compareReply e code = if code = e then replyCmdOk else code := by
  unfold compareReply
  by_cases h0 : e > 0
  · rw [if_pos h0]
  · have e0 : e = 0 := by omega
    rw [if_neg h0, e0]
    rcases hev with c | c | c <;> (rw [c]; decide)

/-- C40: a reply is awaited, nothing is pending, and the display answers the write with two
event frames `e1`, `e2` followed by the bytes `r`.  `writeBuf` stores the event of `e1` in the
event slot and raises `haveEvent`, reads `e2` as the reply and returns its event code
(`replyCmdOk` exactly when that code is `expReply`); `e2` stays in the receive buffer and is
not decoded into the event slot; `r` stays unread on the line. -/
theorem writeBuf_two_events (e w n : Nat) (e1 e2 r : List Nat) (rest : List (List Nat))
    (s : NxtLcd) (h : Ready s) (hrx : s.rx = [])
    (hn : strlen BufId.sendBuf s.sendBuf = .ok n) (hpos : 0 < n)
    (hawait : 0 < e ∨ 0 < s.debug) (hscript : s.script = (e1 ++ e2 ++ r) :: rest)
    (h1 : EventFrame e1) (h2 : EventFrame e2) :
    ∃ s',
      writeBuf e w 0 s = .ok (if frameCode e2 = e then replyCmdOk else frameCode e2, s') ∧
      (frameCode e2 = replyTouchEv ∨ frameCode e2 = replySleepEv ∨
        frameCode e2 = replySendMe) ∧
      s'.haveEvent = 1 ∧ s'.lastEvent = decodeEvent e1 ∧
      s'.sendBuf = padded e2 ∧ s'.rx = r := by
  have hs := ready_sent s (s.sendBuf.take n) w h
  obtain ⟨_, f2, _⟩ := serialWrite_fields s (s.sendBuf.take n)
  have rx2 : ((serialWrite s (s.sendBuf.take n)).2.delay w).rx = e1 ++ (e2 ++ r) := by
    show (serialWrite s (s.sendBuf.take n)).2.rx = _
    rw [f2, hrx, hscript]; simp
  obtain ⟨s3, e3, k3, r3, b3⟩ := readBuf_frame_total _ _ (e2 ++ r) hs h1.1 rx2
  have h3 := ready_of_outside _ _ (outside_of_kept _ _ k3) hs
  obtain ⟨o4, sb4, rx4, _, he4, le4⟩ := storeEvent_outside s3 s3.recvBuf ⟨h3.2.2.1, h3.2.2.2⟩
  have h4 := ready_of_outside _ _ o4 h3
  obtain ⟨s5, e5, k5, r5, b5⟩ := readBuf_frame_total (storeEvent s3 s3.recvBuf) e2 r h4 h2.1
    (by rw [rx4, r3])
  refine ⟨s5, ?_, h2.2, ?_, ?_, b5, r5⟩
  · rw [writeBuf_quiet e w n s h hrx hn hpos, if_pos hawait]
    unfold awaitReply
    simp only [e3]
    rw [if_pos h1.2]
    unfold readEvent
    rw [if_neg h3.1]
    simp only [e5]
    rw [compareReply_event e _ h2.2]
  · rw [k5.haveEvent, he4]
  · rw [k5.lastEvent, le4, h3.2.1]
    show decodeEvent s3.sendBuf = _
    rw [b3]
    exact decodeEvent_padded e1 h1.1.1

theorem writeBuf_two_events_witness :
    Ready (asking [0x65, 0x02, 0x07, 0x01, 0xFF, 0xFF, 0xFF, 0x86, 0xFF, 0xFF, 0xFF,
                   0x01, 0xFF, 0xFF, 0xFF]) ∧
    (asking [0x65, 0x02, 0x07, 0x01, 0xFF, 0xFF, 0xFF, 0x86, 0xFF, 0xFF, 0xFF,
             0x01, 0xFF, 0xFF, 0xFF]).rx = [] ∧
    strlen BufId.sendBuf
      (asking [0x65, 0x02, 0x07, 0x01, 0xFF, 0xFF, 0xFF, 0x86, 0xFF, 0xFF, 0xFF,
               0x01, 0xFF, 0xFF, 0xFF]).sendBuf = .ok 13 ∧
    EventFrame [0x65, 0x02, 0x07, 0x01, 0xFF, 0xFF, 0xFF] ∧ EventFrame [0x86, 0xFF, 0xFF, 0xFF] ∧
    ∃ s',
      writeBuf replyGetNum NXT_REPLY_WAIT 0
          (asking [0x65, 0x02, 0x07, 0x01, 0xFF, 0xFF, 0xFF, 0x86, 0xFF, 0xFF, 0xFF,
                   0x01, 0xFF, 0xFF, 0xFF]) =
        .ok (if frameCode [0x86, 0xFF, 0xFF, 0xFF] = replyGetNum then replyCmdOk
             else frameCode [0x86, 0xFF, 0xFF, 0xFF], s') ∧
      (frameCode [0x86, 0xFF, 0xFF, 0xFF] = replyTouchEv ∨
        frameCode [0x86, 0xFF, 0xFF, 0xFF] = replySleepEv ∨
        frameCode [0x86, 0xFF, 0xFF, 0xFF] = replySendMe) ∧
      s'.haveEvent = 1 ∧
      s'.lastEvent = decodeEvent [0x65, 0x02, 0x07, 0x01, 0xFF, 0xFF, 0xFF] ∧
      s'.sendBuf = padded [0x86, 0xFF, 0xFF, 0xFF] ∧ s'.rx = [0x01, 0xFF, 0xFF, 0xFF] :=
  ⟨by decide, by decide, by decide, by decide, by decide,
   writeBuf_two_events replyGetNum NXT_REPLY_WAIT 13
     [0x65, 0x02, 0x07, 0x01, 0xFF, 0xFF, 0xFF] [0x86, 0xFF, 0xFF, 0xFF]
     [0x01, 0xFF, 0xFF, 0xFF] []
     (asking [0x65, 0x02, 0x07, 0x01, 0xFF, 0xFF, 0xFF, 0x86, 0xFF, 0xFF, 0xFF,
              0x01, 0xFF, 0xFF, 0xFF])
     (by decide) (by decide) (by decide) (by decide) (by decide) (by decide) (by decide)
     (by decide)⟩


/-! ## Time spent waiting for a reply -/

/-- Time spent in the second `switch` of `readBuf`: the grace delay `NXT_REPLY_WAIT * 2` for
the frame `24 FF FF FF` (leading byte `cmdBufOvfl`, terminator ending at position 3), nothing
in every other case. -/
theorem classify_elapsed (s : NxtLcd) (cnt : Nat) :
    (classify s cnt).2.elapsed =
      s.elapsed + (if s.recvAt 0 = cmdBufOvfl ∧ cnt = 3 then NXT_REPLY_WAIT * 2 else 0) := by
  by_cases hov : s.recvAt 0 = cmdBufOvfl ∧ cnt = 3
  · rw [if_pos hov]
    obtain ⟨h5, hc⟩ := hov
    generalize hE : s.elapsed = E
    have r0 : s.recvAt 0 = 0x24 := h5
    simp [classify, r0, hc, cmdFail, cmdOk, cmdInvalidCid, cmdInvalidPage, cmdInvPicId,
      cmdInvFontId, cmdInvVar, cmdBufOvfl, cmdDevReady, delay, hE]
  rw [if_neg hov, Nat.add_zero]
  unfold classify
  by_cases h0 : s.recvAt 0 = cmdFail
  · rw [if_pos h0]
  rw [if_neg h0]
  by_cases h1 : s.recvAt 0 = cmdOk
  · rw [if_pos h1]
  rw [if_neg h1]
  by_cases h2 : s.recvAt 0 = cmdDevReady
  · rw [if_pos h2]
  rw [if_neg h2]
  by_cases h3 : s.recvAt 0 = cmdInvalidCid ∨ s.recvAt 0 = cmdInvalidPage ∨
      s.recvAt 0 = cmdInvPicId ∨ s.recvAt 0 = cmdInvFontId
  · rw [if_pos h3]
    by_cases hc : cnt = 3
    · rw [if_pos hc]
    · rw [if_neg hc]
  rw [if_neg h3]
  by_cases h4 : s.recvAt 0 = cmdInvVar
  · rw [if_pos h4]
  rw [if_neg h4]
  by_cases h5 : s.recvAt 0 = cmdBufOvfl
  · rw [if_pos h5]
    by_cases hc : cnt = 3
    · exact absurd ⟨h5, hc⟩ hov
    · rw [if_neg hc]
  rw [if_neg h5]
  by_cases h6 : s.recvAt 0 = cmdTouchCompEv
  · rw [if_pos h6]
    by_cases hc : cnt = 6
    · rw [if_pos hc]
    · rw [if_neg hc]
  rw [if_neg h6]
  by_cases h7 : s.recvAt 0 = cmdTouchXYaw
  · rw [if_pos h7]
    by_cases hc : cnt = 8
    · rw [if_pos hc]
    · rw [if_neg hc]
  rw [if_neg h7]
  by_cases h8 : s.recvAt 0 = cmdTouchXYsl
  · rw [if_pos h8]
    by_cases hc : cnt = 8
    · rw [if_pos hc]
    · rw [if_neg hc]
  rw [if_neg h8]
  by_cases h9 : s.recvAt 0 = cmdSleepOn ∨ s.recvAt 0 = cmdSleepOff
  · rw [if_pos h9]
    by_cases hc : cnt = 3
    · rw [if_pos hc]
    · rw [if_neg hc]
  rw [if_neg h9]
  by_cases h10 : s.recvAt 0 = cmdGetStr
  · rw [if_pos h10]
  rw [if_neg h10]
  by_cases h11 : s.recvAt 0 = cmdGetNum
  · rw [if_pos h11]
  rw [if_neg h11]
  by_cases h12 : s.recvAt 0 = cmdSendme
  · rw [if_pos h12]
  rw [if_neg h12]
  by_cases h13 : s.recvAt 0 = cmdTDEnd
  · rw [if_pos h13]
  rw [if_neg h13]
  by_cases h14 : s.recvAt 0 = cmdTDReady
  · rw [if_pos h14]
  rw [if_neg h14]

theorem finished_elapsed (s : NxtLcd) (cnt : Nat) :
    (finishFrame (classify s cnt)).2.elapsed = (classify s cnt).2.elapsed := by
  obtain ⟨_, w, hw⟩ := finishFrame_keeps (classify s cnt)
  rw [hw]

/-- The frame `24 FF FF FF` is the one complete frame with leading byte `cmdBufOvfl` whose
terminator ends at position 3. -/
theorem ovfl_frame_iff (f : List Nat) (hf : endsFrame f) :
    (f.getD 0 0 = cmdBufOvfl ∧ f.length - 1 = 3) ↔ f = [0x24, 0xFF, 0xFF, 0xFF] := by
  constructor
  · rintro ⟨h0, hl⟩
    have h4 := endsFrame_length f hf
    have e4 : f.length = 4 := by omega
    obtain ⟨_, t1, t2, t3⟩ := hf
    rw [e4] at t1 t2 t3
    rw [list_of_length_four f e4, h0]
    simp only [Nat.add_one_sub_one, Nat.reduceSub] at t1 t2 t3
    rw [t1, t2, t3]
    rfl
  · intro e
    rw [e]
    decide

/-- Command-path `readBuf` on a line that holds one complete frame: the time spent is the
grace delay for `24 FF FF FF` and nothing for any other frame. -/
theorem readBuf_frame_elapsed (s : NxtLcd) (f rest : List Nat) (h : Ready s)
    (hf : CompleteFrame f) (hrx : s.rx = f ++ rest) :
    ∃ s', readBuf 0 s = .ok (frameCode f, s') ∧ Kept s s' ∧ s'.rx = rest ∧
      s'.elapsed =
        s.elapsed + (if f = [0x24, 0xFF, 0xFF, 0xFF] then NXT_REPLY_WAIT * 2 else 0) := by
  obtain ⟨s', e1, k, r1, _⟩ := readBuf_frame_total s f rest h hf hrx
  refine ⟨s', e1, k, r1, ?_⟩
  have e2 := readBuf_frame s f rest h hf hrx
  rw [e1] at e2
  have e3 : s' = (finishFrame (classify (landed s f rest) (f.length - 1))).2 := by
    injection e2 with e2
    exact congrArg Prod.snd e2
  have h4 := endsFrame_length f hf.1
  rw [e3, finished_elapsed, classify_elapsed, recvAt_landed s f rest 0 h.2.1 (by omega)]
  have c : (f.getD 0 0 = cmdBufOvfl ∧ f.length - 1 = 3) ↔ f = [0x24, 0xFF, 0xFF, 0xFF] :=
    ovfl_frame_iff f hf.1
  by_cases hov : f = [0x24, 0xFF, 0xFF, 0xFF]
  · rw [if_pos (c.mpr hov), if_pos hov]; rfl
  · rw [if_neg (fun x => hov (c.mp x)), if_neg hov]; rfl


/-- Command-path `readBuf` on an empty line: nothing is read, the result is `noReply` and no
time is spent. -/
theorem readBuf_nothing (s : NxtLcd) (h : Ready s) (hrx : s.rx = []) :
    ∃ s', readBuf 0 s = .ok (noReply, s') ∧ s'.elapsed = s.elapsed ∧ s'.rx = [] := by
  refine ⟨{ s with sendBuf := List.replicate NXT_BUF_SIZE 0, cntStatic := 0 }, ?_, rfl, hrx⟩
  rw [readBuf_start s h]
  have e : ∀ l, l = [] → readLoop 0 l 0 noReply
      { s with sendBuf := List.replicate NXT_BUF_SIZE 0, cntStatic := 0 } =
      .ok (noReply, { s with sendBuf := List.replicate NXT_BUF_SIZE 0, cntStatic := 0 }) := by
    intro l hl
    rw [hl]
    rfl
  exact e s.rx hrx

/-- The reply phase of `writeBuf` when the line holds exactly one complete frame: it returns,
and the time spent is the grace delay for `24 FF FF FF` and nothing for any other frame,
an event frame included. -/
theorem awaitReply_elapsed (e : Nat) (s : NxtLcd) (f : List Nat) (h : Ready s)
    (hf : CompleteFrame f) (hrx : s.rx = f) :
    ∃ c s', awaitReply e s = .ok (c, s') ∧
      s'.elapsed =
        s.elapsed + (if f = [0x24, 0xFF, 0xFF, 0xFF] then NXT_REPLY_WAIT * 2 else 0) ∧
      (f = [0x24, 0xFF, 0xFF, 0xFF] → c = compareReply e replyBufOvfl) := by
  obtain ⟨s1, e1, k1, r1, t1⟩ := readBuf_frame_elapsed s f [] h hf (by rw [hrx, List.append_nil])
  have h1 := ready_of_outside _ _ (outside_of_kept _ _ k1) h
  by_cases hev : frameCode f = replyTouchEv ∨ frameCode f = replySleepEv ∨
      frameCode f = replySendMe
  · obtain ⟨o2, _, rx2, _, _, _⟩ := storeEvent_outside s1 s1.recvBuf ⟨h1.2.2.1, h1.2.2.2⟩
    have h2 := ready_of_outside _ _ o2 h1
    obtain ⟨s3, e3, t3, _⟩ := readBuf_nothing (storeEvent s1 s1.recvBuf) h2 (by rw [rx2, r1])
    refine ⟨compareReply e noReply, s3, ?_, ?_, ?_⟩
    · unfold awaitReply
      simp only [e1]
      rw [if_pos hev]
      unfold readEvent
      rw [if_neg h1.1]
      simp only [e3]
    · rw [t3]
      exact t1
    · intro hov
      rw [hov] at hev
      exact absurd hev (by decide)
  · refine ⟨compareReply e (frameCode f), s1, ?_, t1, ?_⟩
    · unfold awaitReply
      simp only [e1]
      rw [if_neg hev]
    · intro hov
      rw [hov]
      rfl

/-- A command sent while a reply is awaited and nothing is pending, answered with exactly one
complete frame: the time spent is the settle delay `wait`, and on top of it the grace delay
when the frame is `24 FF FF FF`. -/
theorem sendCommand_elapsed (r f : List Nat) (rest : List (List Nat)) (e w : Nat) (s : NxtLcd)
    (h : Ready s) (hrx : s.rx = []) (hz : ∀ b ∈ r, b ≠ 0) (hne : r ≠ [])
    (haw : e > 0 ∨ s.debug > 0) (hs : s.script = f :: rest) (hf : CompleteFrame f) :
    ∃ c s', sendCommand r e w s = .ok (c, s') ∧
      s'.elapsed =
        s.elapsed + w + (if f = [0x24, 0xFF, 0xFF, 0xFF] then NXT_REPLY_WAIT * 2 else 0) ∧
      (f = [0x24, 0xFF, 0xFF, 0xFF] → c = compareReply e replyBufOvfl) := by
  obtain ⟨_, _, _, _, _, _, _, run⟩ := sendCommand_sends r e w s h (Or.inl hrx) hz hne
  rw [run haw hrx]
  have hp : Ready { s with sendBuf := padded (r.take 127) } :=
    ⟨h.1, h.2.1, padded_length _ (by
      rw [List.length_take]; show min 127 r.length ≤ 128; omega), h.2.2.2⟩
  have hsent := ready_sent { s with sendBuf := padded (r.take 127) } (r.take 127) w hp
  obtain ⟨_, f2, _, f4, _⟩ :=
    serialWrite_fields { s with sendBuf := padded (r.take 127) } (r.take 127)
  have rx2 : ((serialWrite { s with sendBuf := padded (r.take 127) } (r.take 127)).2.delay
      w).rx = f := by
    show (serialWrite { s with sendBuf := padded (r.take 127) } (r.take 127)).2.rx = _
    rw [f2]
    show s.rx ++ s.script.headD [] = _
    rw [hrx, hs]
    rfl
  obtain ⟨c, s', e1, t1, c1⟩ := awaitReply_elapsed e _ f hsent hf rx2
  refine ⟨c, s', e1, ?_, c1⟩
  rw [t1]
  show (serialWrite { s with sendBuf := padded (r.take 127) } (r.take 127)).2.elapsed + w + _
    = _
  rw [f4]

/-- C32: debug mode, nothing pending, and the display answers the command of
`setNumeric` / `setString` with exactly one complete frame `f`.  Both calls return, and the
time spent in `delay` inside the call is the settle delay `NXT_REPLY_WAIT = 20`, plus the
grace delay `2 * NXT_REPLY_WAIT = 40` exactly when `f` is `24 FF FF FF`; for that frame the
value returned is `replyBufOvfl`. -/
theorem overflow_grace_delay (a : Addr) (v : Int) (value f : List Nat)
    (rest : List (List Nat)) (s : NxtLcd) (h : Ready s) (hrx : s.rx = [])
    (hdbg : s.debug > 0) (ha : AddrOk a) (hv : CStr value)
    (hacc : setStringNeed a value ≤ NXT_BUF_SIZE)
    (hs : s.script = f :: rest) (hf : CompleteFrame f) :
    NXT_REPLY_WAIT = 20 ∧
    ∃ c1 s1 c2 s2,
      setNumeric a v s = .ok (c1, s1) ∧ setString a value s = .ok (c2, s2) ∧
      s1.elapsed = s.elapsed + NXT_REPLY_WAIT +
        (if f = [0x24, 0xFF, 0xFF, 0xFF] then 2 * NXT_REPLY_WAIT else 0) ∧
      s2.elapsed = s.elapsed + NXT_REPLY_WAIT +
        (if f = [0x24, 0xFF, 0xFF, 0xFF] then 2 * NXT_REPLY_WAIT else 0) ∧
      (f = [0x24, 0xFF, 0xFF, 0xFF] → c1 = replyBufOvfl ∧ c2 = replyBufOvfl) := by
  obtain ⟨c1, s1, e1, t1, o1⟩ := sendCommand_elapsed (setNumericText a v) f rest 0
    NXT_REPLY_WAIT s h hrx (nz_setNumericText a v ha) (setNumericText_ne_nil a v)
    (Or.inr hdbg) hs hf
  obtain ⟨c2, s2, e2, t2, o2⟩ := sendCommand_elapsed (setStringText a value) f rest 0
    NXT_REPLY_WAIT s h hrx (nz_setStringText a value ha hv) (setStringText_ne_nil a value)
    (Or.inr hdbg) hs hf
  have m : NXT_REPLY_WAIT * 2 = 2 * NXT_REPLY_WAIT := Nat.mul_comm _ _
  refine ⟨rfl, c1, s1, c2, s2, ?_, ?_, ?_, ?_, ?_⟩
  · unfold setNumeric
    rw [if_neg h.1]
    exact e1
  · unfold setString
    rw [if_neg h.1, if_neg (by omega)]
    exact e2
  · rw [t1, m]
  · rw [t2, m]
  · intro hov
    exact ⟨o1 hov, o2 hov⟩

theorem overflow_grace_delay_witness :
    Ready (debugging [[0x24, 0xFF, 0xFF, 0xFF]]) ∧
    (debugging [[0x24, 0xFF, 0xFF, 0xFF]]).rx = [] ∧
    (debugging [[0x24, 0xFF, 0xFF, 0xFF]]).debug > 0 ∧
    AddrOk (.name (ascii "t0")) ∧ CStr (ascii "hello") ∧
    CompleteFrame [0x24, 0xFF, 0xFF, 0xFF] ∧
    NXT_REPLY_WAIT = 20 ∧
    ∃ c1 s1 c2 s2,
      setNumeric (.name (ascii "t0")) 5 (debugging [[0x24, 0xFF, 0xFF, 0xFF]]) = .ok (c1, s1) ∧
      setString (.name (ascii "t0")) (ascii "hello") (debugging [[0x24, 0xFF, 0xFF, 0xFF]]) =
        .ok (c2, s2) ∧
      s1.elapsed = (debugging [[0x24, 0xFF, 0xFF, 0xFF]]).elapsed + NXT_REPLY_WAIT +
        (if [0x24, 0xFF, 0xFF, 0xFF] = [0x24, 0xFF, 0xFF, 0xFF] then 2 * NXT_REPLY_WAIT
         else 0) ∧
      s2.elapsed = (debugging [[0x24, 0xFF, 0xFF, 0xFF]]).elapsed + NXT_REPLY_WAIT +
        (if [0x24, 0xFF, 0xFF, 0xFF] = [0x24, 0xFF, 0xFF, 0xFF] then 2 * NXT_REPLY_WAIT
         else 0) ∧
      ([0x24, 0xFF, 0xFF, 0xFF] = [0x24, 0xFF, 0xFF, 0xFF] →
        c1 = replyBufOvfl ∧ c2 = replyBufOvfl) :=
  ⟨by decide, by decide, by decide, by decide, by decide, by decide,
   overflow_grace_delay (.name (ascii "t0")) 5 (ascii "hello") [0x24, 0xFF, 0xFF, 0xFF] []
     (debugging [[0x24, 0xFF, 0xFF, 0xFF]]) (by decide) (by decide) (by decide) (by decide)
     (by decide) (by decide) (by decide) (by decide)⟩


/-! ## One frame after another on the command path -/

/-- What a line can look like to the command-path loop: empty; a complete frame in front; at
least `NXT_BUF_SIZE` bytes with no frame ending among the first `NXT_BUF_SIZE`; or fewer bytes
with no frame ending among them. -/
theorem line_cases (l : List Nat) :
    l = [] ∨ (∃ f rest, l = f ++ rest ∧ CompleteFrame f) ∨
    (NXT_BUF_SIZE ≤ l.length ∧ noFrameWithin l NXT_BUF_SIZE) ∨
    (l ≠ [] ∧ l.length < NXT_BUF_SIZE ∧ noFrameWithin l l.length) := by
  have h128 : NXT_BUF_SIZE = 128 := rfl
  by_cases hnil : l = []
  · exact Or.inl hnil
  right
  by_cases hex : ∃ j, j < min l.length NXT_BUF_SIZE ∧ endsFrame (l.take (j + 1))
  · left
    classical
    have hj := Nat.find_spec hex
    have hmin : ∀ i, i < Nat.find hex →
        ¬ (i < min l.length NXT_BUF_SIZE ∧ endsFrame (l.take (i + 1))) :=
      fun i hi => Nat.find_min hex hi
    generalize Nat.find hex = j at hj hmin
    have hl : (l.take (j + 1)).length = j + 1 := by
      rw [List.length_take]; omega
    refine ⟨l.take (j + 1), l.drop (j + 1), (List.take_append_drop _ _).symm, hj.2, ?_, ?_⟩
    · intro i hi hE
      rw [hl] at hi
      rw [List.take_take, show min (i + 1) (j + 1) = i + 1 by omega] at hE
      exact hmin i (by omega) ⟨by omega, hE⟩
    · rw [hl]; omega
  · right
    have hno : ∀ j, j < min l.length NXT_BUF_SIZE → ¬ endsFrame (l.take (j + 1)) :=
      fun j hj hE => hex ⟨j, hj, hE⟩
    by_cases hlen : NXT_BUF_SIZE ≤ l.length
    · left
      exact ⟨hlen, fun j hj => hno j (by omega)⟩
    · right
      exact ⟨hnil, by omega, fun j hj => hno j (by omega)⟩

/-- Command-path `readBuf` on a ready driver is decided by the line alone: two ready drivers
with the same bytes on the line return the same code, hold the same receive buffer afterwards
and leave the same bytes on the line. -/
theorem readBuf_by_line (t1 t2 : NxtLcd) (h1 : Ready t1) (h2 : Ready t2)
    (hrx : t1.rx = t2.rx) :
    ∃ c u1 u2, readBuf 0 t1 = .ok (c, u1) ∧ readBuf 0 t2 = .ok (c, u2) ∧
      u1.sendBuf = u2.sendBuf ∧ u1.rx = u2.rx ∧ Ready u1 ∧ Ready u2 := by
  have start : ∀ t : NxtLcd, Ready t → t.rx = [] →
      readBuf 0 t = .ok (noReply,
        { t with sendBuf := List.replicate NXT_BUF_SIZE 0, cntStatic := 0 }) := by
    intro t ht hnil
    rw [readBuf_start t ht]
    have e : ∀ l, l = [] → readLoop 0 l 0 noReply
        { t with sendBuf := List.replicate NXT_BUF_SIZE 0, cntStatic := 0 } =
        .ok (noReply, { t with sendBuf := List.replicate NXT_BUF_SIZE 0, cntStatic := 0 }) := by
      intro l hl
      rw [hl]
      rfl
    exact e t.rx hnil
  rcases line_cases t1.rx with hnil | ⟨f, rest, hl, hf⟩ | ⟨hlen, hno⟩ | ⟨hne, hlen, hno⟩
  · exact ⟨_, _, _, start t1 h1 hnil, start t2 h2 (hrx ▸ hnil), rfl,
      hnil.trans ((hrx ▸ hnil : t2.rx = []).symm),
      ⟨h1.1, h1.2.1, by simp, h1.2.2.2⟩, ⟨h2.1, h2.2.1, by simp, h2.2.2.2⟩⟩
  · obtain ⟨u1, e1, k1, r1, b1⟩ := readBuf_frame_total t1 f rest h1 hf hl
    obtain ⟨u2, e2, k2, r2, b2⟩ := readBuf_frame_total t2 f rest h2 hf (hrx ▸ hl)
    exact ⟨_, u1, u2, e1, e2, b1.trans b2.symm, r1.trans r2.symm,
      ready_of_outside _ _ (outside_of_kept _ _ k1) h1,
      ready_of_outside _ _ (outside_of_kept _ _ k2) h2⟩
  · have e1 := readBuf_overflow t1 h1 hlen hno
    have e2 := readBuf_overflow t2 h2 (hrx ▸ hlen) (hrx ▸ hno)
    refine ⟨_, _, _, e1, e2, rfl, ?_, ⟨h1.1, h1.2.1, by simp, h1.2.2.2⟩,
      ⟨h2.1, h2.2.1, by simp, h2.2.2.2⟩⟩
    show t1.rx.drop NXT_BUF_SIZE = t2.rx.drop NXT_BUF_SIZE
    rw [hrx]
  · have e1 := readBuf_incomplete t1 t1.rx h1 rfl hne hlen hno
    have e2 := readBuf_incomplete t2 t1.rx h2 hrx.symm hne hlen hno
    have hp : (padded t1.rx).length = NXT_BUF_SIZE := padded_length _ (by omega)
    exact ⟨_, _, _, e1, e2, rfl, rfl, ⟨h1.1, h1.2.1, hp, h1.2.2.2⟩,
      ⟨h2.1, h2.2.1, hp, h2.2.2.2⟩⟩

/-- Command-path `readBuf` returns a frame classification having emptied the line only when
the line was a complete frame. -/
theorem classified_whole_line (s s0 : NxtLcd) (f : List Nat) (c0 : Nat) (h : Ready s)
    (hrx : s.rx = f) (hf : readBuf 0 s = .ok (c0, s0)) (hall : s0.rx = [])
    (hcls : c0 ∉ [notInit, noReply, noComplete, bufOvfl]) :
    CompleteFrame f ∧ c0 = frameCode f := by
  have key : ∀ (c : Nat) (u : NxtLcd), readBuf 0 s = .ok (c, u) → c0 = c ∧ s0 = u := by
    intro c u e
    rw [e] at hf
    injection hf with hf
    exact ⟨(congrArg Prod.fst hf).symm, (congrArg Prod.snd hf).symm⟩
  rcases line_cases s.rx with hnil | ⟨f1, rest, hl, hf1⟩ | ⟨hlen, hno⟩ | ⟨hne, hlen, hno⟩
  · obtain ⟨u, e, _, _⟩ := readBuf_nothing s h hnil
    have := (key _ _ e).1
    rw [this] at hcls
    exact absurd hcls (by decide)
  · obtain ⟨u, e, _, r1, _⟩ := readBuf_frame_total s f1 rest h hf1 hl
    obtain ⟨kc, ks⟩ := key _ _ e
    rw [ks, r1] at hall
    rw [hall, List.append_nil] at hl
    rw [← hrx, hl]
    exact ⟨hf1, kc⟩
  · have := (key _ _ (readBuf_overflow s h hlen hno)).1
    rw [this] at hcls
    exact absurd hcls (by decide)
  · have := (key _ _ (readBuf_incomplete s s.rx h rfl hne hlen hno)).1
    rw [this] at hcls
    exact absurd hcls (by decide)


/-- C34: no state leaks from one frame into the next on the command path.  Let `f` be a byte
sequence on which `readBuf(0)` returns a frame classification `c0` having consumed all of it,
and let `rest` be any bytes.  With `f ++ rest` on the line `readBuf(0)` returns `c0` and
consumes exactly `f`; the second `readBuf(0)` then returns the same code, leaves the same
receive buffer and the same bytes on the line as `readBuf(0)` on a ready driver `d` that has
only `rest` on its line (a freshly initialised one in particular). -/
theorem readBuf_no_leak (s d s0 : NxtLcd) (f rest : List Nat) (c0 : Nat) (h : Ready s)
    (hd : Ready d) (hf : readBuf 0 { s with rx := f } = .ok (c0, s0)) (hall : s0.rx = [])
    (hcls : c0 ∉ [notInit, noReply, noComplete, bufOvfl])
    (hrx : s.rx = f ++ rest) (hdrx : d.rx = rest) :
    ∃ s1 c s2 d2, readBuf 0 s = .ok (c0, s1) ∧ s1.rx = rest ∧
      readBuf 0 s1 = .ok (c, s2) ∧ readBuf 0 d = .ok (c, d2) ∧
      s2.sendBuf = d2.sendBuf ∧ s2.rx = d2.rx := by
  obtain ⟨hcf, hc0⟩ := classified_whole_line { s with rx := f } s0 f c0 h rfl hf hall hcls
  obtain ⟨s1, e1, k1, r1, _⟩ := readBuf_frame_total s f rest h hcf hrx
  have h1 := ready_of_outside _ _ (outside_of_kept _ _ k1) h
  obtain ⟨c, s2, d2, e2, e3, b, r, _, _⟩ := readBuf_by_line s1 d h1 hd (r1.trans hdrx.symm)
  exact ⟨s1, c, s2, d2, by rw [hc0]; exact e1, r1, e2, e3, b, r⟩

theorem readBuf_no_leak_witness :
    Ready { idle with rx := [0x71, 0x2A, 0, 0, 0, 0xFF, 0xFF, 0xFF, 0x65, 0x01] } ∧
    Ready { idle with rx := [0x65, 0x01] } ∧
    readBuf 0 { idle with rx := [0x71, 0x2A, 0, 0, 0, 0xFF, 0xFF, 0xFF] } =
      .ok (replyGetNum, { idle with sendBuf := padded [0x71, 0x2A, 0, 0, 0, 0xFF, 0xFF, 0xFF] }) ∧
    replyGetNum ∉ [notInit, noReply, noComplete, bufOvfl] ∧
    ∃ s1 c s2 d2,
      readBuf 0 { idle with rx := [0x71, 0x2A, 0, 0, 0, 0xFF, 0xFF, 0xFF, 0x65, 0x01] } =
        .ok (replyGetNum, s1) ∧ s1.rx = [0x65, 0x01] ∧
      readBuf 0 s1 = .ok (c, s2) ∧ readBuf 0 { idle with rx := [0x65, 0x01] } = .ok (c, d2) ∧
      s2.sendBuf = d2.sendBuf ∧ s2.rx = d2.rx :=
  ⟨by decide, by decide, by decide, by decide,
   readBuf_no_leak { idle with rx := [0x71, 0x2A, 0, 0, 0, 0xFF, 0xFF, 0xFF, 0x65, 0x01] }
     { idle with rx := [0x65, 0x01] }
     { idle with sendBuf := padded [0x71, 0x2A, 0, 0, 0, 0xFF, 0xFF, 0xFF] }
     [0x71, 0x2A, 0, 0, 0, 0xFF, 0xFF, 0xFF] [0x65, 0x01] replyGetNum
     (by decide) (by decide) (by decide) (by decide) (by decide) (by decide) (by decide)⟩


/-! ## When a read reports a frame -/

/-- Command-path `readBuf` on a ready driver reports a frame classification only for a
complete frame in front of the line: the bytes consumed are that frame, they end in three
`0xFF`, there are more of them than the expected length of the leading byte, and they are
what the receive buffer holds. -/
theorem readBuf_classified_frame (s s' : NxtLcd) (c : Nat) (h : Ready s)
    (hr : readBuf 0 s = .ok (c, s')) (hcls : c ∉ [notInit, noReply, noComplete, bufOvfl]) :
    ∃ f, s.rx = f ++ s'.rx ∧ CompleteFrame f ∧ c = frameCode f ∧ s'.sendBuf = padded f ∧
      expLenOf (f.getD 0 0) + 1 ≤ f.length ∧
      f.getD (f.length - 1) 0 = 0xFF ∧ f.getD (f.length - 2) 0 = 0xFF ∧
      f.getD (f.length - 3) 0 = 0xFF := by
  have key : ∀ (c1 : Nat) (u : NxtLcd), readBuf 0 s = .ok (c1, u) → c = c1 ∧ s' = u := by
    intro c1 u e
    rw [e] at hr
    injection hr with hr
    exact ⟨(congrArg Prod.fst hr).symm, (congrArg Prod.snd hr).symm⟩
  rcases line_cases s.rx with hnil | ⟨f, rest, hl, hf⟩ | ⟨hlen, hno⟩ | ⟨hne, hlen, hno⟩
  · obtain ⟨u, e, _, _⟩ := readBuf_nothing s h hnil
    have := (key _ _ e).1
    rw [this] at hcls
    exact absurd hcls (by decide)
  · obtain ⟨u, e, _, r1, b1⟩ := readBuf_frame_total s f rest h hf hl
    obtain ⟨kc, ks⟩ := key _ _ e
    have h4 := endsFrame_length f hf.1
    obtain ⟨g1, g2, g3, g4⟩ := hf.1
    exact ⟨f, by rw [ks, r1]; exact hl, hf, kc, by rw [ks]; exact b1, by omega, g2, g3, g4⟩
  · have := (key _ _ (readBuf_overflow s h hlen hno)).1
    rw [this] at hcls
    exact absurd hcls (by decide)
  · have := (key _ _ (readBuf_incomplete s s.rx h rfl hne hlen hno)).1
    rw [this] at hcls
    exact absurd hcls (by decide)

/-- C38: the touch frame `65 02 07 01 FF FF FF` arrives in three pieces.  The event drain
finds `65 02` and holds them over (`cntStatic = 2`, `expLen = 6`); the reply read
`readBuf(0)` of a command finds `07 01`, returns `noComplete` and leaves `cntStatic = 2`,
`expLen = 3` behind; the next event-path read finds `FF FF FF`, stores them from position 2
of `evtBuf` and returns the frame classification `replyUnknown` at position 4: the buffer
holds `65 02 FF FF FF`, five bytes under a leading byte whose expected length is 6.  The
same happens through `ckEvents`, `setNumeric` in debug mode and `ckEvents`, and the touch
event is lost; with the whole frame on the line at once `ckEvents` delivers it. -/
theorem readBuf_completes_short_frame :
    (readEvent none { debugging [] with rx := [0x65, 0x02] }).map Prod.fst = .ok noComplete ∧
    (touchBegun.cntStatic, touchBegun.expLen) = (2, 6) ∧
    (readBuf 0 { touchBegun with rx := [0x07, 0x01] }).map Prod.fst = .ok noComplete ∧
    (touchCrossed.cntStatic, touchCrossed.expLen) = (2, 3) ∧
    touchCrossed.evtBuf.take 2 = [0x65, 0x02] ∧
    (readBuf 1 { touchCrossed with recvBuf := BufId.evtBuf, rx := [0xFF, 0xFF, 0xFF] }).map
      Prod.fst = .ok replyUnknown ∧
    replyUnknown ∉ [notInit, noReply, noComplete, bufOvfl] ∧
    (stateOf idle
      (readBuf 1 { touchCrossed with recvBuf := BufId.evtBuf, rx := [0xFF, 0xFF, 0xFF] })).evtBuf
      = [0x65, 0x02, 0xFF, 0xFF, 0xFF, 0, 0, 0, 0, 0] ∧
    expLenOf 0x65 = 6 ∧
    (setNumeric (.name (ascii "n0")) 5 { touchBegun with script := [[0x07, 0x01]] }).map
      Prod.fst = .ok noComplete ∧
    (ckEvents ⟨0, 0, 0, 0⟩
      { stateOf idle
          (setNumeric (.name (ascii "n0")) 5 { touchBegun with script := [[0x07, 0x01]] }) with
        rx := [0xFF, 0xFF, 0xFF] }).map (fun p => (p.1, p.2.2.wrongIdCode, p.2.2.haveEvent)) =
      .ok (0, 0x65, 0) ∧
    (ckEvents ⟨0, 0, 0, 0⟩
      { debugging [] with rx := [0x65, 0x02, 0x07, 0x01, 0xFF, 0xFF, 0xFF] }).map
      (fun p => (p.1, p.2.1)) = .ok (1, ⟨0x65, 0x02, 0x07, 0x01⟩) := by
  decide


/-! ## Reading a text back -/

/-- Command-path `readBuf` on a string reply `0x70 ++ P ++ FF FF FF`: state afterwards. -/
theorem readBuf_string_state (s : NxtLcd) (h : Ready s) (P rest : List Nat)
    (hn1 : 1 ≤ P.length) (hn2 : P.length ≤ 124) (hP : ∀ b ∈ P, b ≠ 0xFF)
    (hrx : s.rx = 0x70 :: P ++ [0xFF, 0xFF, 0xFF] ++ rest) :
    ∃ s2, readBuf 0 s = .ok (replyGetStr, s2) ∧ Kept s s2 ∧ s2.rx = rest ∧
      s2.getStrLen = P.length ∧ s2.sendBuf = padded (0x70 :: P ++ [0xFF, 0xFF, 0xFF]) := by
  have hlen : (0x70 :: P ++ [0xFF, 0xFF, 0xFF]).length = P.length + 4 := by simp
  have hf : CompleteFrame (0x70 :: P ++ [0xFF, 0xFF, 0xFF]) :=
    completeFrame_string P hn1 (by unfold NXT_BUF_SIZE; omega) hP
  have r0 := recvAt_landed s (0x70 :: P ++ [0xFF, 0xFF, 0xFF]) rest 0 h.2.1 (by rw [hlen]; omega)
  have h0 : (0x70 :: P ++ [0xFF, 0xFF, 0xFF]).getD 0 0 = 0x70 := rfl
  rw [h0] at r0
  obtain ⟨e1, e2, e3⟩ := readBuf_frame_code s _ rest h hf hrx
  rw [hlen] at e1 e2 e3
  have hcode : (classify (landed s (0x70 :: P ++ [0xFF, 0xFF, 0xFF]) rest)
      (P.length + 4 - 1)).1 = replyGetStr := by
    generalize landed s (0x70 :: P ++ [0xFF, 0xFF, 0xFF]) rest = X at r0 ⊢
    simp [classify, r0, cmdFail, cmdOk, cmdInvalidCid, cmdInvalidPage,
      cmdInvPicId, cmdInvFontId, cmdInvVar, cmdBufOvfl, cmdTouchCompEv, cmdSendme,
      cmdTouchXYaw, cmdTouchXYsl, cmdGetStr, cmdGetNum, cmdSleepOn, cmdSleepOff, cmdDevReady,
      cmdTDEnd, cmdTDReady]
  have hstr : (finishFrame (classify (landed s (0x70 :: P ++ [0xFF, 0xFF, 0xFF]) rest)
      (P.length + 4 - 1))).2.getStrLen = P.length := by
    generalize landed s (0x70 :: P ++ [0xFF, 0xFF, 0xFF]) rest = X at r0 ⊢
    simp [finishFrame, classify, r0, cmdFail, cmdOk, cmdInvalidCid, cmdInvalidPage,
      cmdInvPicId, cmdInvFontId, cmdInvVar, cmdBufOvfl, cmdTouchCompEv, cmdSendme,
      cmdTouchXYaw, cmdTouchXYsl, cmdGetStr, cmdGetNum, cmdSleepOn, cmdSleepOff, cmdDevReady,
      cmdTDEnd, cmdTDReady, replyGetStr, replyUnknown]
  rw [hcode] at e1
  obtain ⟨s', t1, kk, _, _⟩ := readBuf_frame_total s _ rest h hf hrx
  have es : s' = (finishFrame (classify (landed s (0x70 :: P ++ [0xFF, 0xFF, 0xFF]) rest)
      (P.length + 4 - 1))).2 := by
    rw [e1] at t1
    injection t1 with t1
    exact (congrArg Prod.snd t1).symm
  rw [es] at kk
  exact ⟨_, e1, kk, e2, hstr, e3⟩

theorem nz_getStringText (a : Addr) (ha : AddrOk a) : ∀ b ∈ getStringText a, b ≠ 0 := by
  unfold getStringText
  exact nz_append _ _ (nz_append _ _ (nz_append _ _ (by decide) (nz_addrText a ha))
    (by decide)) (by decide)

/-- What `strncpy` copies out of a buffer that holds a string reply: the first `k` bytes of
the payload, for `k` up to its length. -/
theorem strncpy_payload (dst P tail : List Nat) (k : Nat) (hk : k ≤ P.length)
    (hP : ∀ b ∈ P, b ≠ 0) :
    strncpy dst (P ++ tail) k = P.take k ++ dst.drop k := by
  have e1 : (P ++ tail).take k = P.take k := List.take_append_of_le_length hk
  have e2 : (P.take k).takeWhile (fun x => decide (x ≠ 0)) = P.take k := by
    rw [List.takeWhile_eq_self_iff]
    intro b hb
    exact decide_eq_true (hP b (List.mem_of_mem_take hb))
  unfold strncpy
  rw [e1, e2, List.length_take, Nat.min_eq_left hk, Nat.sub_self]
  simp

/-- Method `getString` on a ready driver with nothing pending, answered with the string reply
`0x70 ++ P ++ FF FF FF` (`1 ≤ n ≤ 124` payload bytes, none `0x00` or `0xFF`): it returns
`replyCmdOk`, and the caller's array holds the first `min(size, n)` bytes of `P`, zeros up to
`size`, and its old content from `size` on. -/
theorem getString_copies (a : Addr) (value P : List Nat) (size : Nat)
    (rest : List (List Nat)) (s : NxtLcd) (h : Ready s) (hrx : s.rx = []) (ha : AddrOk a)
    (hn1 : 1 ≤ P.length) (hn2 : P.length ≤ 124) (hP : ∀ b ∈ P, b ≠ 0 ∧ b ≠ 0xFF)
    (hs : s.script = (0x70 :: P ++ [0xFF, 0xFF, 0xFF]) :: rest) :
    ∃ s', getString a value size s =
      .ok (replyCmdOk,
        P.take (min size P.length) ++ List.replicate (size - min size P.length) 0 ++
          value.drop size, s') := by
  have hne : getStringText a ≠ [] := by simp [getStringText, ascii]
  obtain ⟨_, _, _, _, _, _, _, run⟩ := sendCommand_sends (getStringText a) replyGetStr
    NXT_REPLY_WAIT s h (Or.inl hrx) (nz_getStringText a ha) hne
  have run2 := run (Or.inl (by decide)) hrx
  have hp : Ready { s with sendBuf := padded ((getStringText a).take 127) } :=
    ⟨h.1, h.2.1, padded_length _ (by
      rw [List.length_take]; show min 127 _ ≤ 128; omega), h.2.2.2⟩
  have hsent := ready_sent { s with sendBuf := padded ((getStringText a).take 127) }
    ((getStringText a).take 127) NXT_REPLY_WAIT hp
  obtain ⟨_, f2, _⟩ := serialWrite_fields
    { s with sendBuf := padded ((getStringText a).take 127) } ((getStringText a).take 127)
  have rx2 : ((serialWrite { s with sendBuf := padded ((getStringText a).take 127) }
      ((getStringText a).take 127)).2.delay NXT_REPLY_WAIT).rx =
      0x70 :: P ++ [0xFF, 0xFF, 0xFF] ++ [] := by
    show (serialWrite { s with sendBuf := padded ((getStringText a).take 127) }
      ((getStringText a).take 127)).2.rx = _
    rw [f2]
    show s.rx ++ s.script.headD [] = _
    rw [hrx, hs]
    simp
  obtain ⟨s2, e2, k2, _, g2, b2⟩ := readBuf_string_state _ hsent P [] hn1 hn2
    (fun b hb => (hP b hb).2) rx2
  have hr2 : s2.recvBuf = BufId.sendBuf := k2.recvBuf.trans hsent.2.1
  have haw : sendCommand (getStringText a) replyGetStr NXT_REPLY_WAIT s =
      .ok (replyCmdOk, s2) := by
    rw [run2]
    unfold awaitReply
    simp only [e2]
    rw [if_neg (by decide)]
    rfl
  refine ⟨s2, ?_⟩
  unfold getString
  rw [if_neg h.1]
  simp only [haw]
  rw [hr2, g2]
  have hsrc : (bufOf s2 BufId.sendBuf).drop 1 =
      P ++ ([0xFF, 0xFF, 0xFF] ++
        List.replicate (NXT_BUF_SIZE - (0x70 :: P ++ [0xFF, 0xFF, 0xFF]).length) 0) := by
    show s2.sendBuf.drop 1 = _
    rw [b2]
    unfold padded
    simp
  rw [hsrc, strncpy_payload _ P _ (min size P.length) (Nat.min_le_right _ _)
    (fun b hb => (hP b hb).1)]
  unfold memset0
  rw [List.drop_append_of_le_length (by
    rw [List.length_replicate]; exact Nat.min_le_left _ _)]
  rw [List.drop_replicate, List.append_assoc, if_pos trivial]


/-- C37: `getString("t0", value, size)` on the idle driver, `value` holding `XXXXXXXX`.
Answered with the text `AB` and `size = 8` the array holds `AB` and six NULs; answered with
`ABC` and `size = 2` its first two bytes are `AB` and the rest is untouched; answered with
`1A FF FF FF`, or not at all, it is left as it was.  Answered with the acknowledgement
`01 FF FF FF`, which is not a string frame, the call returns `replyCmdOk` and the array is
zeroed; when an earlier call has read the text `ABC`, the bytes `FF FF FF` of the
acknowledgement are copied into it as text. -/
theorem getString_ack_overwrites :
    (getString (.name (ascii "t0")) (ascii "XXXXXXXX") 8
      (answering [[0x70, 0x41, 0x42, 0xFF, 0xFF, 0xFF]])).map (fun p => (p.1, p.2.1)) =
      .ok (replyCmdOk, [0x41, 0x42, 0, 0, 0, 0, 0, 0]) ∧
    (getString (.name (ascii "t0")) (ascii "XXXXXXXX") 2
      (answering [[0x70, 0x41, 0x42, 0x43, 0xFF, 0xFF, 0xFF]])).map (fun p => (p.1, p.2.1)) =
      .ok (replyCmdOk, [0x41, 0x42] ++ ascii "XXXXXX") ∧
    (getString (.name (ascii "t0")) (ascii "XXXXXXXX") 8
      (answering [[0x1A, 0xFF, 0xFF, 0xFF]])).map (fun p => (p.1, p.2.1)) =
      .ok (replyWrongVar, ascii "XXXXXXXX") ∧
    (getString (.name (ascii "t0")) (ascii "XXXXXXXX") 8
      (answering [[]])).map (fun p => (p.1, p.2.1)) = .ok (noReply, ascii "XXXXXXXX") ∧
    frameCode [0x01, 0xFF, 0xFF, 0xFF] ≠ replyGetStr ∧
    (getString (.name (ascii "t0")) (ascii "XXXXXXXX") 8
      (answering [[0x01, 0xFF, 0xFF, 0xFF]])).map (fun p => (p.1, p.2.1)) =
      .ok (replyCmdOk, [0, 0, 0, 0, 0, 0, 0, 0]) ∧
    ((getString (.name (ascii "t0")) (ascii "XXXXXXXX") 8
        (answering [[0x70, 0x41, 0x42, 0x43, 0xFF, 0xFF, 0xFF], [0x01, 0xFF, 0xFF, 0xFF]])).bind
      (fun p => getString (.name (ascii "t0")) (ascii "XXXXXXXX") 8 p.2.2)).map
      (fun p => (p.1, p.2.1)) = .ok (replyCmdOk, [0xFF, 0xFF, 0xFF, 0, 0, 0, 0, 0]) := by
  decide


/-! ## `setProperty` by index on AVR -/

/-- C25: `setProperty(nxt_dim, 50)` on the idle driver.  On a build other than AVR the bytes
written are `dim=50` and the terminator, as they are for `setProperty("dim", 50)` on every
build.  On AVR the `%s` conversion reads data memory at the address of the table entry, which
is in program memory: with a NUL there the bytes written are `=50` and the terminator, with
`55 41 00` there they are `UA=50` and the terminator; the call returns `replyCmdOk` and the
cache entry of `dim` is set to 50 all the same. -/
theorem setProperty_index_avr :
    (stateOf idle (setProperty false (ramHolding []) (.id nxt_dim) 50 idle)).tx =
      ascii "dim=50" ++ [0xFF, 0xFF, 0xFF] ∧
    (stateOf idle (setProperty true (ramHolding []) (.name (ascii "dim")) 50 idle)).tx =
      ascii "dim=50" ++ [0xFF, 0xFF, 0xFF] ∧
    chkProperty (.id nxt_dim) idle = nxt_dim ∧ sysPropNames.getD nxt_dim [] = ascii "dim" ∧
    (setProperty true (ramHolding [0x00]) (.id nxt_dim) 50 idle).map Prod.fst = .ok replyCmdOk ∧
    (stateOf idle (setProperty true (ramHolding [0x00]) (.id nxt_dim) 50 idle)).tx =
      ascii "=50" ++ [0xFF, 0xFF, 0xFF] ∧
    (stateOf idle (setProperty true (ramHolding [0x55, 0x41, 0x00, 0x64]) (.id nxt_dim) 50 idle)).tx =
      ascii "UA=50" ++ [0xFF, 0xFF, 0xFF] ∧
    (stateOf idle (setProperty true (ramHolding [0x55, 0x41, 0x00, 0x64]) (.id nxt_dim) 50 idle)).sysProp =
      idle.sysProp.set nxt_dim 50 := by
  decide

/-- C39: by name and by index on AVR.  `chkProperty("dim")` is `nxt_dim = 1` and
`chkProperty("dims")` is 2, and entry 1 of the table is `dim`.  On a build other than AVR
`setProperty("dim", 50)` and `setProperty(nxt_dim, 50)` are the same run.  On AVR, with
`2A 00` in data memory at the address of the table entry, `setProperty("dim", 50)` writes
`dim=50` and the terminator and `setProperty(nxt_dim, 50)` writes `*=50` and the terminator;
both set cache entry 1 to 50. -/
theorem setProperty_name_and_index_differ :
    chkProperty (.name (ascii "dim")) idle = nxt_dim ∧
    chkProperty (.name (ascii "dims")) idle = 2 ∧
    sysPropNames.getD nxt_dim [] = ascii "dim" ∧
    setProperty false (ramHolding [0x2A, 0x00]) (.name (ascii "dim")) 50 idle =
      setProperty false (ramHolding [0x2A, 0x00]) (.id nxt_dim) 50 idle ∧
    (stateOf idle (setProperty true (ramHolding [0x2A, 0x00]) (.name (ascii "dim")) 50 idle)).tx =
      ascii "dim=50" ++ [0xFF, 0xFF, 0xFF] ∧
    (stateOf idle (setProperty true (ramHolding [0x2A, 0x00]) (.id nxt_dim) 50 idle)).tx =
      ascii "*=50" ++ [0xFF, 0xFF, 0xFF] ∧
    (stateOf idle (setProperty true (ramHolding [0x2A, 0x00]) (.name (ascii "dim")) 50 idle)).sysProp =
      (stateOf idle (setProperty true (ramHolding [0x2A, 0x00]) (.id nxt_dim) 50 idle)).sysProp := by
  decide

/-! ## Events after a reply that was left incomplete -/

/-- C31: the touch frame `65 02 07 01 FF FF FF` after an empty text was read.
`getString("t0", value, 8)` answered with `70 FF FF FF` returns `noComplete` and leaves no
event cached, an empty line, and the position 4 with the expected length 4 in the statics of
`readBuf`.  `ckEvents` then finds the touch frame on the line, stores it from position 4 of
`evtBuf`, runs into the end of the buffer and returns 0 with the caller's struct untouched:
the event is lost and one `FF` stays on the line.  On the idle driver the same frame gives 1
with the event `(0x65, 2, 7, 1)`. -/
theorem ckEvents_after_empty_text :
    (getString (.name (ascii "t0")) (ascii "XXXXXXXX") 8
      (answering [[0x70, 0xFF, 0xFF, 0xFF]])).map (fun p => p.1) = .ok noComplete ∧
    (emptyTextRead.haveEvent, emptyTextRead.rx, emptyTextRead.cntStatic,
      emptyTextRead.expLen) = (0, [], 4, 4) ∧
    Ready emptyTextRead ∧
    (ckEvents ⟨0, 0, 0, 0⟩
      { emptyTextRead with rx := [0x65, 0x02, 0x07, 0x01, 0xFF, 0xFF, 0xFF] }).map
      (fun p => (p.1, p.2.1, p.2.2.rx, p.2.2.haveEvent)) =
      .ok (0, ⟨0, 0, 0, 0⟩, [0xFF], 0) ∧
    (ckEvents ⟨0, 0, 0, 0⟩ { idle with rx := [0x65, 0x02, 0x07, 0x01, 0xFF, 0xFF, 0xFF] }).map
      (fun p => (p.1, p.2.1)) = .ok (1, ⟨0x65, 0x02, 0x07, 0x01⟩) := by
  decide

/-- C35: the touch frame `65 02 07 01 FF FF FF` arriving as `65 02` and `07 01 FF FF FF`
after an empty text was read (`getString` answered with `70 FF FF FF`, which leaves the
position 4 in the statics of `readBuf`), with no event cached and no command between the two
calls.  `ckEvents` with `65 02` on the line returns 0; the next `ckEvents`, with
`07 01 FF FF FF` on the line, returns 0 as well, with the caller's struct untouched: the
pieces were stored from position 4 of `evtBuf` and ran into its end.  On the idle driver the
same two calls give 0 and then 1 with the event `(0x65, 2, 7, 1)`. -/
theorem ckEvents_split_after_empty_text :
    (emptyTextRead.haveEvent, emptyTextRead.rx, emptyTextRead.cntStatic) = (0, [], 4) ∧
    (ckEvents ⟨0, 0, 0, 0⟩ { emptyTextRead with rx := [0x65, 0x02] }).map
      (fun p => (p.1, p.2.2.cntStatic)) = .ok (0, 6) ∧
    (ckEvents ⟨0, 0, 0, 0⟩
      { eventStateOf idle (ckEvents ⟨0, 0, 0, 0⟩ { emptyTextRead with rx := [0x65, 0x02] }) with
        rx := [0x07, 0x01, 0xFF, 0xFF, 0xFF] }).map
      (fun p => (p.1, p.2.1, p.2.2.haveEvent)) = .ok (0, ⟨0, 0, 0, 0⟩, 0) ∧
    (ckEvents ⟨0, 0, 0, 0⟩ { idle with rx := [0x65, 0x02] }).map (fun p => p.1) = .ok 0 ∧
    (ckEvents ⟨0, 0, 0, 0⟩
      { eventStateOf idle (ckEvents ⟨0, 0, 0, 0⟩ { idle with rx := [0x65, 0x02] }) with
        rx := [0x07, 0x01, 0xFF, 0xFF, 0xFF] }).map
      (fun p => (p.1, p.2.1)) = .ok (1, ⟨0x65, 0x02, 0x07, 0x01⟩) := by
  decide

end NxtLcd
